import Mathlib

/-!
# HopeNest backend: a shallow embedding of the route handlers

The backend is an Express application over Mongoose models.  The embedding
keeps the store as an explicit value (`Store`), every route handler as a
function from the store and the request to the new store and the response,
and the library behaviour the handlers lean on (JavaScript coercions, Mongoose
casting and validation, `jsonwebtoken`, `multer`) as small executable
functions next to them.

Conventions.
* A JavaScript number is an exact decimal fraction or an infinity (`JsNum`);
  `NaN` is a value of its own.  The rounding of a mantissa to the 53 bits of
  a double is left out, the overflow to an infinity and the underflow to zero
  are kept; `-0` is `0`.
* An ObjectId is a natural number; in a request it is written as its decimal
  string, which stands for the 24 character hexadecimal form.  A new document
  takes its `_id` from a counter of the store; an `_id` in a request body is
  not read.
* A date is a number of milliseconds since the epoch.
* A stored password is either a bcrypt hash of a plain text or a raw string;
  a hash compares equal to its plain text only.
* In a filter, a value that is `null` or `undefined` matches a field that is
  unset.
* In an update, a key whose value is `undefined` is dropped before the write,
  as Mongoose does from version 6 on.
* `populate` and `select` only shape the response and are left out; the
  message of a thrown error is written as the name of the error.
-/

namespace HopeNest

/-! ## JavaScript values -/

/-- A JavaScript number other than `NaN`: the decimal fraction
`mantissa / 10 ^ scale`, or an infinity.  A finite number is kept reduced:
its scale is `0` or its mantissa does not end in the digit `0`. -/
inductive JsNum where
  | fin (mantissa : Int) (scale : Nat)
  | inf (negative : Bool)
  deriving DecidableEq, Repr

/-- An integer as a JavaScript number. -/
def JsNum.ofInt (n : Int) : JsNum := .fin n 0

instance (n : Nat) : OfNat JsNum n := ⟨JsNum.ofInt n⟩

/-- The reduced form of `m / 10 ^ s`. -/
def JsNum.reduce (m : Int) : Nat → JsNum
  | 0 => .fin m 0
  | s + 1 => if m % 10 = 0 then JsNum.reduce (m / 10) s else .fin m (s + 1)

/-- The number of decimal digits of a natural number. -/
def digitCount (n : Nat) : Nat := (Nat.toDigits 10 n).length

/-- The number `m / 10 ^ s` as a double holds it, the rounding of the
mantissa apart: a magnitude of `2 ^ 1024 - 2 ^ 970` or more is an infinity, a
magnitude of `2 ^ (-1075)` or less is zero.  The count of digits settles the
two questions for every number that is not next to a bound. -/
def JsNum.make (m : Int) (s : Nat) : JsNum :=
  if m = 0 then .fin 0 0
  else if 309 + s < digitCount m.natAbs then .inf (decide (m < 0))
  else if digitCount m.natAbs = 309 + s ∧ (2 ^ 1024 - 2 ^ 970) * 10 ^ s ≤ m.natAbs then
    .inf (decide (m < 0))
  else if digitCount m.natAbs + 323 < s then .fin 0 0
  else if digitCount m.natAbs + 323 = s ∧ m.natAbs * 2 ^ 1075 ≤ 10 ^ s then .fin 0 0
  else JsNum.reduce m s

/-- The number `m * 10 ^ e` with the sign `negative`; an exponent far out of
the range of a double is answered without the power being taken. -/
def JsNum.scaled (negative : Bool) (m : Nat) (e : Int) : JsNum :=
  if m = 0 then .fin 0 0
  else if 309 < (digitCount m : Int) + e then .inf negative
  else if (digitCount m : Int) + e < -323 then .fin 0 0
  else if 0 ≤ e then
    JsNum.make ((if negative then - (m : Int) else (m : Int)) * 10 ^ e.toNat) 0
  else JsNum.make (if negative then - (m : Int) else (m : Int)) (-e).toNat

/-- The JavaScript sum `x + y` of two numbers; `none` is `NaN`. -/
def JsNum.add : JsNum → JsNum → Option JsNum
  | .fin m s, .fin n t => some (JsNum.make (m * 10 ^ (t - s) + n * 10 ^ (s - t)) (max s t))
  | .inf a, .inf b => if a = b then some (.inf a) else none
  | .inf a, .fin _ _ => some (.inf a)
  | .fin _ _, .inf b => some (.inf b)

/-- The comparison `x >= k` with an integer `k`. -/
def JsNum.geInt (x : JsNum) (k : Int) : Bool :=
  match x with
  | .fin m s => decide (k * 10 ^ s ≤ m)
  | .inf negative => !negative

/-- The time value of `new Date(x)`: `x` cut to an integer, when its
magnitude is at most `8.64e15`; `none` is an invalid date. -/
def JsNum.toTime : JsNum → Option Int
  | .fin m s =>
    if m.natAbs ≤ 8640000000000000 * 10 ^ s then
      some (if m < 0 then - ((m.natAbs / 10 ^ s : Nat) : Int)
            else ((m.natAbs / 10 ^ s : Nat) : Int))
    else none
  | .inf _ => none

/-- The digits of a non-zero number without the zeros at their end. -/
def significantDigits (n : Nat) : List Char :=
  ((Nat.toDigits 10 n).reverse.dropWhile (fun c => c == '0')).reverse

/-- The conversion `String(x)` of a number, `Number::toString` of the
language: with `k` significant digits and the decimal point after `n` of
them, plain digits for `k ≤ n ≤ 21`, a decimal point for `0 < n ≤ 21`, leading
zeros for `-6 < n ≤ 0`, and the exponent form for every other `n`. -/
def JsNum.toJsString : JsNum → String
  | .inf negative => if negative then "-Infinity" else "Infinity"
  | .fin m s =>
    if m = 0 then "0"
    else
      (if m < 0 then "-" else "") ++
      (if (significantDigits m.natAbs).length + s ≤ digitCount m.natAbs
          ∧ digitCount m.natAbs ≤ 21 + s then
        String.mk (significantDigits m.natAbs
          ++ List.replicate (digitCount m.natAbs - s - (significantDigits m.natAbs).length) '0')
      else if s < digitCount m.natAbs ∧ digitCount m.natAbs ≤ 21 + s then
        String.mk ((significantDigits m.natAbs).take (digitCount m.natAbs - s)
          ++ '.' :: (significantDigits m.natAbs).drop (digitCount m.natAbs - s))
      else if digitCount m.natAbs ≤ s ∧ s < digitCount m.natAbs + 6 then
        String.mk ('0' :: '.' :: List.replicate (s - digitCount m.natAbs) '0'
          ++ significantDigits m.natAbs)
      else
        String.mk
          (match significantDigits m.natAbs with
           | [] => []
           | [d] => [d]
           | d :: rest => d :: '.' :: rest)
        ++ (if s < digitCount m.natAbs
            then "e+" ++ toString (digitCount m.natAbs - s - 1)
            else "e-" ++ toString (s + 1 - digitCount m.natAbs)))

/-- A JavaScript value as a request body, a token payload or an expression
of a handler can hold it. -/
inductive JVal where
  | undefined
  | null
  | bool (b : Bool)
  | num (n : JsNum)
  | nan
  | str (s : String)
  | arr (xs : List JVal)
  | obj (kvs : List (String × JVal))

/-- A parsed object: `req.body`, `req.query`, a token payload. -/
abbrev Body := List (String × JVal)

/-- Property read `o[k]`: `undefined` when the key is absent. -/
def Body.get (o : Body) (k : String) : JVal :=
  match o.find? (fun kv => kv.1 == k) with
  | some kv => kv.2
  | none => JVal.undefined

/-- JavaScript truthiness, as `if (v)`, `!v` and `v || w` use it. -/
def truthy : JVal → Bool
  | .undefined => false
  | .null => false
  | .bool b => b
  | .num n => n != 0
  | .nan => false
  | .str s => s != ""
  | .arr _ => true
  | .obj _ => true

/-- Truthiness of an optional string field of a document. -/
def truthyStr : Option String → Bool
  | some s => s != ""
  | none => false

/-- Decimal digits to a natural number; `none` on an empty or non-digit list. -/
def parseDigits (cs : List Char) : Option Nat :=
  match cs with
  | [] => none
  | _ => if cs.all Char.isDigit
         then some (cs.foldl (fun acc c => acc * 10 + (c.toNat - 48)) 0)
         else none

/-- The value of a digit in a base up to sixteen. -/
def digitValue (c : Char) : Option Nat :=
  if 48 ≤ c.toNat ∧ c.toNat ≤ 57 then some (c.toNat - 48)
  else if 97 ≤ c.toNat ∧ c.toNat ≤ 102 then some (c.toNat - 87)
  else if 65 ≤ c.toNat ∧ c.toNat ≤ 70 then some (c.toNat - 55)
  else none

/-- A non-empty run of digits of a base; `none` on any other list. -/
def parseRadix (base : Nat) (cs : List Char) : Option Nat :=
  match cs with
  | [] => none
  | _ =>
    cs.foldl (fun acc c =>
      match acc, digitValue c with
      | some a, some d => if d < base then some (a * base + d) else none
      | _, _ => none) (some 0)

/-- The exponent of a decimal literal after its letter: a sign, if any, and
digits. -/
def parseExponent : List Char → Option Int
  | '-' :: cs => (parseDigits cs).map (fun n => - (n : Int))
  | '+' :: cs => (parseDigits cs).map (fun n => (n : Int))
  | cs => (parseDigits cs).map (fun n => (n : Int))

/-- An unsigned decimal literal: digits with at most one decimal point, at
least one digit before or after it, and an exponent part, if any. -/
def parseDecimal (negative : Bool) (cs : List Char) : Option JsNum :=
  let mant := cs.takeWhile (fun c => c != 'e' && c != 'E')
  let ex := cs.dropWhile (fun c => c != 'e' && c != 'E')
  let ip := mant.takeWhile (fun c => c != '.')
  let fp := (mant.dropWhile (fun c => c != '.')).drop 1
  match (if ex.isEmpty then some 0 else parseExponent (ex.drop 1)) with
  | none => none
  | some e =>
    if ip.all Char.isDigit && fp.all Char.isDigit && !(ip ++ fp).isEmpty then
      some (JsNum.scaled negative
        ((ip ++ fp).foldl (fun acc c => acc * 10 + (c.toNat - 48)) 0) (e - fp.length))
    else none

/-- A decimal literal after its sign: `Infinity` or a decimal literal. -/
def parseUnsigned (negative : Bool) (cs : List Char) : Option JsNum :=
  if cs = "Infinity".data then some (.inf negative) else parseDecimal negative cs

/-- JavaScript white space, the class `\s` of a regular expression. -/
def isJsSpace (c : Char) : Bool :=
  c == ' ' || c == '\t' || c == '\n' || c == '\r' || c.toNat == 11 || c.toNat == 12
  || c.toNat == 160 || c.toNat == 5760 || (8192 ≤ c.toNat && c.toNat ≤ 8202)
  || c.toNat == 8232 || c.toNat == 8233 || c.toNat == 8239 || c.toNat == 8287
  || c.toNat == 12288 || c.toNat == 65279

/-- `s.trim()`. -/
def trimJs (s : String) : String :=
  String.mk ((s.data.dropWhile isJsSpace).reverse.dropWhile isJsSpace).reverse

/-- The conversion of a string to a number, `StringToNumber` of the
language: white space around the literal is dropped; the empty string is
`0`; a literal is a decimal literal with a sign, if any, or an unsigned
literal in base 16, 8 or 2; `none` is `NaN`. -/
def stringToNumber (s : String) : Option JsNum :=
  match (trimJs s).data with
  | [] => some 0
  | '0' :: 'x' :: cs => (parseRadix 16 cs).map (fun n => JsNum.make n 0)
  | '0' :: 'X' :: cs => (parseRadix 16 cs).map (fun n => JsNum.make n 0)
  | '0' :: 'o' :: cs => (parseRadix 8 cs).map (fun n => JsNum.make n 0)
  | '0' :: 'O' :: cs => (parseRadix 8 cs).map (fun n => JsNum.make n 0)
  | '0' :: 'b' :: cs => (parseRadix 2 cs).map (fun n => JsNum.make n 0)
  | '0' :: 'B' :: cs => (parseRadix 2 cs).map (fun n => JsNum.make n 0)
  | '+' :: cs => parseUnsigned false cs
  | '-' :: cs => parseUnsigned true cs
  | cs => parseUnsigned false cs

mutual
/-- `xs.join(",")`. -/
def joinJs : List JVal → String
  | [] => ""
  | [x] => elemJs x
  | x :: y :: rest => elemJs x ++ "," ++ joinJs (y :: rest)
/-- One element of `Array.prototype.join`: `null` and `undefined` print as
the empty string, every other value as `String(v)`. -/
def elemJs : JVal → String
  | .undefined => ""
  | .null => ""
  | .bool b => if b then "true" else "false"
  | .num n => n.toJsString
  | .nan => "NaN"
  | .str s => s
  | .arr xs => joinJs xs
  | .obj _ => "[object Object]"
end

/-- `String(v)`. -/
def JVal.toJsString : JVal → String
  | .undefined => "undefined"
  | .null => "null"
  | .bool b => if b then "true" else "false"
  | .num n => n.toJsString
  | .nan => "NaN"
  | .str s => s
  | .arr xs => joinJs xs
  | .obj _ => "[object Object]"

/-- The JavaScript `n + v` for a number `n` on the left: numeric addition
for numbers, booleans and `null`, string concatenation as soon as the right
operand is a string, an array or an object. -/
def jsAdd (n : JsNum) : JVal → JVal
  | .num m =>
    match n.add m with
    | some r => .num r
    | none => .nan
  | .nan => .nan
  | .undefined => .nan
  | .null => .num n
  | .bool b =>
    match n.add (if b then 1 else 0) with
    | some r => .num r
    | none => .nan
  | .str s => .str (n.toJsString ++ s)
  | .arr xs => .str (n.toJsString ++ JVal.toJsString (.arr xs))
  | .obj kvs => .str (n.toJsString ++ JVal.toJsString (.obj kvs))

/-- `Number(v)`. -/
def jsNumber : JVal → JVal
  | .undefined => .nan
  | .null => .num 0
  | .bool b => .num (if b then 1 else 0)
  | .num n => .num n
  | .nan => .nan
  | .str s =>
    match stringToNumber s with
    | some n => .num n
    | none => .nan
  | .arr xs =>
    match stringToNumber (joinJs xs) with
    | some n => .num n
    | none => .nan
  | .obj _ => .nan

/-! ## Mongoose casting -/

/-- Outcome of casting a value to a schema type. -/
inductive CastResult (α : Type) where
  | error
  | absent
  | value (v : α)
  deriving DecidableEq, Repr

/-- The function `castNumber` of Mongoose: a string or a boolean goes
through `Number`, and `NaN` is refused. -/
def castNumberValue : JVal → CastResult JsNum
  | .undefined => .absent
  | .null => .absent
  | .str s =>
    if s == "" then .absent
    else match stringToNumber s with
      | some n => .value n
      | none => .error
  | .bool b => .value (if b then 1 else 0)
  | .num n => .value n
  | .nan => .error
  | .arr _ => .error
  | .obj _ => .error

/-- The cast of a `Number` path: an object with an `_id` is cast by its
`_id`, every other value as it is. -/
def castNumber : JVal → CastResult JsNum
  | .obj kvs =>
    match Body.get kvs "_id" with
    | .undefined => .error
    | v => castNumberValue v
  | v => castNumberValue v

/-- Mongoose `castString`. -/
def castString : JVal → CastResult String
  | .undefined => .absent
  | .null => .absent
  | .str s => .value s
  | .num n => .value n.toJsString
  | .nan => .value "NaN"
  | .bool b => .value (if b then "true" else "false")
  | .arr _ => .error
  | .obj kvs =>
    match Body.get kvs "_id" with
    | .str s => if s != "" then .value s else .error
    | _ => .error

/-- Mongoose `castBoolean`, with its `convertToTrue` and `convertToFalse`
sets. -/
def castBoolean : JVal → CastResult Bool
  | .undefined => .absent
  | .null => .absent
  | .bool b => .value b
  | .num n => if n == 1 then .value true else if n == 0 then .value false else .error
  | .str s =>
    if s == "true" || s == "1" || s == "yes" then .value true
    else if s == "false" || s == "0" || s == "no" then .value false
    else .error
  | .nan => .error
  | .arr _ => .error
  | .obj _ => .error

/-- An ObjectId string: a non-empty decimal numeral. -/
def parseObjectId (s : String) : Option Nat := parseDigits s.data

/-- Mongoose `castObjectId`. -/
def castObjectId : JVal → CastResult Nat
  | .undefined => .absent
  | .null => .absent
  | .str s =>
    match parseObjectId s with
    | some i => .value i
    | none => .error
  | .num n =>
    match parseObjectId n.toJsString with
    | some i => .value i
    | none => .error
  | .obj kvs =>
    match Body.get kvs "_id" with
    | .str s =>
      match parseObjectId s with
      | some i => .value i
      | none => .error
    | _ => .error
  | .bool _ => .error
  | .nan => .error
  | .arr _ => .error

/-- Mongoose `castDate`; `parseDate` is the date parser of the JavaScript
engine.  A boolean is refused; a number is a time value; a string that reads
as a number from `275761` on or below `-271820` is a time value too, every
other string, and an array through its `join`, goes to the date parser. -/
def castDate (parseDate : String → Option Int) : JVal → CastResult Int
  | .undefined => .absent
  | .null => .absent
  | .str s =>
    if s == "" then .absent
    else
      match stringToNumber s with
      | some n =>
        if n.geInt 275761 || !n.geInt (-271820) then
          match n.toTime with
          | some t => .value t
          | none => .error
        else
          match parseDate s with
          | some t => .value t
          | none => .error
      | none =>
        match parseDate s with
        | some t => .value t
        | none => .error
  | .num n =>
    match n.toTime with
    | some t => .value t
    | none => .error
  | .bool _ => .error
  | .nan => .error
  | .arr xs =>
    match parseDate (joinJs xs) with
    | some t => .value t
    | none => .error
  | .obj _ => .error

/-- Cast of a `[String]` path: an array is cast element by element, any
other value is wrapped into a one element array. -/
def castStringArray : JVal → CastResult (List String)
  | .undefined => .absent
  | .null => .absent
  | .arr xs =>
    xs.foldr (fun x acc =>
      match castString x, acc with
      | .value s, .value l => .value (s :: l)
      | .absent, .value l => .value l
      | _, _ => .error) (.value [])
  | v =>
    match castString v with
    | .value s => .value [s]
    | .absent => .absent
    | .error => .error

/-- The date `new Date(v)` as a `JVal` for the cast that follows: a number of
milliseconds, or `NaN` for an invalid date.  A string, and an array through
its `join`, goes to the date parser; an object prints as `[object Object]`,
which is no date. -/
def jsNewDate (parseDate : String → Option Int) : JVal → JVal
  | .undefined => .nan
  | .null => .num 0
  | .bool b => .num (if b then 1 else 0)
  | .num n =>
    match n.toTime with
    | some t => .num (JsNum.ofInt t)
    | none => .nan
  | .nan => .nan
  | .str s =>
    match parseDate s with
    | some t => .num (JsNum.ofInt t)
    | none => .nan
  | .arr xs =>
    match parseDate (joinJs xs) with
    | some t => .num (JsNum.ofInt t)
    | none => .nan
  | .obj _ => .nan

/-- A path of a new document: the schema default when the value is
`undefined`, the cast value otherwise; `none` is a cast error. -/
def pathOr {α : Type} (cast : JVal → CastResult α) (dflt : Option α) (v : JVal) :
    Option (Option α) :=
  match v with
  | .undefined => some dflt
  | _ =>
    match cast v with
    | .error => none
    | .absent => some none
    | .value x => some (some x)

/-- A path of an update: `none` is a cast error, `some none` leaves the
stored value alone (the key is absent or `undefined`, which Mongoose strips),
`some (some w)` writes `w` (`w = none` writes `null`). -/
def pathSet {α : Type} (cast : JVal → CastResult α) (v : JVal) :
    Option (Option (Option α)) :=
  match v with
  | .undefined => some none
  | _ =>
    match cast v with
    | .error => none
    | .absent => some (some none)
    | .value x => some (some (some x))

/-- Apply the outcome of `pathSet` to a stored value. -/
def applySet {α : Type} (old : Option α) : Option (Option α) → Option α
  | none => old
  | some w => w

/-! ## Documents and the store -/

/-- The `password` field of a user: `hash p` is the salted bcrypt hash of
the plain text `p`, `raw t` is the string `t` stored as it came. -/
inductive Password where
  | hash (plain : String)
  | raw (text : String)
  deriving DecidableEq, Repr

/-- A document of `models/User.js`. -/
structure User where
  _id : Nat
  name : Option String
  email : Option String
  password : Option Password
  googleId : Option String
  facebookId : Option String
  avatar : Option String
  provider : Option String
  role : Option String
  isBlocked : Option Bool
  resetToken : Option String
  resetTokenExpiry : Option Int
  createdAt : Option Int
  deriving DecidableEq, Repr

/-- A document of `models/Campaign.js`. -/
structure Campaign where
  _id : Nat
  title : Option String
  description : Option String
  targetAmount : Option JsNum
  currentAmount : Option JsNum
  startDate : Option Int
  endDate : Option Int
  imageUrl : Option String
  type : Option String
  category : Option String
  organizer : Option Nat
  status : Option String
  documents : List String
  rejectionReason : Option String
  emailVerified : Option Bool
  createdAt : Int
  updatedAt : Int
  deriving DecidableEq, Repr

/-- A document of `models/Donation.js`. -/
structure Donation where
  _id : Nat
  amount : Option JsNum
  type : Option String
  name : Option String
  email : Option String
  phone : Option String
  paymentMethod : Option String
  reminder : Option Bool
  date : Option Int
  status : Option String
  userId : Option Nat
  campaignId : Option Nat
  deriving DecidableEq, Repr

/-- The database: the three collections the handlers below write, and the
counter the next `_id` comes from. -/
structure Store where
  users : List User
  campaigns : List Campaign
  donations : List Donation
  nextId : Nat
  deriving DecidableEq, Repr

/-- A decoded JSON web token: the key it was signed with, its `exp` claim in
seconds and its payload. -/
structure Jwt where
  key : String
  exp : Option Int
  payload : Body

/-- What a request sees of the process and of the outside world. -/
structure Env where
  /-- The clock `Date.now()`, in milliseconds. -/
  now : Int
  /-- The variable `process.env.JWT_SECRET`. -/
  jwtSecret : String
  /-- The decoding of a token string; `none` for a malformed token. -/
  decodeJwt : String → Option Jwt
  /-- The date parser of the JavaScript engine. -/
  parseDate : String → Option Int
  /-- Whether the mail transport accepts the message. -/
  mailOk : Bool
  /-- The code `crypto.randomBytes(3).toString('hex').toUpperCase()` draws. -/
  resetCode : String

/-- The body of a response. -/
inductive Payload where
  | message (m : String)
  | text (m : String)
  | page (heading : String)
  | campaign (c : Campaign)
  | campaigns (cs : List Campaign)
  | donation (d : Donation)
  | failure (m : String)
  | success (m : String)
  | session (userId : Nat) (name : Option String)
  | user (u : User)
  | account (userId : Nat) (name email avatar role : Option String)
  | users (us : List User)
  deriving DecidableEq, Repr

/-- An HTTP response: status code and body. -/
structure Resp where
  status : Nat
  body : Payload
  deriving DecidableEq, Repr

/-! ## Schema validation -/

/-- The `required: true` validator of a String path. -/
def requiredStr : Option String → Bool
  | some s => s != ""
  | none => false

/-- An `enum` validator: it runs only on a value that is present. -/
def enumOk (allowed : List String) : Option String → Bool
  | some s => allowed.contains s
  | none => true

/-- The validators of `campaignSchema`. -/
def validateCampaign (c : Campaign) : Bool :=
  requiredStr c.title && requiredStr c.description && c.targetAmount.isSome
  && enumOk ["campaign", "crowdfunding"] c.type
  && enumOk ["pending", "approved", "rejected"] c.status

/-- The validators of `donationSchema`. -/
def validateDonation (d : Donation) : Bool :=
  d.amount.isSome && requiredStr d.type && enumOk ["once", "monthly"] d.type
  && requiredStr d.name && requiredStr d.email && requiredStr d.phone
  && requiredStr d.paymentMethod

/-- The `required` function of `userSchema.password`: a password is required
when neither OAuth identifier is set. -/
def passwordRequired (u : User) : Bool :=
  !truthyStr u.googleId && !truthyStr u.facebookId

/-- The `required` validator on the `password` path: a hash is never empty,
a raw string may be. -/
def passwordPresent : Option Password → Bool
  | some (.hash _) => true
  | some (.raw t) => t != ""
  | none => false

/-- The validators of `userSchema`. -/
def validateUser (u : User) : Bool :=
  requiredStr u.name && requiredStr u.email
  && (!passwordRequired u || passwordPresent u.password)
  && enumOk ["local", "google", "facebook"] u.provider
  && enumOk ["user", "admin"] u.role

/-! ## Queries on a String path -/

/-- Lexicographic order on code points, the order MongoDB compares strings
in. -/
def charsLt : List Char → List Char → Bool
  | [], [] => false
  | [], _ :: _ => true
  | _ :: _, [] => false
  | a :: as, b :: bs => a.toNat < b.toNat || (a.toNat == b.toNat && charsLt as bs)

/-- The order `a < b` on strings. -/
def strLt (a b : String) : Bool := charsLt a.data b.data

/-- Equality condition of a query: a value matches the field that holds it,
`null` matches a field that is `null` or missing. -/
def eqCond (arg : JVal) : Option (Option String → Bool) :=
  match castString arg with
  | .error => none
  | .absent => some (fun f => f == none)
  | .value s => some (fun f => f == some s)

/-- Membership condition `$in` over the elements of an array. -/
def inCond : List JVal → Option (Option String → Bool)
  | [] => some (fun _ => false)
  | x :: xs =>
    match eqCond x, inCond xs with
    | some p, some q => some (fun f => p f || q f)
    | _, _ => none

/-- One query operator on a String path; `none` when Mongoose refuses the
operator or cannot cast its argument.  The operators `$regex`, `$options`,
`$not` and `$all` are outside the embedding and refused. -/
def opCond (op : String) (arg : JVal) : Option (Option String → Bool) :=
  if op == "$eq" then eqCond arg
  else if op == "$ne" then (eqCond arg).map (fun p f => !p f)
  else if op == "$in" then
    match arg with
    | .arr xs => inCond xs
    | _ => none
  else if op == "$nin" then
    match arg with
    | .arr xs => (inCond xs).map (fun p f => !p f)
    | _ => none
  else if op == "$exists" then
    match castBoolean arg with
    | .value b => some (fun f => f.isSome == b)
    | _ => none
  else if op == "$gt" then
    match castString arg with
    | .error => none
    | .absent => some (fun _ => false)
    | .value s => some (fun f => match f with | some v => strLt s v | none => false)
  else if op == "$gte" then
    match castString arg with
    | .error => none
    | .absent => some (fun f => f == none)
    | .value s => some (fun f => match f with | some v => !strLt v s | none => false)
  else if op == "$lt" then
    match castString arg with
    | .error => none
    | .absent => some (fun _ => false)
    | .value s => some (fun f => match f with | some v => strLt v s | none => false)
  else if op == "$lte" then
    match castString arg with
    | .error => none
    | .absent => some (fun f => f == none)
    | .value s => some (fun f => match f with | some v => !strLt s v | none => false)
  else none

/-- The conjunction of the operators of a condition object. -/
def opsCond : List (String × JVal) → Option (Option String → Bool)
  | [] => some (fun _ => true)
  | kv :: rest =>
    match opCond kv.1 kv.2, opsCond rest with
    | some p, some q => some (fun f => p f && q f)
    | _, _ => none

/-- Whether a key is a query operator. -/
def isOperator (k : String) : Bool :=
  match k.data with
  | '$' :: _ => true
  | _ => false

/-- The condition that a filter value puts on a String path, as Mongoose
casts it: a plain value is an equality, an array an implicit `$in`, an object
with an operator key a conjunction of operators.  `none` is a thrown
`CastError`. -/
def stringCond (v : JVal) : Option (Option String → Bool) :=
  match v with
  | .arr xs => inCond xs
  | .obj kvs =>
    if kvs.any (fun kv => isOperator kv.1) then opsCond kvs else eqCond (.obj kvs)
  | _ => eqCond v

/-! ## Collections -/

/-- Replace the first element that satisfies `p`. -/
def replaceFirst {α : Type} (p : α → Bool) (f : α → α) : List α → List α
  | [] => []
  | x :: xs => if p x then f x :: xs else x :: replaceFirst p f xs

/-- Remove the first element that satisfies `p`. -/
def removeFirst {α : Type} (p : α → Bool) : List α → List α
  | [] => []
  | x :: xs => if p x then xs else x :: removeFirst p xs

/-- Write a campaign document back under its `_id`. -/
def Store.putCampaign (s : Store) (c : Campaign) : Store :=
  { s with campaigns := replaceFirst (fun d => d._id == c._id) (fun _ => c) s.campaigns }

/-- Write a user document back under its `_id`. -/
def Store.putUser (s : Store) (u : User) : Store :=
  { s with users := replaceFirst (fun d => d._id == u._id) (fun _ => u) s.users }

/-- The call `Campaign.findById(i)`. -/
def Store.campaignById (s : Store) (i : Nat) : Option Campaign :=
  s.campaigns.find? (fun c => c._id == i)

/-- The call `User.findById(i)`. -/
def Store.userById (s : Store) (i : Nat) : Option User :=
  s.users.find? (fun u => u._id == i)

/-! ## Tokens and the authentication middleware -/

/-- The two errors `jwt.verify` throws: `JsonWebTokenError` for a token that
is malformed or signed with another key, `TokenExpiredError` for a token past
its `exp`. -/
inductive JwtError where
  | invalid
  | expired
  deriving DecidableEq, Repr

/-- The call `jwt.verify(token, process.env.JWT_SECRET)`: the payload of a
token signed with the secret and not expired, or the error it throws. -/
def jwtVerify (env : Env) (token : String) : Except JwtError Body :=
  match env.decodeJwt token with
  | none => .error .invalid
  | some j =>
    if j.key != env.jwtSecret then .error .invalid
    else if (match j.exp with
             | some e => decide (e ≤ env.now / 1000)
             | none => false)
    then .error .expired
    else .ok j.payload

/-- The call `s.split(sep)` on a list of characters. -/
def splitOn (sep : Char) : List Char → List (List Char)
  | [] => [[]]
  | c :: cs =>
    if c == sep then [] :: splitOn sep cs
    else
      match splitOn sep cs with
      | [] => [[c]]
      | w :: ws => (c :: w) :: ws

/-- The token of the handlers that verify it themselves:
`req.headers.authorization?.split(' ')[1]`. -/
def inlineToken (authorization : Option String) : Option String :=
  match authorization with
  | none => none
  | some h => ((splitOn ' ' h.data).get? 1).map String.mk

/-- The token of `requireAuth` and `requireAdmin`:
`authHeader.startsWith('Bearer ') ? authHeader.split(' ')[1] : null`,
with `authHeader = req.headers.authorization || ''`. -/
def bearerToken (authorization : Option String) : Option String :=
  if "Bearer ".data.isPrefixOf (authorization.getD "").data
  then ((splitOn ' ' (authorization.getD "").data).get? 1).map String.mk
  else none

/-- The middleware `requireAuth` of `middleware/auth.js`: the value it
stores in `req.userId` before it calls `next()`, or the response it sends. -/
def requireAuth (env : Env) (authorization : Option String) : Except Resp JVal :=
  match bearerToken authorization with
  | none => .error ⟨401, .message "Authentication required"⟩
  | some token =>
    if token == "" then .error ⟨401, .message "Authentication required"⟩
    else match jwtVerify env token with
      | .error _ => .error ⟨401, .message "Invalid or expired token"⟩
      | .ok decoded => .ok (decoded.get "userId")

/-- The middleware `requireAdmin` of `middleware/auth.js`. -/
def requireAdmin (env : Env) (s : Store) (authorization : Option String) : Except Resp JVal :=
  match bearerToken authorization with
  | none => .error ⟨401, .message "Authentication required"⟩
  | some token =>
    if token == "" then .error ⟨401, .message "Authentication required"⟩
    else match jwtVerify env token with
      | .error _ => .error ⟨401, .message "Invalid or expired token"⟩
      | .ok decoded =>
        match castObjectId (decoded.get "userId") with
        | .error => .error ⟨401, .message "Invalid or expired token"⟩
        | .absent => .error ⟨403, .message "Admin access required"⟩
        | .value i =>
          match s.userById i with
          | none => .error ⟨403, .message "Admin access required"⟩
          | some user =>
            if user.role != some "admin" then .error ⟨403, .message "Admin access required"⟩
            else .ok (decoded.get "userId")

/-- The function `sendMail` of `utils/mailer.js`: it throws on a missing
recipient and when the transport refuses the message. -/
def sendMail (env : Env) (recipient : Option String) (_subject _html : String) :
    Except String Unit :=
  if !truthyStr recipient then .error "Missing recipient"
  else if env.mailOk then .ok ()
  else .error "transport failure"

/-! ## Campaign documents -/

/-- The document `new Campaign(data)` with the defaults of `campaignSchema`
and the timestamps of a first save; `none` when a path of `data` fails to
cast, which `save()` reports as a validation error. -/
def newCampaign (env : Env) (id : Nat) (data : Body) : Option Campaign :=
  let title := pathOr castString none (data.get "title")
  let description := pathOr castString none (data.get "description")
  let targetAmount := pathOr castNumber none (data.get "targetAmount")
  let currentAmount := pathOr castNumber (some 0) (data.get "currentAmount")
  let startDate := pathOr (castDate env.parseDate) (some env.now) (data.get "startDate")
  let endDate := pathOr (castDate env.parseDate) none (data.get "endDate")
  let imageUrl := pathOr castString none (data.get "imageUrl")
  let type := pathOr castString (some "campaign") (data.get "type")
  let category := pathOr castString none (data.get "category")
  let organizer := pathOr castObjectId none (data.get "organizer")
  let status := pathOr castString (some "pending") (data.get "status")
  let documents := pathOr castStringArray (some []) (data.get "documents")
  let rejectionReason := pathOr castString none (data.get "rejectionReason")
  let emailVerified := pathOr castBoolean (some false) (data.get "emailVerified")
  if title.isSome && description.isSome && targetAmount.isSome && currentAmount.isSome
     && startDate.isSome && endDate.isSome && imageUrl.isSome && type.isSome
     && category.isSome && organizer.isSome && status.isSome && documents.isSome
     && rejectionReason.isSome && emailVerified.isSome
  then
    some (Campaign.mk id title.join description.join targetAmount.join currentAmount.join
      startDate.join endDate.join imageUrl.join type.join category.join organizer.join
      status.join (documents.join.getD []) rejectionReason.join emailVerified.join
      env.now env.now)
  else none

/-- The call `new Campaign(data).save()`: the document is validated and
inserted under the next `_id`; `none` when `save()` throws. -/
def createCampaign (env : Env) (s : Store) (data : Body) : Option (Store × Campaign) :=
  match newCampaign env s.nextId data with
  | none => none
  | some c =>
    if validateCampaign c
    then some ({ s with campaigns := s.campaigns ++ [c], nextId := s.nextId + 1 }, c)
    else none

/-- The update document of `findOneAndUpdate` and `findByIdAndUpdate`, cast
against `campaignSchema`: keys outside the schema and `undefined` values are
dropped, the other paths are written, `updatedAt` is stamped.  No validator
runs.  `none` is a thrown `CastError`.  Update operators in the body are
outside the embedding. -/
def castCampaignUpdate (env : Env) (upd : Body) : Option (Campaign → Campaign) :=
  let title := pathSet castString (upd.get "title")
  let description := pathSet castString (upd.get "description")
  let targetAmount := pathSet castNumber (upd.get "targetAmount")
  let currentAmount := pathSet castNumber (upd.get "currentAmount")
  let startDate := pathSet (castDate env.parseDate) (upd.get "startDate")
  let endDate := pathSet (castDate env.parseDate) (upd.get "endDate")
  let imageUrl := pathSet castString (upd.get "imageUrl")
  let type := pathSet castString (upd.get "type")
  let category := pathSet castString (upd.get "category")
  let organizer := pathSet castObjectId (upd.get "organizer")
  let status := pathSet castString (upd.get "status")
  let documents := pathSet castStringArray (upd.get "documents")
  let rejectionReason := pathSet castString (upd.get "rejectionReason")
  let emailVerified := pathSet castBoolean (upd.get "emailVerified")
  if title.isSome && description.isSome && targetAmount.isSome && currentAmount.isSome
     && startDate.isSome && endDate.isSome && imageUrl.isSome && type.isSome
     && category.isSome && organizer.isSome && status.isSome && documents.isSome
     && rejectionReason.isSome && emailVerified.isSome
  then
    some (fun c =>
      Campaign.mk c._id (applySet c.title title.join) (applySet c.description description.join)
        (applySet c.targetAmount targetAmount.join)
        (applySet c.currentAmount currentAmount.join)
        (applySet c.startDate startDate.join) (applySet c.endDate endDate.join)
        (applySet c.imageUrl imageUrl.join) (applySet c.type type.join)
        (applySet c.category category.join) (applySet c.organizer organizer.join)
        (applySet c.status status.join)
        (match documents.join with
          | none => c.documents
          | some l => l.getD [])
        (applySet c.rejectionReason rejectionReason.join)
        (applySet c.emailVerified emailVerified.join)
        c.createdAt env.now)
  else none

/-- The document with `updatedAt` set, as `timestamps: true` does on a write. -/
def Campaign.stamp (c : Campaign) (now : Int) : Campaign :=
  Campaign.mk c._id c.title c.description c.targetAmount c.currentAmount c.startDate
    c.endDate c.imageUrl c.type c.category c.organizer c.status c.documents
    c.rejectionReason c.emailVerified c.createdAt now

/-- The call `campaign.save()` on a loaded document: every path is
validated, then the document is written back with a fresh `updatedAt`;
`none` when `save()` throws. -/
def saveCampaign (env : Env) (s : Store) (c : Campaign) : Option Store :=
  if validateCampaign c then some (s.putCampaign (c.stamp env.now))
  else none

/-- A route parameter `:id` cast to an ObjectId; `none` is a `CastError`. -/
def castIdParam (id : String) : Option Nat := parseObjectId id

/-! ## Upload middleware of `routes/crowdfunding.js` -/

/-- One file part of a multipart request: the form field it came in, the
name and the content type the client declared, its length in bytes, and the
clock `Date.now()` at the moment the storage engine names it. -/
structure UploadFile where
  fieldname : String
  originalname : String
  mimetype : String
  size : Nat
  clock : Int
  deriving DecidableEq, Repr

/-- An error of the upload: the `code` of a `MulterError`, or a plain
`Error` with its message. -/
structure UploadError where
  code : Option String
  message : String
  deriving DecidableEq, Repr

/-- The replacement `name.replace(/\s+/g, '_')`; `inRun` tells that the
previous character was white space. -/
def squeezeSpaces (inRun : Bool) : List Char → List Char
  | [] => []
  | c :: cs =>
    if isJsSpace c then
      (if inRun then squeezeSpaces true cs else '_' :: squeezeSpaces true cs)
    else c :: squeezeSpaces false cs

/-- The `filename` callback of the disk storage. -/
def storageFilename (f : UploadFile) : String :=
  toString f.clock ++ "-" ++ String.mk (squeezeSpaces false f.originalname.data)

/-- The `fileFilter` of `upload`. -/
def fileFilter (f : UploadFile) : Bool :=
  ["application/pdf", "image/jpeg", "image/png"].contains f.mimetype

/-- The limit `fileSize: 5 * 1024 * 1024`. -/
def fileSizeLimit : Nat := 5 * 1024 * 1024

/-- The limit `files: 5`, also the `maxCount` of `upload.array('documents', 5)`. -/
def fileCountLimit : Nat := 5

/-- The middleware `upload.array('documents', 5)`: the parts are read in the
order of the request and the first error aborts the upload.  `seen` counts
the files accepted so far.  The result is the stored file names. -/
def uploadArray (seen : Nat) : List UploadFile → Except UploadError (List String)
  | [] => .ok []
  | f :: rest =>
    if seen ≥ fileCountLimit then .error ⟨some "LIMIT_FILE_COUNT", "Too many files"⟩
    else if f.fieldname != "documents" || fileCountLimit - seen ≤ 0 then
      .error ⟨some "LIMIT_UNEXPECTED_FILE", "Unexpected field"⟩
    else if !fileFilter f then .error ⟨none, "Only PDF, JPG, and PNG files are allowed"⟩
    else if f.size > fileSizeLimit then .error ⟨some "LIMIT_FILE_SIZE", "File too large"⟩
    else
      match uploadArray (seen + 1) rest with
      | .error e => .error e
      | .ok names => .ok (storageFilename f :: names)

/-- The message the `/apply` route answers an upload error with:
`err.message || 'Upload error'`, replaced for the three codes it names. -/
def uploadMessage (err : UploadError) : String :=
  let message := if err.message != "" then err.message else "Upload error"
  let message :=
    if err.code == some "LIMIT_FILE_SIZE" then "Each file must be 5MB or smaller" else message
  let message :=
    if err.code == some "LIMIT_FILE_COUNT" then "You can upload up to 5 documents" else message
  if err.code == some "LIMIT_UNEXPECTED_FILE" then "Unexpected file field" else message

/-! ## Routes of `routes/crowdfunding.js` -/

/-- Strict comparison `v === s` with a string literal. -/
def JVal.isStr (v : JVal) (s : String) : Bool :=
  match v with
  | .str t => t == s
  | _ => false

/-- The filter `{ type: 'crowdfunding', status: 'approved' }`. -/
def isApprovedCrowdfunding (c : Campaign) : Bool :=
  c.type == some "crowdfunding" && c.status == some "approved"

/-- The filter `{ type: 'crowdfunding' }`. -/
def isCrowdfunding (c : Campaign) : Bool := c.type == some "crowdfunding"

/-- The order `.sort({ createdAt: -1 })`: newest first. -/
def sortNewest (l : List Campaign) : List Campaign :=
  l.insertionSort (fun a b => b.createdAt ≤ a.createdAt)

/-- A filter entry on an ObjectId path: a value matches the field that holds
it, `null` and `undefined` match a field that is unset. -/
def idCond (want : CastResult Nat) (field : Option Nat) : Bool :=
  match want with
  | .error => false
  | .absent => field == none
  | .value i => field == some i

/-- Route `GET /api/crowdfunding`: the approved crowdfunding campaigns. -/
def cfList (s : Store) : Resp :=
  ⟨200, .campaigns (s.campaigns.filter isApprovedCrowdfunding)⟩

/-- Route `GET /api/crowdfunding/:id`: one approved crowdfunding campaign. -/
def cfDetail (s : Store) (id : String) : Resp :=
  match castIdParam id with
  | none => ⟨500, .message "CastError"⟩
  | some i =>
    match s.campaigns.find? (fun c => c._id == i && isApprovedCrowdfunding c) with
    | none => ⟨404, .message "Crowdfunding campaign not found"⟩
    | some c => ⟨200, .campaign c⟩

/-- Route `GET /api/crowdfunding/my`: the caller's applications. -/
def cfMy (env : Env) (s : Store) (authorization : Option String) : Resp :=
  match requireAuth env authorization with
  | .error r => r
  | .ok userId =>
    match castObjectId userId with
    | .error => ⟨500, .message "CastError"⟩
    | want =>
      ⟨200, .campaigns
        (sortNewest (s.campaigns.filter (fun c => isCrowdfunding c && idCond want c.organizer)))⟩

/-- Route `GET /api/crowdfunding/all`: every crowdfunding campaign, for an
admin. -/
def cfAll (env : Env) (s : Store) (authorization : Option String) : Resp :=
  match requireAdmin env s authorization with
  | .error r => r
  | .ok _ => ⟨200, .campaigns (sortNewest (s.campaigns.filter isCrowdfunding))⟩

/-- The `payload` object of the `/apply` handler. -/
def applyPayload (env : Env) (userId : JVal) (body : Body) (docs : List String) : Body :=
  [("title", body.get "title"),
   ("description", body.get "description"),
   ("targetAmount", jsNumber (body.get "targetAmount")),
   ("startDate", if truthy (body.get "startDate")
      then jsNewDate env.parseDate (body.get "startDate") else .undefined),
   ("endDate", if truthy (body.get "endDate")
      then jsNewDate env.parseDate (body.get "endDate") else .undefined),
   ("category", body.get "category"),
   ("imageUrl", body.get "imageUrl"),
   ("type", .str "crowdfunding"),
   ("organizer", userId),
   ("status", .str "pending"),
   ("documents", .arr (docs.map JVal.str))]

/-- The verification mail of `/apply`, the body of its inner `try`. -/
def applyMail (env : Env) (s : Store) (userId : JVal) : Except String Unit :=
  match castObjectId userId with
  | .error => .error "CastError"
  | .absent => .ok ()
  | .value i =>
    match s.userById i with
    | none => .ok ()
    | some user =>
      if truthyStr user.email
      then sendMail env user.email "Verify your email - HopeNest Crowdfunding" "verify"
      else .ok ()

/-- The handler of `POST /api/crowdfunding/apply`, after `requireAuth` and the
upload middleware: `names` are the stored file names of `req.files`. -/
def applyHandler (env : Env) (s : Store) (userId : JVal) (body : Body)
    (names : List String) : Store × Resp :=
  if (names.map (fun n => "/uploads/crowdfunding/" ++ n)).length == 0 then
    (s, ⟨400, .message "Please upload at least one document (PDF/JPG/PNG)."⟩)
  else
    match createCampaign env s
        (applyPayload env userId body (names.map (fun n => "/uploads/crowdfunding/" ++ n))) with
    | none => (s, ⟨400, .message "Campaign validation failed"⟩)
    | some (s1, saved) =>
      match applyMail env s1 userId with
      | .ok _ => (s1, ⟨201, .campaign saved⟩)
      | .error _ => (s1, ⟨201, .campaign saved⟩)

/-- Route `POST /api/crowdfunding/apply`. -/
def cfApply (env : Env) (s : Store) (authorization : Option String)
    (files : List UploadFile) (body : Body) : Store × Resp :=
  match requireAuth env authorization with
  | .error r => (s, r)
  | .ok userId =>
    match uploadArray 0 files with
    | .error e => (s, ⟨400, .message (uploadMessage e)⟩)
    | .ok names => applyHandler env s userId body names

/-- The call `jwt.verify` on a query value: anything but a string throws. -/
def jwtVerifyQuery (env : Env) : JVal → Option Body
  | .str t =>
    match jwtVerify env t with
    | .ok payload => some payload
    | .error _ => none
  | _ => none

/-- Route `GET /api/crowdfunding/verify-email`. -/
def cfVerifyEmail (env : Env) (s : Store) (query : Body) : Store × Resp :=
  if !truthy (query.get "token") then (s, ⟨400, .text "Missing token"⟩)
  else
    match jwtVerifyQuery env (query.get "token") with
    | none => (s, ⟨400, .text "Verification link is invalid or expired"⟩)
    | some payload =>
      if !(payload.get "t").isStr "cf_email_verify" then (s, ⟨400, .text "Invalid token"⟩)
      else
        match castObjectId (payload.get "cid"), castObjectId (payload.get "uid") with
        | .error, _ => (s, ⟨400, .text "Verification link is invalid or expired"⟩)
        | _, .error => (s, ⟨400, .text "Verification link is invalid or expired"⟩)
        | cid, uid =>
          match s.campaigns.find? (fun c =>
              idCond cid (some c._id) && isCrowdfunding c && idCond uid c.organizer) with
          | none => (s, ⟨404, .text "Application not found"⟩)
          | some campaign =>
            if campaign.emailVerified != some true then
              match saveCampaign env s
                  (Campaign.mk campaign._id campaign.title campaign.description
                    campaign.targetAmount campaign.currentAmount campaign.startDate
                    campaign.endDate campaign.imageUrl campaign.type campaign.category
                    campaign.organizer campaign.status campaign.documents
                    campaign.rejectionReason (some true) campaign.createdAt
                    campaign.updatedAt) with
              | none => (s, ⟨400, .text "Verification link is invalid or expired"⟩)
              | some s1 => (s1, ⟨200, .page "Email verified successfully"⟩)
            else (s, ⟨200, .page "Email verified successfully"⟩)

/-- Route `POST /api/crowdfunding/:id/resend-verification`. -/
def cfResendVerification (env : Env) (s : Store) (authorization : Option String)
    (id : String) : Resp :=
  match requireAuth env authorization with
  | .error r => r
  | .ok userId =>
    match castIdParam id, castObjectId userId with
    | none, _ => ⟨500, .message "CastError"⟩
    | _, .error => ⟨500, .message "CastError"⟩
    | some i, uid =>
      match s.campaigns.find? (fun c =>
          c._id == i && isCrowdfunding c && idCond uid c.organizer) with
      | none => ⟨404, .message "Application not found"⟩
      | some campaign =>
        if campaign.emailVerified == some true then ⟨400, .message "Email already verified"⟩
        else
          match (match uid with
                 | .value u => s.userById u
                 | _ => none) with
          | none => ⟨400, .message "User email not found"⟩
          | some user =>
            if !truthyStr user.email then ⟨400, .message "User email not found"⟩
            else
              match sendMail env user.email "Verify your email - HopeNest Crowdfunding" "verify" with
              | .ok _ => ⟨200, .message "Verification email sent"⟩
              | .error m => ⟨500, .message m⟩

/-- The call `Campaign.findOneAndUpdate(filter, update, { new: true })`:
`none` is a thrown `CastError`, `some none` is no match. -/
def findOneAndUpdate (env : Env) (s : Store) (filter : Campaign → Bool) (update : Body) :
    Option (Option (Store × Campaign)) :=
  match castCampaignUpdate env update with
  | none => none
  | some f =>
    match s.campaigns.find? filter with
    | none => some none
    | some c =>
      some (some ({ s with campaigns := replaceFirst filter f s.campaigns }, f c))

/-- The call `Campaign.findOneAndDelete(filter)`. -/
def findOneAndDelete (s : Store) (filter : Campaign → Bool) : Option (Store × Campaign) :=
  match s.campaigns.find? filter with
  | none => none
  | some c => some ({ s with campaigns := removeFirst filter s.campaigns }, c)

/-- Route `POST /api/crowdfunding` (admin). -/
def cfCreate (env : Env) (s : Store) (authorization : Option String) (body : Body) :
    Store × Resp :=
  match requireAdmin env s authorization with
  | .error r => (s, r)
  | .ok _ =>
    match createCampaign env s
        (if !truthy (Body.get (("type", JVal.str "crowdfunding") :: body) "status")
         then ("status", JVal.str "approved") :: ("type", JVal.str "crowdfunding") :: body
         else ("type", JVal.str "crowdfunding") :: body) with
    | none => (s, ⟨400, .message "Campaign validation failed"⟩)
    | some (s1, saved) => (s1, ⟨201, .campaign saved⟩)

/-- Route `PUT /api/crowdfunding/:id` (admin). -/
def cfUpdate (env : Env) (s : Store) (authorization : Option String) (id : String)
    (body : Body) : Store × Resp :=
  match requireAdmin env s authorization with
  | .error r => (s, r)
  | .ok _ =>
    match castIdParam id with
    | none => (s, ⟨400, .message "CastError"⟩)
    | some i =>
      match findOneAndUpdate env s (fun c => c._id == i && isCrowdfunding c)
          (("type", JVal.str "crowdfunding") :: body) with
      | none => (s, ⟨400, .message "CastError"⟩)
      | some none => (s, ⟨404, .message "Crowdfunding campaign not found"⟩)
      | some (some (s1, c)) => (s1, ⟨200, .campaign c⟩)

/-- Route `DELETE /api/crowdfunding/:id` (admin). -/
def cfDelete (env : Env) (s : Store) (authorization : Option String) (id : String) :
    Store × Resp :=
  match requireAdmin env s authorization with
  | .error r => (s, r)
  | .ok _ =>
    match castIdParam id with
    | none => (s, ⟨500, .message "CastError"⟩)
    | some i =>
      match findOneAndDelete s (fun c => c._id == i && isCrowdfunding c) with
      | none => (s, ⟨404, .message "Crowdfunding campaign not found"⟩)
      | some (s1, _) => (s1, ⟨200, .message "Crowdfunding campaign deleted successfully"⟩)

/-- Route `PUT /api/crowdfunding/:id/approve` (admin). -/
def cfApprove (env : Env) (s : Store) (authorization : Option String) (id : String) :
    Store × Resp :=
  match requireAdmin env s authorization with
  | .error r => (s, r)
  | .ok _ =>
    match castIdParam id with
    | none => (s, ⟨400, .message "CastError"⟩)
    | some i =>
      match findOneAndUpdate env s (fun c => c._id == i && isCrowdfunding c)
          [("status", JVal.str "approved"), ("rejectionReason", JVal.undefined)] with
      | none => (s, ⟨400, .message "CastError"⟩)
      | some none => (s, ⟨404, .message "Crowdfunding campaign not found"⟩)
      | some (some (s1, c)) => (s1, ⟨200, .campaign c⟩)

/-- Route `PUT /api/crowdfunding/:id/reject` (admin). -/
def cfReject (env : Env) (s : Store) (authorization : Option String) (id : String)
    (body : Body) : Store × Resp :=
  match requireAdmin env s authorization with
  | .error r => (s, r)
  | .ok _ =>
    match castIdParam id with
    | none => (s, ⟨400, .message "CastError"⟩)
    | some i =>
      match findOneAndUpdate env s (fun c => c._id == i && isCrowdfunding c)
          [("status", JVal.str "rejected"),
           ("rejectionReason",
              if truthy (body.get "reason") then body.get "reason" else JVal.str "Rejected")] with
      | none => (s, ⟨400, .message "CastError"⟩)
      | some none => (s, ⟨404, .message "Crowdfunding campaign not found"⟩)
      | some (some (s1, c)) => (s1, ⟨200, .campaign c⟩)

/-! ## Campaign routes of `routes/api.js` -/

/-- Route `GET /api/campaigns`. -/
def apiCampaigns (s : Store) : Resp := ⟨200, .campaigns s.campaigns⟩

/-- Route `GET /api/campaigns/:id`. -/
def apiCampaign (s : Store) (id : String) : Resp :=
  match castIdParam id with
  | none => ⟨500, .message "CastError"⟩
  | some i =>
    match s.campaignById i with
    | none => ⟨404, .message "Campaign not found"⟩
    | some c => ⟨200, .campaign c⟩

/-- Route `POST /api/campaigns`. -/
def apiCampaignCreate (env : Env) (s : Store) (body : Body) : Store × Resp :=
  match createCampaign env s body with
  | none => (s, ⟨400, .message "Campaign validation failed"⟩)
  | some (s1, saved) => (s1, ⟨201, .campaign saved⟩)

/-- Route `PUT /api/campaigns/:id`. -/
def apiCampaignUpdate (env : Env) (s : Store) (id : String) (body : Body) : Store × Resp :=
  match castIdParam id with
  | none => (s, ⟨400, .message "CastError"⟩)
  | some i =>
    match findOneAndUpdate env s (fun c => c._id == i) body with
    | none => (s, ⟨400, .message "CastError"⟩)
    | some none => (s, ⟨404, .message "Campaign not found"⟩)
    | some (some (s1, c)) => (s1, ⟨200, .campaign c⟩)

/-- Route `DELETE /api/campaigns/:id`. -/
def apiCampaignDelete (s : Store) (id : String) : Store × Resp :=
  match castIdParam id with
  | none => (s, ⟨500, .message "CastError"⟩)
  | some i =>
    match findOneAndDelete s (fun c => c._id == i) with
    | none => (s, ⟨404, .message "Campaign not found"⟩)
    | some (s1, _) => (s1, ⟨200, .message "Campaign deleted successfully"⟩)

/-! ## Route `POST /api/donations` of `routes/donations.js` -/

/-- The document `new Donation(data)` with the defaults of `donationSchema`;
`none` when a path fails to cast. -/
def newDonation (env : Env) (id : Nat) (data : Body) : Option Donation :=
  let amount := pathOr castNumber none (data.get "amount")
  let type := pathOr castString none (data.get "type")
  let name := pathOr castString none (data.get "name")
  let email := pathOr castString none (data.get "email")
  let phone := pathOr castString none (data.get "phone")
  let paymentMethod := pathOr castString none (data.get "paymentMethod")
  let reminder := pathOr castBoolean (some false) (data.get "reminder")
  let date := pathOr (castDate env.parseDate) (some env.now) (data.get "date")
  let status := pathOr castString (some "completed") (data.get "status")
  let userId := pathOr castObjectId none (data.get "userId")
  let campaignId := pathOr castObjectId none (data.get "campaignId")
  if amount.isSome && type.isSome && name.isSome && email.isSome && phone.isSome
     && paymentMethod.isSome && reminder.isSome && date.isSome && status.isSome
     && userId.isSome && campaignId.isSome
  then
    some (Donation.mk id amount.join type.join name.join email.join phone.join
      paymentMethod.join reminder.join date.join status.join userId.join campaignId.join)
  else none

/-- The call `new Donation(data).save()`. -/
def createDonation (env : Env) (s : Store) (data : Body) : Option (Store × Donation) :=
  match newDonation env s.nextId data with
  | none => none
  | some d =>
    if validateDonation d
    then some ({ s with donations := s.donations ++ [d], nextId := s.nextId + 1 }, d)
    else none

/-- The inner `try` of the donation handler: the campaign named by
`req.body.campaignId` gets
`currentAmount = (campaign.currentAmount || 0) + req.body.amount`
and is saved.  `none` when the block throws; the handler then only logs. -/
def updateCampaignAmount (env : Env) (s : Store) (body : Body) : Option Store :=
  match castObjectId (body.get "campaignId") with
  | .error => none
  | .absent => some s
  | .value i =>
    match s.campaignById i with
    | none => some s
    | some campaign =>
      match castNumber (jsAdd (campaign.currentAmount.getD 0) (body.get "amount")) with
      | .error => none
      | .absent =>
        saveCampaign env s
          (Campaign.mk campaign._id campaign.title campaign.description campaign.targetAmount
            none campaign.startDate campaign.endDate campaign.imageUrl campaign.type
            campaign.category campaign.organizer campaign.status campaign.documents
            campaign.rejectionReason campaign.emailVerified campaign.createdAt
            campaign.updatedAt)
      | .value total =>
        saveCampaign env s
          (Campaign.mk campaign._id campaign.title campaign.description campaign.targetAmount
            (some total) campaign.startDate campaign.endDate campaign.imageUrl campaign.type
            campaign.category campaign.organizer campaign.status campaign.documents
            campaign.rejectionReason campaign.emailVerified campaign.createdAt
            campaign.updatedAt)

/-- The receipt mail of the donation handler, the body of its second `try`. -/
def receiptMail (env : Env) (d : Donation) : Except String Unit :=
  if truthyStr d.email then sendMail env d.email "HopeNest donation receipt" "receipt"
  else .ok ()

/-- Route `POST /api/donations`. -/
def postDonation (env : Env) (s : Store) (authorization : Option String) (body : Body) :
    Store × Resp :=
  match requireAuth env authorization with
  | .error r => (s, r)
  | .ok userId =>
    match createDonation env s (("userId", userId) :: body) with
    | none => (s, ⟨500, .failure "Failed to process donation"⟩)
    | some (s1, donation) =>
      let s2 :=
        if truthy (body.get "campaignId") then
          match updateCampaignAmount env s1 body with
          | some s2 => s2
          | none => s1
        else s1
      match receiptMail env donation with
      | .ok _ => (s2, ⟨201, .donation donation⟩)
      | .error _ => (s2, ⟨201, .donation donation⟩)

/-! ## User documents -/

/-- A plain string read as the `password` of a document before the save
hook runs. -/
def rawPassword (p : Option (Option String)) : Option (Option Password) :=
  p.map (fun o => o.map Password.raw)

/-- The document `new User(data)` with the defaults of `userSchema`; the
password is the raw string until the save hook runs.  `none` when a path
fails to cast. -/
def newUser (env : Env) (id : Nat) (data : Body) : Option User :=
  let name := pathOr castString none (data.get "name")
  let email := pathOr castString none (data.get "email")
  let password := rawPassword (pathOr castString none (data.get "password"))
  let googleId := pathOr castString none (data.get "googleId")
  let facebookId := pathOr castString none (data.get "facebookId")
  let avatar := pathOr castString (some "") (data.get "avatar")
  let provider := pathOr castString (some "local") (data.get "provider")
  let role := pathOr castString (some "user") (data.get "role")
  let isBlocked := pathOr castBoolean (some false) (data.get "isBlocked")
  if name.isSome && email.isSome && password.isSome && googleId.isSome
     && facebookId.isSome && avatar.isSome && provider.isSome && role.isSome
     && isBlocked.isSome
  then
    some (User.mk id name.join email.join password.join googleId.join facebookId.join
      avatar.join provider.join role.join isBlocked.join none none (some env.now))
  else none

/-- The document with another `password` field. -/
def User.withPassword (u : User) (p : Option Password) : User :=
  User.mk u._id u.name u.email p u.googleId u.facebookId u.avatar u.provider u.role
    u.isBlocked u.resetToken u.resetTokenExpiry u.createdAt

/-- The hook `userSchema.pre('save')` when `isModified('password')` holds:
the raw string is replaced by its salted hash; `bcrypt.hash` throws on a
missing password. -/
def hashPassword (u : User) : Option User :=
  match u.password with
  | some (.raw p) => some (u.withPassword (some (.hash p)))
  | some (.hash p) => some (u.withPassword (some (.hash p)))
  | none => none

/-- The call `user.save()` on a loaded document whose `email` is untouched:
validation, then the hook (`modified` tells whether the password path is
modified), then the write. -/
def saveUser (s : Store) (u : User) (modified : Bool) : Option Store :=
  if validateUser u then
    if modified then
      match hashPassword u with
      | none => none
      | some h => some (s.putUser h)
    else some (s.putUser u)
  else none

/-- The call `new User(data).save()`: validation, the hook when `data`
carries a password, the unique index on `email`, the insert. -/
def createUser (env : Env) (s : Store) (data : Body) : Option (Store × User) :=
  match newUser env s.nextId data with
  | none => none
  | some u =>
    if validateUser u then
      match (match data.get "password" with
             | .undefined => some u
             | _ => hashPassword u) with
      | none => none
      | some h =>
        if s.users.any (fun x => x.email == h.email) then none
        else some ({ s with users := s.users ++ [h], nextId := s.nextId + 1 }, h)
    else none

/-! ## Routes of `routes/auth.js` and user routes of `routes/api.js` -/

/-- The test `/^[^\s@]+@[^\s@]+\.[^\s@]+$/` on a list of characters. -/
def emailShape (cs : List Char) : Bool :=
  cs.all (fun c => !isJsSpace c) && (cs.filter (fun c => c == '@')).length == 1
  && cs.takeWhile (fun c => c != '@') != []
  && ((((cs.dropWhile (fun c => c != '@')).drop 1).drop 1).dropLast).contains '.'

/-- The call `emailRegex.test(email)`: the value is converted to a string. -/
def emailRegexTest (v : JVal) : Bool := emailShape v.toJsString.data

/-- Route `POST /api/auth/signup`. -/
def signup (env : Env) (s : Store) (body : Body) : Store × Resp :=
  if !truthy (body.get "name") || !truthy (body.get "email") || !truthy (body.get "password")
  then (s, ⟨400, .message "Name, email, and password are required"⟩)
  else if !emailRegexTest (body.get "email")
  then (s, ⟨400, .message "Please provide a valid email address"⟩)
  else
    match stringCond (body.get "email") with
    | none => (s, ⟨500, .message "Something went wrong"⟩)
    | some cond =>
      match s.users.find? (fun u => cond u.email) with
      | some _ => (s, ⟨400, .message "User already exists"⟩)
      | none =>
        match createUser env s
            [("name", body.get "name"), ("email", body.get "email"),
             ("password", body.get "password"), ("provider", .str "local")] with
        | none => (s, ⟨500, .message "Something went wrong"⟩)
        | some (s1, user) => (s1, ⟨201, .session user._id user.name⟩)

/-- Route `POST /api/users`. -/
def apiUserCreate (env : Env) (s : Store) (body : Body) : Store × Resp :=
  match stringCond (body.get "email") with
  | none => (s, ⟨400, .message "CastError"⟩)
  | some cond =>
    match s.users.find? (fun u => cond u.email) with
    | some _ => (s, ⟨400, .message "User already exists"⟩)
    | none =>
      match createUser env s
          [("name", body.get "name"), ("email", body.get "email"),
           ("password", body.get "password"), ("role", body.get "role")] with
      | none => (s, ⟨400, .message "User validation failed"⟩)
      | some (s1, user) => (s1, ⟨201, .user (user.withPassword none)⟩)

/-- The filter entry `resetTokenExpiry: { $gt: Date.now() }`. -/
def notExpired (env : Env) (u : User) : Bool :=
  match u.resetTokenExpiry with
  | some e => decide (env.now < e)
  | none => false

/-- The assignments `user.password = newPassword`, `user.resetToken =
undefined`, `user.resetTokenExpiry = undefined` of the reset handler: the
document before the save and whether its password path is modified; `none`
when the password fails to cast. -/
def resetAssign (u : User) (newPassword : JVal) : Option (User × Bool) :=
  match newPassword with
  | .undefined =>
    some (User.mk u._id u.name u.email none u.googleId u.facebookId u.avatar u.provider
      u.role u.isBlocked none none u.createdAt, u.password.isSome)
  | v =>
    match castString v with
    | .error => none
    | .absent =>
      some (User.mk u._id u.name u.email none u.googleId u.facebookId u.avatar u.provider
        u.role u.isBlocked none none u.createdAt, true)
    | .value p =>
      some (User.mk u._id u.name u.email (some (.raw p)) u.googleId u.facebookId u.avatar
        u.provider u.role u.isBlocked none none u.createdAt, u.password != some (.raw p))

/-- Route `POST /api/auth/reset-password`. -/
def resetPassword (env : Env) (s : Store) (body : Body) : Store × Resp :=
  match stringCond (body.get "email"), stringCond (body.get "token") with
  | some emailCond, some tokenCond =>
    match s.users.find? (fun u =>
        emailCond u.email && tokenCond u.resetToken && notExpired env u) with
    | none => (s, ⟨400, .failure "Invalid or expired reset token"⟩)
    | some user =>
      match resetAssign user (body.get "newPassword") with
      | none => (s, ⟨500, .failure "Error resetting password"⟩)
      | some (u1, modified) =>
        match saveUser s u1 modified with
        | none => (s, ⟨500, .failure "Error resetting password"⟩)
        | some s1 => (s1, ⟨200, .success "Password reset successful"⟩)
  | _, _ => (s, ⟨500, .failure "Error resetting password"⟩)

/-- The middleware `xssProtection` of `middleware/security.js`: the string
values at the top of the body go through the filter `xss`, every other value
stays as it is. -/
def xssProtection (xss : String → String) (body : Body) : Body :=
  body.map (fun kv =>
    match kv.2 with
    | .str t => (kv.1, JVal.str (xss t))
    | _ => kv)

/-! ## Verify callbacks of `config/passport.js` -/

/-- The profile a provider hands to the verify callback. -/
structure Profile where
  id : String
  displayName : Option String
  emails : Option (List String)
  photos : Option (List String)
  deriving DecidableEq, Repr

/-- An optional string as a JavaScript value. -/
def optStr : Option String → JVal
  | some t => .str t
  | none => .undefined

/-- The expression `profile.photos[0]?.value || ''`; `none` when `photos` is
missing and the read throws. -/
def profilePhoto (profile : Profile) : Option String :=
  match profile.photos with
  | none => none
  | some [] => some ""
  | some (ph :: _) => some ph

/-- The expression `user.avatar || profile.photos[0]?.value || ''`. -/
def linkedAvatar (user : User) (profile : Profile) : Option String :=
  if truthyStr user.avatar then user.avatar else profilePhoto profile

/-- The verify callback of the Google strategy: the store after it and the
user it passes to `done`, `none` when it passes an error. -/
def googleVerify (env : Env) (s : Store) (profile : Profile) : Store × Option User :=
  match s.users.find? (fun u => u.googleId == some profile.id) with
  | some user => (s, some user)
  | none =>
    match profile.emails with
    | none => (s, none)
    | some [] => (s, none)
    | some (email :: _) =>
      match s.users.find? (fun u => u.email == some email) with
      | some user =>
        match linkedAvatar user profile with
        | none => (s, none)
        | some avatar =>
          match saveUser s
              (User.mk user._id user.name user.email user.password (some profile.id)
                user.facebookId (some avatar) user.provider user.role user.isBlocked
                user.resetToken user.resetTokenExpiry user.createdAt) false with
          | none => (s, none)
          | some s1 =>
            (s1, some (User.mk user._id user.name user.email user.password (some profile.id)
                user.facebookId (some avatar) user.provider user.role user.isBlocked
                user.resetToken user.resetTokenExpiry user.createdAt))
      | none =>
        match profilePhoto profile with
        | none => (s, none)
        | some avatar =>
          match createUser env s
              [("googleId", .str profile.id), ("name", optStr profile.displayName),
               ("email", .str email), ("avatar", .str avatar), ("provider", .str "google")] with
          | none => (s, none)
          | some (s1, user) => (s1, some user)

/-- The expression
`profile.emails && profile.emails[0] ? profile.emails[0].value : null`. -/
def facebookEmail (profile : Profile) : Option String :=
  match profile.emails with
  | some (email :: _) => some email
  | _ => none

/-- The creation branch of the Facebook callback. -/
def facebookCreate (env : Env) (s : Store) (profile : Profile) : Store × Option User :=
  match profilePhoto profile with
  | none => (s, none)
  | some avatar =>
    match createUser env s
        [("facebookId", .str profile.id), ("name", optStr profile.displayName),
         ("email", match facebookEmail profile with
            | some e => .str e
            | none => .null),
         ("avatar", .str avatar), ("provider", .str "facebook")] with
    | none => (s, none)
    | some (s1, user) => (s1, some user)

/-- The verify callback of the Facebook strategy. -/
def facebookVerify (env : Env) (s : Store) (profile : Profile) : Store × Option User :=
  match s.users.find? (fun u => u.facebookId == some profile.id) with
  | some user => (s, some user)
  | none =>
    if truthyStr (facebookEmail profile) then
      match s.users.find? (fun u => u.email == facebookEmail profile) with
      | some user =>
        match linkedAvatar user profile with
        | none => (s, none)
        | some avatar =>
          match saveUser s
              (User.mk user._id user.name user.email user.password user.googleId
                (some profile.id) (some avatar) user.provider user.role user.isBlocked
                user.resetToken user.resetTokenExpiry user.createdAt) false with
          | none => (s, none)
          | some s1 =>
            (s1, some (User.mk user._id user.name user.email user.password user.googleId
                (some profile.id) (some avatar) user.provider user.role user.isBlocked
                user.resetToken user.resetTokenExpiry user.createdAt))
      | none => facebookCreate env s profile
    else facebookCreate env s profile

/-! ## The other account routes -/

/-- The method `comparePassword`: `bcrypt.compare` of the candidate with the
stored field; `none` when it throws on a candidate that is no string or on a
missing field.  A raw stored string is no hash of anything. -/
def comparePassword (stored : Option Password) (candidate : JVal) : Option Bool :=
  match candidate, stored with
  | .str c, some (.hash p) => some (c == p)
  | .str _, some (.raw _) => some false
  | _, _ => none

/-- Route `POST /api/auth/login`.  The body `session` stands for the answer
`{ token, userId, name }`. -/
def login (s : Store) (body : Body) : Resp :=
  if !truthy (body.get "email") || !truthy (body.get "password") then
    ⟨400, .message "Email and password are required"⟩
  else
    match stringCond (body.get "email") with
    | none => ⟨500, .message "Something went wrong"⟩
    | some cond =>
      match s.users.find? (fun u => cond u.email) with
      | none => ⟨400, .message "Invalid credentials"⟩
      | some user =>
        if user.isBlocked == some true then ⟨403, .message "Account is blocked"⟩
        else if !passwordPresent user.password
            && (truthyStr user.googleId || truthyStr user.facebookId) then
          ⟨400, .message
            "This account was created with social login. Please use Google or Facebook to sign in."⟩
        else
          match comparePassword user.password (body.get "password") with
          | none => ⟨500, .message "Something went wrong"⟩
          | some false => ⟨400, .message "Invalid credentials"⟩
          | some true => ⟨200, .session user._id user.name⟩

/-- Route `GET /api/auth/me`. -/
def me (env : Env) (s : Store) (authorization : Option String) : Resp :=
  match inlineToken authorization with
  | none => ⟨401, .message "Not authenticated"⟩
  | some token =>
    if token == "" then ⟨401, .message "Not authenticated"⟩
    else
      match jwtVerify env token with
      | .error _ => ⟨500, .message "Error fetching user data"⟩
      | .ok decoded =>
        match castObjectId (decoded.get "userId") with
        | .error => ⟨500, .message "Error fetching user data"⟩
        | .absent => ⟨404, .message "User not found"⟩
        | .value i =>
          match s.userById i with
          | none => ⟨404, .message "User not found"⟩
          | some user => ⟨200, .account user._id user.name user.email user.avatar user.role⟩

/-- The assignments of the profile handler on the loaded user: password
(when `newPassword` is truthy), name, email and avatar; `none` when a value
fails to cast. -/
def profileAssign (user : User) (body : Body) : Option User :=
  match castString (body.get "name"), castString (body.get "email"),
        pathSet castString (body.get "avatar"),
        (if truthy (body.get "newPassword") then castString (body.get "newPassword")
         else CastResult.absent) with
  | .value name, .value email, some avatar, .value p =>
    some (User.mk user._id (some name) (some email) (some (.raw p)) user.googleId
      user.facebookId (applySet user.avatar avatar) user.provider user.role user.isBlocked
      user.resetToken user.resetTokenExpiry user.createdAt)
  | .value name, .value email, some avatar, .absent =>
    some (User.mk user._id (some name) (some email) user.password user.googleId
      user.facebookId (applySet user.avatar avatar) user.provider user.role user.isBlocked
      user.resetToken user.resetTokenExpiry user.createdAt)
  | _, _, _, _ => none

/-- The save of the profile handler: validation (`none` inside), the hook,
the unique index on `email` (`none` outside). -/
def profileSave (s : Store) (user u1 : User) (modified : Bool) :
    Option (Option Store) :=
  if validateUser u1 then
    match (if modified then hashPassword u1 else some u1) with
    | none => none
    | some h =>
      if h.email != user.email && s.users.any (fun x => x._id != h._id && x.email == h.email)
      then none
      else some (some (s.putUser h))
  else some none

/-- Route `PUT /api/auth/update`. -/
def profileUpdate (env : Env) (s : Store) (authorization : Option String) (body : Body) :
    Store × Resp :=
  match inlineToken authorization with
  | none => (s, ⟨401, .message "Not authenticated"⟩)
  | some token =>
    if token == "" then (s, ⟨401, .message "Not authenticated"⟩)
    else
      match jwtVerify env token with
      | .error .invalid => (s, ⟨401, .message "Invalid token"⟩)
      | .error .expired => (s, ⟨500, .message "Error updating profile"⟩)
      | .ok decoded =>
        match castObjectId (decoded.get "userId") with
        | .error => (s, ⟨500, .message "Error updating profile"⟩)
        | .absent => (s, ⟨404, .message "User not found"⟩)
        | .value i =>
          match s.userById i with
          | none => (s, ⟨404, .message "User not found"⟩)
          | some user =>
            if !truthy (body.get "name") || !truthy (body.get "email") then
              (s, ⟨400, .message "Name and email are required"⟩)
            else if !emailRegexTest (body.get "email") then
              (s, ⟨400, .message "Please provide a valid email address"⟩)
            else if truthy (body.get "newPassword") && !truthy (body.get "currentPassword") then
              (s, ⟨400, .message "Current password is required"⟩)
            else if truthy (body.get "newPassword")
                && comparePassword user.password (body.get "currentPassword") == none then
              (s, ⟨500, .message "Error updating profile"⟩)
            else if truthy (body.get "newPassword")
                && comparePassword user.password (body.get "currentPassword") == some false then
              (s, ⟨400, .message "Current password is incorrect"⟩)
            else
              match profileAssign user body with
              | none => (s, ⟨400, .message "Invalid data provided"⟩)
              | some u1 =>
                match profileSave s user u1 (truthy (body.get "newPassword")) with
                | none => (s, ⟨500, .message "Error updating profile"⟩)
                | some none => (s, ⟨400, .message "Invalid data provided"⟩)
                | some (some s1) => (s1, ⟨200, .message "Profile updated successfully"⟩)

/-- Route `DELETE /api/auth/delete`. -/
def accountDelete (env : Env) (s : Store) (authorization : Option String) : Store × Resp :=
  match inlineToken authorization with
  | none => (s, ⟨401, .message "Not authenticated"⟩)
  | some token =>
    if token == "" then (s, ⟨401, .message "Not authenticated"⟩)
    else
      match jwtVerify env token with
      | .error _ => (s, ⟨500, .message "jwt error"⟩)
      | .ok decoded =>
        match castObjectId (decoded.get "userId") with
        | .error => (s, ⟨500, .message "CastError"⟩)
        | .absent => (s, ⟨200, .message "Account deleted successfully"⟩)
        | .value i =>
          ({ s with users := removeFirst (fun u => u._id == i) s.users },
           ⟨200, .message "Account deleted successfully"⟩)

/-- Route `POST /api/auth/request-reset`. -/
def requestReset (env : Env) (s : Store) (body : Body) : Store × Resp :=
  match stringCond (body.get "email") with
  | none => (s, ⟨500, .failure "Error generating reset token"⟩)
  | some cond =>
    match s.users.find? (fun u => cond u.email) with
    | none => (s, ⟨404, .failure "No account with that email exists"⟩)
    | some user =>
      match saveUser s
          (User.mk user._id user.name user.email user.password user.googleId user.facebookId
            user.avatar user.provider user.role user.isBlocked (some env.resetCode)
            (some (env.now + 3600000)) user.createdAt) false with
      | none => (s, ⟨500, .failure "Error generating reset token"⟩)
      | some s1 =>
        match sendMail env user.email "HopeNest password reset code" "reset" with
        | .ok _ =>
          (s1, ⟨200, .success "If an account exists for this email, a reset code has been sent"⟩)
        | .error _ =>
          (s1, ⟨200, .success "If an account exists for this email, a reset code has been sent"⟩)

/-- Route `GET /api/users`: every user, without the `password` field. -/
def apiUsers (s : Store) : Resp :=
  ⟨200, .users (s.users.map (fun u => u.withPassword none))⟩

/-- The `updateData` of `PUT /api/users/:id`, cast against `userSchema`: the
paths the body names are written as they are cast, the password as the raw
string.  `none` is a thrown `CastError`. -/
def castUserUpdate (body : Body) : Option (User → User) :=
  let name := pathSet castString (body.get "name")
  let email := pathSet castString (body.get "email")
  let role := pathSet castString (body.get "role")
  let isBlocked := pathSet castBoolean
    (match body.get "isBlocked" with
     | .bool b => .bool b
     | _ => .undefined)
  let password := pathSet castString
    (if truthy (body.get "password") then body.get "password" else .undefined)
  if name.isSome && email.isSome && role.isSome && isBlocked.isSome && password.isSome
  then
    some (fun u =>
      User.mk u._id (applySet u.name name.join) (applySet u.email email.join)
        (match password.join with
          | none => u.password
          | some w => w.map Password.raw)
        u.googleId u.facebookId u.avatar u.provider (applySet u.role role.join)
        (applySet u.isBlocked isBlocked.join) u.resetToken u.resetTokenExpiry u.createdAt)
  else none

/-- Route `PUT /api/users/:id`. -/
def apiUserUpdate (s : Store) (id : String) (body : Body) : Store × Resp :=
  match castIdParam id, castUserUpdate body with
  | some i, some f =>
    match s.userById i with
    | none => (s, ⟨404, .message "User not found"⟩)
    | some u =>
      if (f u).email != u.email && s.users.any (fun x => x._id != i && x.email == (f u).email)
      then (s, ⟨400, .message "duplicate key"⟩)
      else (s.putUser (f u), ⟨200, .user ((f u).withPassword none)⟩)
  | _, _ => (s, ⟨400, .message "CastError"⟩)

/-- Route `DELETE /api/users/:id`. -/
def apiUserDelete (s : Store) (id : String) : Store × Resp :=
  match castIdParam id with
  | none => (s, ⟨500, .message "CastError"⟩)
  | some i =>
    match s.userById i with
    | none => (s, ⟨404, .message "User not found"⟩)
    | some _ =>
      ({ s with users := removeFirst (fun u => u._id == i) s.users },
       ⟨200, .message "User deleted successfully"⟩)

/-! ## The mailer of `utils/mailer.js` -/

/-- The options a transport is created with by `nodemailer.createTransport`;
a field the call leaves out is `none`. -/
structure Transport where
  host : String
  port : JsNum
  secure : Bool
  auth : Option (String × String)
  rejectUnauthorized : Option Bool
  debug : Option Bool
  pool : Option Bool
  deriving DecidableEq, Repr

/-- The message object handed to `tx.sendMail`. -/
structure Message where
  sender : String
  recipient : String
  subject : String
  html : String
  deriving DecidableEq, Repr

/-- What the mailer sees of the process and of the outside world: the
variables `SMTP_HOST`, `SMTP_PORT`, `SMTP_USER`, `SMTP_PASS`, `SMTP_DEBUG`,
`SMTP_TLS_REJECT_UNAUTH` and `FROM_EMAIL`, the account
`nodemailer.createTestAccount()` answers with (`none` when it throws), and
whether a transport accepts a message. -/
structure MailConfig where
  smtpHost : Option String
  smtpPort : Option String
  smtpUser : Option String
  smtpPass : Option String
  smtpDebug : Option String
  smtpTlsRejectUnauth : Option String
  fromEmail : Option String
  testAccount : Option (String × String)
  accepts : Transport → Message → Bool

/-- The state of the module: the variables `transporter` and
`isTestTransporter`, and the calls of `tx.sendMail` made so far, in order. -/
structure Mailer where
  transporter : Option Transport
  isTestTransporter : Bool
  handed : List (Transport × Message)
  deriving DecidableEq, Repr

/-- The call `s.toLowerCase()` on the letters `A` to `Z`. -/
def lowerAscii (s : String) : String := String.mk (s.data.map Char.toLower)

/-- The expression `Number(process.env.SMTP_PORT) || 587`. -/
def smtpPortOf (cfg : MailConfig) : JsNum :=
  match jsNumber (optStr cfg.smtpPort) with
  | .num n => if n == 0 then 587 else n
  | _ => 587

/-- The function `ensureTransporter`: the transport of the process, created
on the first call; `createTestAccount` may throw when no host is set. -/
def ensureTransporter (cfg : MailConfig) (m : Mailer) : Except String (Mailer × Transport) :=
  match m.transporter with
  | some tx => .ok (m, tx)
  | none =>
    if truthyStr cfg.smtpHost then
      .ok (⟨some ⟨cfg.smtpHost.getD "", smtpPortOf cfg, smtpPortOf cfg == 465,
              if truthyStr cfg.smtpUser && truthyStr cfg.smtpPass
              then some (cfg.smtpUser.getD "", cfg.smtpPass.getD "") else none,
              some (lowerAscii (if truthyStr cfg.smtpTlsRejectUnauth
                then cfg.smtpTlsRejectUnauth.getD "" else "true") != "false"),
              some (lowerAscii (optStr cfg.smtpDebug).toJsString == "true"),
              some true⟩, false, m.handed⟩,
           ⟨cfg.smtpHost.getD "", smtpPortOf cfg, smtpPortOf cfg == 465,
              if truthyStr cfg.smtpUser && truthyStr cfg.smtpPass
              then some (cfg.smtpUser.getD "", cfg.smtpPass.getD "") else none,
              some (lowerAscii (if truthyStr cfg.smtpTlsRejectUnauth
                then cfg.smtpTlsRejectUnauth.getD "" else "true") != "false"),
              some (lowerAscii (optStr cfg.smtpDebug).toJsString == "true"),
              some true⟩)
    else
      match cfg.testAccount with
      | none => .error "createTestAccount failed"
      | some account =>
        .ok (⟨some ⟨"smtp.ethereal.email", 587, false, some account, none, none, none⟩,
              true, m.handed⟩,
             ⟨"smtp.ethereal.email", 587, false, some account, none, none, none⟩)

/-- The expression
`process.env.FROM_EMAIL || process.env.SMTP_USER || 'no-reply@hopenest.local'`. -/
def fromAddress (cfg : MailConfig) : String :=
  if truthyStr cfg.fromEmail then cfg.fromEmail.getD ""
  else if truthyStr cfg.smtpUser then cfg.smtpUser.getD ""
  else "no-reply@hopenest.local"

/-- The function `sendMail(to, subject, html)` with the state of the module
made explicit: the state after the call and whether the call throws. -/
def Mailer.sendMail (m : Mailer) (cfg : MailConfig) (recipient : Option String)
    (subject html : String) : Mailer × Except String Unit :=
  if !truthyStr recipient then (m, .error "Missing recipient")
  else
    match ensureTransporter cfg m with
    | .error e => (m, .error e)
    | .ok (m1, tx) =>
      if cfg.accepts tx ⟨fromAddress cfg, recipient.getD "", subject, html⟩ then
        (⟨m1.transporter, m1.isTestTransporter,
          m1.handed ++ [(tx, ⟨fromAddress cfg, recipient.getD "", subject, html⟩)]⟩, .ok ())
      else
        (⟨m1.transporter, m1.isTestTransporter,
          m1.handed ++ [(tx, ⟨fromAddress cfg, recipient.getD "", subject, html⟩)]⟩,
         .error "transport failure")

/-! ## The global error handler of `server.js` -/

/-- An error object: its `message` and its `stack`. -/
structure JsError where
  message : String
  stack : String
  deriving DecidableEq, Repr

/-- The JSON body of the error handler: the key `error`, and the key `stack`
when the handler writes one. -/
structure ErrorBody where
  error : String
  stack : Option String
  deriving DecidableEq, Repr

/-- The last error middleware of `server.js`: the status and the body it
answers an unhandled error with; `nodeEnv` is `process.env.NODE_ENV`. -/
def globalErrorHandler (nodeEnv : Option String) (err : JsError) : Nat × ErrorBody :=
  if nodeEnv == some "production" then (500, ⟨"Internal server error", none⟩)
  else (500, ⟨err.message, some err.stack⟩)

/-! ## The write operations of the HTTP surface -/

/-- A request that can write the store, with what it carries.  The read
routes leave the store as it is, and the volunteer routes write a collection
of their own that no route below reads. -/
inductive Op where
  | apiCampaignCreate (body : Body)
  | apiCampaignUpdate (id : String) (body : Body)
  | apiCampaignDelete (id : String)
  | cfApply (authorization : Option String) (files : List UploadFile) (body : Body)
  | cfVerifyEmail (query : Body)
  | cfCreate (authorization : Option String) (body : Body)
  | cfUpdate (authorization : Option String) (id : String) (body : Body)
  | cfDelete (authorization : Option String) (id : String)
  | cfApprove (authorization : Option String) (id : String)
  | cfReject (authorization : Option String) (id : String) (body : Body)
  | postDonation (authorization : Option String) (body : Body)
  | signup (body : Body)
  | profileUpdate (authorization : Option String) (body : Body)
  | accountDelete (authorization : Option String)
  | requestReset (body : Body)
  | resetPassword (body : Body)
  | apiUserCreate (body : Body)
  | apiUserUpdate (id : String) (body : Body)
  | apiUserDelete (id : String)
  | googleLogin (profile : Profile)
  | facebookLogin (profile : Profile)

/-- The store after one operation. -/
def step (env : Env) (s : Store) : Op → Store
  | .apiCampaignCreate body => (apiCampaignCreate env s body).1
  | .apiCampaignUpdate id body => (apiCampaignUpdate env s id body).1
  | .apiCampaignDelete id => (apiCampaignDelete s id).1
  | .cfApply authorization files body => (cfApply env s authorization files body).1
  | .cfVerifyEmail query => (cfVerifyEmail env s query).1
  | .cfCreate authorization body => (cfCreate env s authorization body).1
  | .cfUpdate authorization id body => (cfUpdate env s authorization id body).1
  | .cfDelete authorization id => (cfDelete env s authorization id).1
  | .cfApprove authorization id => (cfApprove env s authorization id).1
  | .cfReject authorization id body => (cfReject env s authorization id body).1
  | .postDonation authorization body => (postDonation env s authorization body).1
  | .signup body => (signup env s body).1
  | .profileUpdate authorization body => (profileUpdate env s authorization body).1
  | .accountDelete authorization => (accountDelete env s authorization).1
  | .requestReset body => (requestReset env s body).1
  | .resetPassword body => (resetPassword env s body).1
  | .apiUserCreate body => (apiUserCreate env s body).1
  | .apiUserUpdate id body => (apiUserUpdate s id body).1
  | .apiUserDelete id => (apiUserDelete s id).1
  | .googleLogin profile => (googleVerify env s profile).1
  | .facebookLogin profile => (facebookVerify env s profile).1

/-- The store after a sequence of operations, each under the environment
it runs in. -/
def run (s : Store) : List (Env × Op) → Store
  | [] => s
  | (env, op) :: rest => run (step env s op) rest

/-! ## Notions the properties are stated with -/

/-- The ids of the campaign collection are pairwise distinct and below the
counter, as the ObjectIds of a collection are. -/
def Store.CampaignsOk (s : Store) : Prop :=
  (s.campaigns.map (fun c => c._id)).Nodup ∧ ∀ c ∈ s.campaigns, c._id < s.nextId

/-- The ids and the emails of the user collection are pairwise distinct: the
primary key and the `unique` index of `userSchema.email`. -/
def Store.UsersOk (s : Store) : Prop :=
  (s.users.map (fun u => u._id)).Nodup ∧ (s.users.map (fun u => u.email)).Nodup

/-- The operation is an update or a delete route aimed at campaign `i`. -/
def Op.rewrites (i : Nat) : Op → Bool
  | .apiCampaignUpdate id _ => castIdParam id == some i
  | .apiCampaignDelete id => castIdParam id == some i
  | .cfUpdate _ id _ => castIdParam id == some i
  | .cfDelete _ id => castIdParam id == some i
  | _ => false

/-- The operation is an approve or a reject route aimed at campaign `i`. -/
def Op.decides (i : Nat) : Op → Bool
  | .cfApprove _ id => castIdParam id == some i
  | .cfReject _ id _ => castIdParam id == some i
  | _ => false

/-- What an operation that neither rewrites nor decides a campaign keeps of
it: identity, workflow fields and documents stay, and a verified email stays
verified. -/
structure Kept (c d : Campaign) : Prop where
  id_eq : d._id = c._id
  status_eq : d.status = c.status
  type_eq : d.type = c.type
  organizer_eq : d.organizer = c.organizer
  reason_eq : d.rejectionReason = c.rejectionReason
  documents_eq : d.documents = c.documents
  verified_mono : c.emailVerified = some true → d.emailVerified = some true

/-- The operation is one of the creation and linking paths of a user:
signup, admin user creation, Google or Facebook login. -/
def Op.createsOrLinks : Op → Bool
  | .signup _ => true
  | .apiUserCreate _ => true
  | .googleLogin _ => true
  | .facebookLogin _ => true
  | _ => false

/-- An OAuth identifier is set on the user. -/
def User.hasOAuth (u : User) : Bool := truthyStr u.googleId || truthyStr u.facebookId

/-- The user `w` is the account `u` with, at most, other OAuth identifiers
and another avatar. -/
def User.sameAccount (u w : User) : Prop :=
  w._id = u._id ∧ w.name = u.name ∧ w.email = u.email ∧ w.password = u.password
  ∧ w.provider = u.provider ∧ w.role = u.role ∧ w.isBlocked = u.isBlocked
  ∧ w.resetToken = u.resetToken ∧ w.resetTokenExpiry = u.resetTokenExpiry
  ∧ w.createdAt = u.createdAt

/-- The store with the new user `w` inserted under the next `_id`. -/
def Store.withNewUser (s : Store) (w : User) : Store :=
  ⟨s.users ++ [w], s.campaigns, s.donations, s.nextId + 1⟩

/-- The operation is a delete route aimed at user `i`: `DELETE /api/users/:id`
with the id of `i`, or `DELETE /api/auth/delete` with a token that verifies
and names `i`.  A token that verifies and carries no `userId` counts as aimed
at every user: what `findByIdAndDelete(undefined)` removes is left open. -/
def Op.removesUser (env : Env) (i : Nat) : Op → Bool
  | .apiUserDelete id => castIdParam id == some i
  | .accountDelete authorization =>
    match inlineToken authorization with
    | none => false
    | some token =>
      match jwtVerify env token with
      | .error _ => false
      | .ok decoded =>
        match castObjectId (decoded.get "userId") with
        | .value j => j == i
        | .absent => true
        | .error => false
  | _ => false

/-- The verification request `query` names the campaign `c` of the store: its
token is a string that verifies, has the type `cf_email_verify`, its `cid` is
the id of `c`, which is a crowdfunding record, and its `uid` matches the
organizer of `c`. -/
def verifyTarget (env : Env) (s : Store) (query : Body) (c : Campaign) : Prop :=
  ∃ t payload, query.get "token" = JVal.str t ∧ t ≠ "" ∧ jwtVerify env t = .ok payload
    ∧ payload.get "t" = JVal.str "cf_email_verify"
    ∧ c ∈ s.campaigns ∧ c.type = some "crowdfunding"
    ∧ castObjectId (payload.get "cid") = .value c._id
    ∧ idCond (castObjectId (payload.get "uid")) c.organizer = true

/-- The campaign with `emailVerified` set, as `GET /verify-email` saves it. -/
def Campaign.verified (c : Campaign) (now : Int) : Campaign :=
  (Campaign.mk c._id c.title c.description c.targetAmount c.currentAmount c.startDate
    c.endDate c.imageUrl c.type c.category c.organizer c.status c.documents
    c.rejectionReason (some true) c.createdAt c.updatedAt).stamp now

/-- Every user of `s` is still there in `t`, under the same `_id`. -/
def Store.keepsUsers (s t : Store) : Prop :=
  ∀ u ∈ s.users, ∃ w ∈ t.users, w._id = u._id

/-- A list with every maximal run of characters that satisfy `p` replaced by
the one character `u`: at a character of the class the whole run that starts
there is dropped and `u` is written once. -/
def replaceRunsBy (p : Char → Bool) (u : Char) : List Char → List Char
  | [] => []
  | c :: cs =>
    if p c then u :: replaceRunsBy p u (cs.dropWhile p)
    else c :: replaceRunsBy p u cs
termination_by cs => cs.length
decreasing_by
  · simp only [List.length_cons]
    exact Nat.lt_succ_of_le (List.dropWhile_sublist _).length_le
  · simp only [List.length_cons]
    exact Nat.lt_succ_self _

/-- A name with every maximal run of white space replaced by one underscore,
in the words of the specification. -/
def replaceRuns (cs : List Char) : List Char := replaceRunsBy isJsSpace '_' cs

/-- The campaigns of `t` continue those of `s`: the collection stays
well-formed, and a campaign of `s` under an id outside `T` is still there in
`t`, related to what it was by `R`. -/
def Follows (T : Nat → Bool) (R : Campaign → Campaign → Prop) (s t : Store) : Prop :=
  (s.CampaignsOk → t.CampaignsOk) ∧
  ∀ i c, T i = false → s.CampaignsOk → s.campaignById i = some c →
    ∃ d, t.campaignById i = some d ∧ R c d

/-- A user whose password, when there is one, is a hash, and who has one
when no OAuth identifier is set. -/
def User.Sound (u : User) : Prop :=
  (∀ t, u.password ≠ some (.raw t)) ∧ (passwordRequired u = true → u.password.isSome = true)

/-! ## Sample data -/

/-- A date parser for the samples: a string of digits, with a sign if any,
read as a number of milliseconds. -/
def sampleParseDate (t : String) : Option Int := parseExponent t.data

/-- A token table for the samples: an admin, a user, and verification
tokens for the campaigns `10` and `12` of user `2` that expire at second
`2000`. -/
def sampleDecode (t : String) : Option Jwt :=
  if t == "admin-token" then some ⟨"secret", none, [("userId", .str "1")]⟩
  else if t == "user-token" then some ⟨"secret", none, [("userId", .str "2")]⟩
  else if t == "verify-token" then
    some ⟨"secret", some 2000,
      [("t", .str "cf_email_verify"), ("cid", .str "10"), ("uid", .str "2")]⟩
  else if t == "verify-draft" then
    some ⟨"secret", some 2000,
      [("t", .str "cf_email_verify"), ("cid", .str "12"), ("uid", .str "2")]⟩
  else none

/-- A sample environment: the clock at second `1000`. -/
def sampleEnv : Env :=
  ⟨1000000, "secret", sampleDecode, sampleParseDate, true, "A1B2C3"⟩

/-- A sample admin. -/
def sampleAdmin : User :=
  ⟨1, some "Ada", some "ada@hopenest.org", some (.hash "adminpw"), none, none, some "",
   some "local", some "admin", some false, none, none, some 0⟩

/-- A sample user with a pending reset code. -/
def sampleUser : User :=
  ⟨2, some "Bo", some "bo@hopenest.org", some (.hash "bopw"), none, none, some "",
   some "local", some "user", some false, some "ABC123", some 2000000, some 0⟩

/-- A sample crowdfunding campaign of user `2`: approved, verified, with
`currentAmount = 100`. -/
def sampleCampaign : Campaign :=
  ⟨10, some "Well", some "A village well", some 5000, some 100, some 0, none, none,
   some "crowdfunding", none, some 2, some "approved", ["/uploads/crowdfunding/1-a.pdf"],
   none, some true, 0, 0⟩

/-- A sample application of user `2`: pending, email not verified. -/
def sampleDraft : Campaign :=
  ⟨12, some "School", some "A village school", some 9000, some 0, some 0, none, none,
   some "crowdfunding", none, some 2, some "pending", ["/uploads/crowdfunding/2-b.pdf"],
   none, some false, 0, 0⟩

/-- A sample store. -/
def sampleStore : Store :=
  ⟨[sampleAdmin, sampleUser], [sampleCampaign, sampleDraft], [], 13⟩

/-- The empty store. -/
def emptyStore : Store := ⟨[], [], [], 0⟩

/-- The sample token table with one more session token of user `2`, which
expired at second `500`. -/
def agedDecode (t : String) : Option Jwt :=
  if t == "old-token" then some ⟨"secret", some 500, [("userId", .str "2")]⟩
  else sampleDecode t

/-- The sample environment over the larger token table. -/
def agedEnv : Env :=
  ⟨1000000, "secret", agedDecode, sampleParseDate, true, "A1B2C3"⟩

/-- The environment with another answer of the mail transport. -/
def Env.withMail (env : Env) (ok : Bool) : Env :=
  ⟨env.now, env.jwtSecret, env.decodeJwt, env.parseDate, ok, env.resetCode⟩

/-- A sample user with a local password whose account is blocked. -/
def sampleBlocked : User :=
  ⟨3, some "Cy", some "cy@hopenest.org", some (.hash "cypw"), none, none, some "",
   some "local", some "user", some true, none, none, some 0⟩

/-- A sample user created by a Google login: no password. -/
def sampleSocial : User :=
  ⟨4, some "Di", some "di@hopenest.org", none, some "g-4", none, some "",
   some "google", some "user", some false, none, none, some 0⟩

/-- A sample user created by a Facebook login and blocked since. -/
def sampleSocialBlocked : User :=
  ⟨5, some "Ed", some "ed@hopenest.org", none, none, some "f-5", some "",
   some "facebook", some "user", some true, none, none, some 0⟩

/-- A sample application of user `2` that an admin rejected. -/
def sampleRejected : Campaign :=
  ⟨11, some "Bridge", some "A foot bridge", some 3000, some 0, some 0, none, none,
   some "crowdfunding", none, some 2, some "rejected", ["/uploads/crowdfunding/3-c.pdf"],
   some "Incomplete documents", some true, 0, 0⟩

/-- A sample mail configuration: a host on port `465` with credentials, and
a transport that accepts every message. -/
def sampleMailConfig : MailConfig :=
  ⟨some "smtp.hopenest.org", some "465", some "mailer@hopenest.org", some "pw", none, none,
   none, none, fun _ _ => true⟩

/-- The mailer of a process that has sent nothing yet. -/
def freshMailer : Mailer := ⟨none, false, []⟩

/-- A mail configuration with no variable set, on a machine where
`nodemailer.createTestAccount()` throws; the transport would accept every
message. -/
def offlineMailConfig : MailConfig :=
  ⟨none, none, none, none, none, none, none, none, fun _ _ => true⟩

/-- A sample store with the five users and a rejected application. -/
def accountStore : Store :=
  ⟨[sampleAdmin, sampleUser, sampleBlocked, sampleSocial, sampleSocialBlocked],
   [sampleCampaign, sampleRejected, sampleDraft], [], 13⟩

/-! ## Lists and the store -/

theorem find_replaceFirst {α : Type} (q p : α → Bool) (f : α → α) (R : α → α → Prop)
    (hrefl : ∀ x, R x x) :
    ∀ (l : List α) (c : α), (∀ x ∈ l, p x = true → q (f x) = q x) →
      (∀ x ∈ l, p x = true → q x = true → R x (f x)) →
      l.find? q = some c → ∃ d, (replaceFirst p f l).find? q = some d ∧ R c d := by
  intro l
  induction l with
  | nil => intro c _ _ h; simp at h
  | cons x xs ih =>
    intro c hq hR h
    by_cases hp : p x = true
    · have hqx := hq x (List.mem_cons_self _ _) hp
      by_cases hx : q x = true
      · have : c = x := by simpa [List.find?, hx] using h.symm
        subst this
        refine ⟨f c, ?_, hR c (List.mem_cons_self _ _) hp hx⟩
        simp [replaceFirst, hp, List.find?, hqx, hx]
      · have hx' : q x = false := by simpa using hx
        refine ⟨c, ?_, hrefl c⟩
        simp only [replaceFirst, hp, if_true, List.find?, hqx, hx']
        simpa [List.find?, hx'] using h
    · have hp' : p x = false := by simpa using hp
      by_cases hx : q x = true
      · have : c = x := by simpa [List.find?, hx] using h.symm
        subst this
        exact ⟨c, by simp [replaceFirst, hp', List.find?, hx], hrefl c⟩
      · have hx' : q x = false := by simpa using hx
        have h' : xs.find? q = some c := by simpa [List.find?, hx'] using h
        obtain ⟨d, hd, hRd⟩ := ih c (fun y hy => hq y (List.mem_cons_of_mem _ hy))
          (fun y hy => hR y (List.mem_cons_of_mem _ hy)) h'
        exact ⟨d, by simp [replaceFirst, hp', List.find?, hx', hd], hRd⟩

theorem find_removeFirst {α : Type} (q p : α → Bool) :
    ∀ (l : List α), (∀ x ∈ l, p x = true → q x = false) →
      (removeFirst p l).find? q = l.find? q := by
  intro l
  induction l with
  | nil => intro _; rfl
  | cons x xs ih =>
    intro h
    by_cases hp : p x = true
    · have := h x (List.mem_cons_self _ _) hp
      simp [removeFirst, hp, List.find?, this]
    · have hp' : p x = false := by simpa using hp
      simp only [removeFirst, hp', List.find?]
      rw [ih (fun y hy => h y (List.mem_cons_of_mem _ hy))]

theorem map_replaceFirst {α β : Type} (g : α → β) (p : α → Bool) (f : α → α) :
    ∀ (l : List α), (∀ x ∈ l, p x = true → g (f x) = g x) →
      (replaceFirst p f l).map g = l.map g := by
  intro l
  induction l with
  | nil => intro _; rfl
  | cons x xs ih =>
    intro h
    by_cases hp : p x = true
    · simp [replaceFirst, hp, h x (List.mem_cons_self _ _) hp]
    · have hp' : p x = false := by simpa using hp
      simp [replaceFirst, hp', ih (fun y hy => h y (List.mem_cons_of_mem _ hy))]

theorem removeFirst_sublist {α : Type} (p : α → Bool) :
    ∀ (l : List α), (removeFirst p l).Sublist l := by
  intro l
  induction l with
  | nil => exact List.Sublist.refl _
  | cons x xs ih =>
    by_cases hp : p x = true
    · simp [removeFirst, hp]
    · have hp' : p x = false := by simpa using hp
      simp [removeFirst, hp', ih]


theorem follows_refl (T : Nat → Bool) (R : Campaign → Campaign → Prop)
    (hrefl : ∀ x, R x x) (s : Store) : Follows T R s s :=
  ⟨fun h => h, fun _ c _ _ h => ⟨c, h, hrefl c⟩⟩

theorem follows_trans (T : Nat → Bool) (R : Campaign → Campaign → Prop)
    (htrans : ∀ x y z, R x y → R y z → R x z) (s t u : Store)
    (h1 : Follows T R s t) (h2 : Follows T R t u) : Follows T R s u := by
  refine ⟨fun h => h2.1 (h1.1 h), ?_⟩
  intro i c hT hs hc
  obtain ⟨d, hd, hR⟩ := h1.2 i c hT hs hc
  obtain ⟨e, he, hR2⟩ := h2.2 i d hT (h1.1 hs) hd
  exact ⟨e, he, htrans _ _ _ hR hR2⟩

theorem follows_same (T : Nat → Bool) (R : Campaign → Campaign → Prop)
    (hrefl : ∀ x, R x x) (s t : Store) (hc : t.campaigns = s.campaigns)
    (hn : s.nextId ≤ t.nextId) : Follows T R s t := by
  refine ⟨?_, ?_⟩
  · intro h
    refine ⟨by rw [hc]; exact h.1, ?_⟩
    intro c hmem
    rw [hc] at hmem
    exact lt_of_lt_of_le (h.2 c hmem) hn
  · intro i c _ _ h
    exact ⟨c, by simpa [Store.campaignById, hc] using h, hrefl c⟩

theorem follows_insert (T : Nat → Bool) (R : Campaign → Campaign → Prop)
    (hrefl : ∀ x, R x x) (s t : Store) (c : Campaign)
    (hc : t.campaigns = s.campaigns ++ [c]) (hid : c._id = s.nextId)
    (hn : t.nextId = s.nextId + 1) : Follows T R s t := by
  refine ⟨?_, ?_⟩
  · intro h
    refine ⟨?_, ?_⟩
    · rw [hc, List.map_append, List.nodup_append]
      refine ⟨h.1, by simp, ?_⟩
      intro a ha hb
      simp only [List.map_cons, List.map_nil, List.mem_singleton] at hb
      obtain ⟨x, hx, rfl⟩ := List.mem_map.mp ha
      have := h.2 x hx
      omega
    · intro x hx
      rw [hc, List.mem_append, List.mem_singleton] at hx
      rcases hx with hx | rfl
      · have := h.2 x hx; omega
      · omega
  · intro i d _ _ h
    refine ⟨d, ?_, hrefl d⟩
    simp only [Store.campaignById] at h ⊢
    rw [hc, List.find?_append, h]
    rfl

theorem follows_replace (T : Nat → Bool) (R : Campaign → Campaign → Prop)
    (hrefl : ∀ x, R x x) (s t : Store) (p : Campaign → Bool) (f : Campaign → Campaign)
    (hc : t.campaigns = replaceFirst p f s.campaigns) (hn : s.nextId ≤ t.nextId)
    (hid : ∀ x, (f x)._id = x._id)
    (hR : ∀ x, p x = true → T x._id = true ∨ R x (f x)) : Follows T R s t := by
  have hmap : t.campaigns.map (fun c => c._id) = s.campaigns.map (fun c => c._id) := by
    rw [hc]; exact map_replaceFirst _ p f _ (fun x _ _ => hid x)
  refine ⟨?_, ?_⟩
  · intro h
    refine ⟨by rw [hmap]; exact h.1, ?_⟩
    intro x hx
    have : x._id ∈ t.campaigns.map (fun c => c._id) := List.mem_map_of_mem _ hx
    rw [hmap] at this
    obtain ⟨y, hy, hxy⟩ := List.mem_map.mp this
    have := h.2 y hy
    omega
  · intro i c hT _ h
    simp only [Store.campaignById] at h ⊢
    rw [hc]
    refine find_replaceFirst _ p f R hrefl _ c ?_ ?_ h
    · intro x _ _; simp [hid x]
    · intro x _ hp hq
      rcases hR x hp with h1 | h1
      · have : x._id = i := by simpa using hq
        rw [this, hT] at h1
        exact absurd h1 (by simp)
      · exact h1

theorem follows_remove (T : Nat → Bool) (R : Campaign → Campaign → Prop)
    (hrefl : ∀ x, R x x) (s t : Store) (p : Campaign → Bool)
    (hc : t.campaigns = removeFirst p s.campaigns) (hn : s.nextId ≤ t.nextId)
    (hT : ∀ x, p x = true → T x._id = true) : Follows T R s t := by
  have hsub : t.campaigns.Sublist s.campaigns := by rw [hc]; exact removeFirst_sublist p _
  refine ⟨?_, ?_⟩
  · intro h
    refine ⟨List.Nodup.sublist (hsub.map _) h.1, ?_⟩
    intro x hx
    have := h.2 x (hsub.subset hx)
    omega
  · intro i c hTi _ h
    refine ⟨c, ?_, hrefl c⟩
    simp only [Store.campaignById] at h ⊢
    rw [hc, find_removeFirst _ p _ ?_, h]
    intro x _ hp
    have := hT x hp
    by_contra hcon
    have hxi : x._id = i := by simpa using hcon
    rw [hxi, hTi] at this
    exact absurd this (by simp)

theorem eq_of_mem_of_id_eq (s : Store) (hs : s.CampaignsOk) (x y : Campaign)
    (hx : x ∈ s.campaigns) (hy : y ∈ s.campaigns) (h : x._id = y._id) : x = y :=
  List.inj_on_of_nodup_map hs.1 hx hy h

theorem follows_put (T : Nat → Bool) (R : Campaign → Campaign → Prop)
    (hrefl : ∀ x, R x x) (s t : Store) (c0 c1 : Campaign)
    (hmem : c0 ∈ s.campaigns) (hid : c1._id = c0._id) (hR : R c0 c1)
    (hc : t.campaigns = replaceFirst (fun d => d._id == c1._id) (fun _ => c1) s.campaigns)
    (hn : s.nextId ≤ t.nextId) : Follows T R s t := by
  have hmap : t.campaigns.map (fun c => c._id) = s.campaigns.map (fun c => c._id) := by
    rw [hc]; exact map_replaceFirst _ _ _ _ (fun x _ hp => by simpa using (Eq.symm (by simpa using hp)))
  refine ⟨?_, ?_⟩
  · intro h
    refine ⟨by rw [hmap]; exact h.1, ?_⟩
    intro x hx
    have : x._id ∈ t.campaigns.map (fun c => c._id) := List.mem_map_of_mem _ hx
    rw [hmap] at this
    obtain ⟨y, hy, hxy⟩ := List.mem_map.mp this
    have := h.2 y hy
    omega
  · intro i c _ hs h
    simp only [Store.campaignById] at h ⊢
    rw [hc]
    refine find_replaceFirst _ _ _ R hrefl _ c ?_ ?_ h
    · intro x _ hp
      have : x._id = c1._id := by simpa using hp
      simp [this]
    · intro x hx hp _
      have : x._id = c1._id := by simpa using hp
      have hx0 : x = c0 := eq_of_mem_of_id_eq s hs x c0 hx hmem (by rw [this, hid])
      rw [hx0]; exact hR

theorem kept_refl (c : Campaign) : Kept c c :=
  ⟨rfl, rfl, rfl, rfl, rfl, rfl, fun h => h⟩

theorem kept_trans (a b c : Campaign) (h1 : Kept a b) (h2 : Kept b c) : Kept a c :=
  ⟨h2.id_eq.trans h1.id_eq, h2.status_eq.trans h1.status_eq, h2.type_eq.trans h1.type_eq,
   h2.organizer_eq.trans h1.organizer_eq, h2.reason_eq.trans h1.reason_eq,
   h2.documents_eq.trans h1.documents_eq, fun h => h2.verified_mono (h1.verified_mono h)⟩

theorem createCampaign_follows (T : Nat → Bool) (R : Campaign → Campaign → Prop)
    (hrefl : ∀ x, R x x) (env : Env) (s s1 : Store) (data : Body) (c : Campaign)
    (h : createCampaign env s data = some (s1, c)) : Follows T R s s1 := by
  unfold createCampaign at h
  split at h
  · exact absurd h (by simp)
  · rename_i d hd
    split at h
    · simp only [Option.some.injEq, Prod.mk.injEq] at h
      obtain ⟨rfl, rfl⟩ := h
      refine follows_insert T R hrefl s _ d rfl ?_ rfl
      unfold newCampaign at hd
      simp only at hd
      split at hd
      · simp only [Option.some.injEq] at hd
        rw [← hd]
      · exact absurd hd (by simp)
    · exact absurd h (by simp)

theorem castCampaignUpdate_id (env : Env) (upd : Body) (f : Campaign → Campaign)
    (h : castCampaignUpdate env upd = some f) (x : Campaign) : (f x)._id = x._id := by
  unfold castCampaignUpdate at h
  simp only at h
  split at h
  · simp only [Option.some.injEq] at h
    rw [← h]
  · exact absurd h (by simp)

theorem findOneAndUpdate_follows (T : Nat → Bool) (R : Campaign → Campaign → Prop)
    (hrefl : ∀ x, R x x) (env : Env) (s s1 : Store) (p : Campaign → Bool) (upd : Body)
    (c : Campaign) (h : findOneAndUpdate env s p upd = some (some (s1, c)))
    (hR : ∀ f x, castCampaignUpdate env upd = some f → p x = true →
      T x._id = true ∨ R x (f x)) : Follows T R s s1 := by
  unfold findOneAndUpdate at h
  split at h
  · exact absurd h (by simp)
  · rename_i f hf
    split at h
    · simp at h
    · simp only [Option.some.injEq, Prod.mk.injEq] at h
      obtain ⟨rfl, _⟩ := h
      exact follows_replace T R hrefl s _ p f rfl (le_refl _) (castCampaignUpdate_id env upd f hf)
        (fun x hp => hR f x hf hp)

theorem findOneAndDelete_follows (T : Nat → Bool) (R : Campaign → Campaign → Prop)
    (hrefl : ∀ x, R x x) (s s1 : Store) (p : Campaign → Bool) (c : Campaign)
    (h : findOneAndDelete s p = some (s1, c))
    (hT : ∀ x, p x = true → T x._id = true) : Follows T R s s1 := by
  unfold findOneAndDelete at h
  split at h
  · exact absurd h (by simp)
  · simp only [Option.some.injEq, Prod.mk.injEq] at h
    obtain ⟨rfl, _⟩ := h
    exact follows_remove T R hrefl s _ p rfl (le_refl _) hT

theorem saveCampaign_follows (T : Nat → Bool) (R : Campaign → Campaign → Prop)
    (hrefl : ∀ x, R x x) (env : Env) (s s1 : Store) (c0 c1 : Campaign)
    (h : saveCampaign env s c1 = some s1) (hmem : c0 ∈ s.campaigns)
    (hid : c1._id = c0._id) (hR : R c0 (c1.stamp env.now)) : Follows T R s s1 := by
  unfold saveCampaign at h
  split at h
  · simp only [Option.some.injEq] at h
    subst h
    exact follows_put T R hrefl s _ c0 (c1.stamp env.now) hmem hid hR rfl (le_refl _)
  · exact absurd h (by simp)

theorem apiCampaignCreate_follows (T : Nat → Bool) (env : Env) (s : Store) (body : Body) :
    Follows T Kept s (apiCampaignCreate env s body).1 := by
  unfold apiCampaignCreate
  split
  · exact follows_refl T Kept kept_refl s
  · rename_i s1 c h
    exact createCampaign_follows T Kept kept_refl env s s1 _ c h

theorem apiCampaignUpdate_follows (T : Nat → Bool) (env : Env) (s : Store) (id : String)
    (body : Body) (hT : ∀ i, castIdParam id = some i → T i = true) :
    Follows T Kept s (apiCampaignUpdate env s id body).1 := by
  unfold apiCampaignUpdate
  split
  · exact follows_refl T Kept kept_refl s
  · rename_i i hi
    split
    · exact follows_refl T Kept kept_refl s
    · exact follows_refl T Kept kept_refl s
    · rename_i s1 c h
      refine findOneAndUpdate_follows T Kept kept_refl env s s1 _ _ c h ?_
      intro f x _ hp
      left
      have : x._id = i := by simpa using hp
      rw [this]; exact hT i hi

theorem apiCampaignDelete_follows (T : Nat → Bool) (s : Store) (id : String)
    (hT : ∀ i, castIdParam id = some i → T i = true) :
    Follows T Kept s (apiCampaignDelete s id).1 := by
  unfold apiCampaignDelete
  split
  · exact follows_refl T Kept kept_refl s
  · rename_i i hi
    split
    · exact follows_refl T Kept kept_refl s
    · rename_i s1 c h
      refine findOneAndDelete_follows T Kept kept_refl s s1 _ c h ?_
      intro x hp
      have : x._id = i := by simpa using hp
      rw [this]; exact hT i hi

theorem applyHandler_follows (T : Nat → Bool) (env : Env) (s : Store) (userId : JVal)
    (body : Body) (names : List String) :
    Follows T Kept s (applyHandler env s userId body names).1 := by
  unfold applyHandler
  split
  · exact follows_refl T Kept kept_refl s
  · split
    · exact follows_refl T Kept kept_refl s
    · rename_i s1 c h
      have := createCampaign_follows T Kept kept_refl env s s1 _ c h
      split <;> exact this

theorem cfApply_follows (T : Nat → Bool) (env : Env) (s : Store)
    (authorization : Option String) (files : List UploadFile) (body : Body) :
    Follows T Kept s (cfApply env s authorization files body).1 := by
  unfold cfApply
  split
  · exact follows_refl T Kept kept_refl s
  · split
    · exact follows_refl T Kept kept_refl s
    · exact applyHandler_follows T env s _ body _

theorem cfVerifyEmail_follows (T : Nat → Bool) (env : Env) (s : Store) (query : Body) :
    Follows T Kept s (cfVerifyEmail env s query).1 := by
  unfold cfVerifyEmail
  split
  · exact follows_refl T Kept kept_refl s
  · split
    · exact follows_refl T Kept kept_refl s
    · split
      · exact follows_refl T Kept kept_refl s
      · split
        · exact follows_refl T Kept kept_refl s
        · exact follows_refl T Kept kept_refl s
        · split
          · exact follows_refl T Kept kept_refl s
          · rename_i campaign hfind
            split
            · split
              · exact follows_refl T Kept kept_refl s
              · rename_i s1 hsave
                refine saveCampaign_follows T Kept kept_refl env s s1 campaign _ hsave
                  (List.mem_of_find?_eq_some hfind) rfl ?_
                exact ⟨rfl, rfl, rfl, rfl, rfl, rfl, fun _ => rfl⟩
            · exact follows_refl T Kept kept_refl s

theorem cfCreate_follows (T : Nat → Bool) (env : Env) (s : Store)
    (authorization : Option String) (body : Body) :
    Follows T Kept s (cfCreate env s authorization body).1 := by
  unfold cfCreate
  split
  · exact follows_refl T Kept kept_refl s
  · split
    · exact follows_refl T Kept kept_refl s
    · rename_i s1 c h
      exact createCampaign_follows T Kept kept_refl env s s1 _ c h

theorem cfUpdate_follows (T : Nat → Bool) (env : Env) (s : Store)
    (authorization : Option String) (id : String) (body : Body)
    (hT : ∀ i, castIdParam id = some i → T i = true) :
    Follows T Kept s (cfUpdate env s authorization id body).1 := by
  unfold cfUpdate
  split
  · exact follows_refl T Kept kept_refl s
  · split
    · exact follows_refl T Kept kept_refl s
    · rename_i i hi
      split
      · exact follows_refl T Kept kept_refl s
      · exact follows_refl T Kept kept_refl s
      · rename_i s1 c h
        refine findOneAndUpdate_follows T Kept kept_refl env s s1 _ _ c h ?_
        intro f x _ hp
        left
        have : x._id = i := by
          simp only [Bool.and_eq_true, beq_iff_eq] at hp
          exact hp.1
        rw [this]; exact hT i hi

theorem cfDelete_follows (T : Nat → Bool) (env : Env) (s : Store)
    (authorization : Option String) (id : String)
    (hT : ∀ i, castIdParam id = some i → T i = true) :
    Follows T Kept s (cfDelete env s authorization id).1 := by
  unfold cfDelete
  split
  · exact follows_refl T Kept kept_refl s
  · split
    · exact follows_refl T Kept kept_refl s
    · rename_i i hi
      split
      · exact follows_refl T Kept kept_refl s
      · rename_i s1 c h
        refine findOneAndDelete_follows T Kept kept_refl s s1 _ c h ?_
        intro x hp
        have : x._id = i := by
          simp only [Bool.and_eq_true, beq_iff_eq] at hp
          exact hp.1
        rw [this]; exact hT i hi

theorem cfApprove_follows (T : Nat → Bool) (R : Campaign → Campaign → Prop)
    (hrefl : ∀ x, R x x) (env : Env) (s : Store)
    (authorization : Option String) (id : String)
    (hR : ∀ f x i, castIdParam id = some i → x._id = i →
      castCampaignUpdate env
        [("status", JVal.str "approved"), ("rejectionReason", JVal.undefined)] = some f →
      T i = true ∨ R x (f x)) :
    Follows T R s (cfApprove env s authorization id).1 := by
  unfold cfApprove
  split
  · exact follows_refl T R hrefl s
  · split
    · exact follows_refl T R hrefl s
    · rename_i i hi
      split
      · exact follows_refl T R hrefl s
      · exact follows_refl T R hrefl s
      · rename_i s1 c h
        refine findOneAndUpdate_follows T R hrefl env s s1 _ _ c h ?_
        intro f x hf hp
        have hx : x._id = i := by
          simp only [Bool.and_eq_true, beq_iff_eq] at hp
          exact hp.1
        rw [hx]
        exact hR f x i hi hx hf

theorem cfReject_follows (T : Nat → Bool) (R : Campaign → Campaign → Prop)
    (hrefl : ∀ x, R x x) (env : Env) (s : Store)
    (authorization : Option String) (id : String) (body : Body)
    (hR : ∀ f x i v, castIdParam id = some i → x._id = i →
      castCampaignUpdate env
        [("status", JVal.str "rejected"), ("rejectionReason", v)] = some f →
      T i = true ∨ R x (f x)) :
    Follows T R s (cfReject env s authorization id body).1 := by
  unfold cfReject
  split
  · exact follows_refl T R hrefl s
  · split
    · exact follows_refl T R hrefl s
    · rename_i i hi
      split
      · exact follows_refl T R hrefl s
      · exact follows_refl T R hrefl s
      · rename_i s1 c h
        refine findOneAndUpdate_follows T R hrefl env s s1 _ _ c h ?_
        intro f x hf hp
        have hx : x._id = i := by
          simp only [Bool.and_eq_true, beq_iff_eq] at hp
          exact hp.1
        rw [hx]
        exact hR f x i _ hi hx hf

theorem createDonation_campaigns (env : Env) (s s1 : Store) (data : Body) (d : Donation)
    (h : createDonation env s data = some (s1, d)) :
    s1.campaigns = s.campaigns ∧ s.nextId ≤ s1.nextId ∧ s1.users = s.users := by
  unfold createDonation at h
  split at h
  · exact absurd h (by simp)
  · split at h
    · simp only [Option.some.injEq, Prod.mk.injEq] at h
      obtain ⟨rfl, _⟩ := h
      exact ⟨rfl, Nat.le_succ _, rfl⟩
    · exact absurd h (by simp)

theorem updateCampaignAmount_follows (T : Nat → Bool) (env : Env) (s s1 : Store)
    (body : Body) (h : updateCampaignAmount env s body = some s1) :
    Follows T Kept s s1 := by
  unfold updateCampaignAmount at h
  split at h
  · exact absurd h (by simp)
  · simp only [Option.some.injEq] at h
    subst h; exact follows_refl T Kept kept_refl s
  · split at h
    · simp only [Option.some.injEq] at h
      subst h; exact follows_refl T Kept kept_refl s
    · rename_i campaign hfind
      have hmem : campaign ∈ s.campaigns := List.mem_of_find?_eq_some hfind
      split at h
      · exact absurd h (by simp)
      · exact saveCampaign_follows T Kept kept_refl env s s1 campaign _ h hmem rfl
          ⟨rfl, rfl, rfl, rfl, rfl, rfl, fun h => h⟩
      · exact saveCampaign_follows T Kept kept_refl env s s1 campaign _ h hmem rfl
          ⟨rfl, rfl, rfl, rfl, rfl, rfl, fun h => h⟩

theorem postDonation_follows (T : Nat → Bool) (env : Env) (s : Store)
    (authorization : Option String) (body : Body) :
    Follows T Kept s (postDonation env s authorization body).1 := by
  unfold postDonation
  split
  · exact follows_refl T Kept kept_refl s
  · split
    · exact follows_refl T Kept kept_refl s
    · rename_i s1 d h
      obtain ⟨hc, hn, _⟩ := createDonation_campaigns env s s1 _ d h
      have h1 : Follows T Kept s s1 := follows_same T Kept kept_refl s s1 hc hn
      have h2 : Follows T Kept s
          (if truthy (body.get "campaignId") then
            match updateCampaignAmount env s1 body with
            | some s2 => s2
            | none => s1
          else s1) := by
        split
        · split
          · rename_i s2 h2
            exact follows_trans T Kept kept_trans s s1 s2 h1
              (updateCampaignAmount_follows T env s1 s2 body h2)
          · exact h1
        · exact h1
      simp only
      split <;> exact h2

theorem saveUser_campaigns (s s1 : Store) (u : User) (m : Bool)
    (h : saveUser s u m = some s1) :
    s1.campaigns = s.campaigns ∧ s.nextId ≤ s1.nextId := by
  unfold saveUser at h
  split at h
  · split at h
    · split at h
      · exact absurd h (by simp)
      · simp only [Option.some.injEq] at h
        subst h; exact ⟨rfl, le_refl _⟩
    · simp only [Option.some.injEq] at h
      subst h; exact ⟨rfl, le_refl _⟩
  · exact absurd h (by simp)

theorem createUser_campaigns (env : Env) (s s1 : Store) (data : Body) (u : User)
    (h : createUser env s data = some (s1, u)) :
    s1.campaigns = s.campaigns ∧ s.nextId ≤ s1.nextId := by
  unfold createUser at h
  split at h
  · exact absurd h (by simp)
  · split at h
    · split at h
      · exact absurd h (by simp)
      · split at h
        · exact absurd h (by simp)
        · simp only [Option.some.injEq, Prod.mk.injEq] at h
          obtain ⟨rfl, _⟩ := h
          exact ⟨rfl, Nat.le_succ _⟩
    · exact absurd h (by simp)

theorem signup_campaigns (env : Env) (s : Store) (body : Body) :
    (signup env s body).1.campaigns = s.campaigns
      ∧ s.nextId ≤ (signup env s body).1.nextId := by
  unfold signup
  repeat' split
  all_goals first
    | exact ⟨rfl, le_refl _⟩
    | exact createUser_campaigns _ _ _ _ _ ‹_›

theorem apiUserCreate_campaigns (env : Env) (s : Store) (body : Body) :
    (apiUserCreate env s body).1.campaigns = s.campaigns
      ∧ s.nextId ≤ (apiUserCreate env s body).1.nextId := by
  unfold apiUserCreate
  repeat' split
  all_goals first
    | exact ⟨rfl, le_refl _⟩
    | exact createUser_campaigns _ _ _ _ _ ‹_›

theorem resetPassword_campaigns (env : Env) (s : Store) (body : Body) :
    (resetPassword env s body).1.campaigns = s.campaigns
      ∧ s.nextId ≤ (resetPassword env s body).1.nextId := by
  unfold resetPassword
  repeat' split
  all_goals first
    | exact ⟨rfl, le_refl _⟩
    | exact saveUser_campaigns _ _ _ _ ‹_›

theorem requestReset_campaigns (env : Env) (s : Store) (body : Body) :
    (requestReset env s body).1.campaigns = s.campaigns
      ∧ s.nextId ≤ (requestReset env s body).1.nextId := by
  unfold requestReset
  repeat' split
  all_goals first
    | exact ⟨rfl, le_refl _⟩
    | exact saveUser_campaigns _ _ _ _ ‹_›

theorem profileSave_campaigns (s s1 : Store) (user u1 : User) (m : Bool)
    (h : profileSave s user u1 m = some (some s1)) :
    s1.campaigns = s.campaigns ∧ s.nextId ≤ s1.nextId := by
  unfold profileSave at h
  split at h
  · split at h
    · exact absurd h (by simp)
    · split at h
      · exact absurd h (by simp)
      · simp only [Option.some.injEq] at h
        subst h; exact ⟨rfl, le_refl _⟩
  · simp at h

theorem profileUpdate_campaigns (env : Env) (s : Store) (authorization : Option String)
    (body : Body) :
    (profileUpdate env s authorization body).1.campaigns = s.campaigns
      ∧ s.nextId ≤ (profileUpdate env s authorization body).1.nextId := by
  unfold profileUpdate
  repeat' split
  all_goals first
    | exact ⟨rfl, le_refl _⟩
    | exact profileSave_campaigns _ _ _ _ _ ‹_›

theorem accountDelete_campaigns (env : Env) (s : Store) (authorization : Option String) :
    (accountDelete env s authorization).1.campaigns = s.campaigns
      ∧ s.nextId ≤ (accountDelete env s authorization).1.nextId := by
  unfold accountDelete
  repeat' split
  all_goals exact ⟨rfl, le_refl _⟩

theorem apiUserUpdate_campaigns (s : Store) (id : String) (body : Body) :
    (apiUserUpdate s id body).1.campaigns = s.campaigns
      ∧ s.nextId ≤ (apiUserUpdate s id body).1.nextId := by
  unfold apiUserUpdate
  repeat' split
  all_goals exact ⟨rfl, le_refl _⟩

theorem apiUserDelete_campaigns (s : Store) (id : String) :
    (apiUserDelete s id).1.campaigns = s.campaigns
      ∧ s.nextId ≤ (apiUserDelete s id).1.nextId := by
  unfold apiUserDelete
  repeat' split
  all_goals exact ⟨rfl, le_refl _⟩

theorem facebookCreate_campaigns (env : Env) (s : Store) (profile : Profile) :
    (facebookCreate env s profile).1.campaigns = s.campaigns
      ∧ s.nextId ≤ (facebookCreate env s profile).1.nextId := by
  unfold facebookCreate
  repeat' split
  all_goals first
    | exact ⟨rfl, le_refl _⟩
    | exact createUser_campaigns _ _ _ _ _ ‹_›

theorem googleVerify_campaigns (env : Env) (s : Store) (profile : Profile) :
    (googleVerify env s profile).1.campaigns = s.campaigns
      ∧ s.nextId ≤ (googleVerify env s profile).1.nextId := by
  unfold googleVerify
  repeat' split
  all_goals first
    | exact ⟨rfl, le_refl _⟩
    | exact saveUser_campaigns _ _ _ _ ‹_›
    | exact createUser_campaigns _ _ _ _ _ ‹_›

theorem facebookVerify_campaigns (env : Env) (s : Store) (profile : Profile) :
    (facebookVerify env s profile).1.campaigns = s.campaigns
      ∧ s.nextId ≤ (facebookVerify env s profile).1.nextId := by
  unfold facebookVerify
  repeat' split
  all_goals first
    | exact ⟨rfl, le_refl _⟩
    | exact saveUser_campaigns _ _ _ _ ‹_›
    | exact facebookCreate_campaigns _ _ _

theorem follows_weaken (T T2 : Nat → Bool) (R R2 : Campaign → Campaign → Prop)
    (s t : Store) (h : Follows T R s t) (hT : ∀ i, T2 i = false → T i = false)
    (hR : ∀ c d, R c d → R2 c d) : Follows T2 R2 s t := by
  refine ⟨h.1, ?_⟩
  intro i c hi hs hc
  obtain ⟨d, hd, hr⟩ := h.2 i c (hT i hi) hs hc
  exact ⟨d, hd, hR c d hr⟩

theorem step_follows (env : Env) (s : Store) (op : Op) :
    Follows (fun i => op.rewrites i || op.decides i) Kept s (step env s op) := by
  cases op with
  | apiCampaignCreate body => exact apiCampaignCreate_follows _ env s body
  | apiCampaignUpdate id body =>
    exact apiCampaignUpdate_follows _ env s id body
      (fun i hi => by simp [Op.rewrites, hi])
  | apiCampaignDelete id =>
    exact apiCampaignDelete_follows _ s id (fun i hi => by simp [Op.rewrites, hi])
  | cfApply authorization files body => exact cfApply_follows _ env s authorization files body
  | cfVerifyEmail query => exact cfVerifyEmail_follows _ env s query
  | cfCreate authorization body => exact cfCreate_follows _ env s authorization body
  | cfUpdate authorization id body =>
    exact cfUpdate_follows _ env s authorization id body
      (fun i hi => by simp [Op.rewrites, hi])
  | cfDelete authorization id =>
    exact cfDelete_follows _ env s authorization id (fun i hi => by simp [Op.rewrites, hi])
  | cfApprove authorization id =>
    exact cfApprove_follows _ Kept kept_refl env s authorization id
      (fun _ _ i hi _ _ => Or.inl (by simp [Op.decides, hi]))
  | cfReject authorization id body =>
    exact cfReject_follows _ Kept kept_refl env s authorization id body
      (fun _ _ i _ hi _ _ => Or.inl (by simp [Op.decides, hi]))
  | postDonation authorization body => exact postDonation_follows _ env s authorization body
  | signup body =>
    exact follows_same _ Kept kept_refl s _ (signup_campaigns env s body).1
      (signup_campaigns env s body).2
  | profileUpdate authorization body =>
    exact follows_same _ Kept kept_refl s _ (profileUpdate_campaigns env s authorization body).1
      (profileUpdate_campaigns env s authorization body).2
  | accountDelete authorization =>
    exact follows_same _ Kept kept_refl s _ (accountDelete_campaigns env s authorization).1
      (accountDelete_campaigns env s authorization).2
  | requestReset body =>
    exact follows_same _ Kept kept_refl s _ (requestReset_campaigns env s body).1
      (requestReset_campaigns env s body).2
  | resetPassword body =>
    exact follows_same _ Kept kept_refl s _ (resetPassword_campaigns env s body).1
      (resetPassword_campaigns env s body).2
  | apiUserCreate body =>
    exact follows_same _ Kept kept_refl s _ (apiUserCreate_campaigns env s body).1
      (apiUserCreate_campaigns env s body).2
  | apiUserUpdate id body =>
    exact follows_same _ Kept kept_refl s _ (apiUserUpdate_campaigns s id body).1
      (apiUserUpdate_campaigns s id body).2
  | apiUserDelete id =>
    exact follows_same _ Kept kept_refl s _ (apiUserDelete_campaigns s id).1
      (apiUserDelete_campaigns s id).2
  | googleLogin profile =>
    exact follows_same _ Kept kept_refl s _ (googleVerify_campaigns env s profile).1
      (googleVerify_campaigns env s profile).2
  | facebookLogin profile =>
    exact follows_same _ Kept kept_refl s _ (facebookVerify_campaigns env s profile).1
      (facebookVerify_campaigns env s profile).2

theorem run_follows (T : Nat → Bool) (R : Campaign → Campaign → Prop)
    (hrefl : ∀ x, R x x) (htrans : ∀ x y z, R x y → R y z → R x z) :
    ∀ (ops : List (Env × Op)) (s : Store),
      (∀ eo ∈ ops, ∀ t, Follows T R t (step eo.1 t eo.2)) →
      Follows T R s (run s ops) := by
  intro ops
  induction ops with
  | nil => intro s _; exact follows_refl T R hrefl s
  | cons eo rest ih =>
    intro s h
    obtain ⟨env, op⟩ := eo
    simp only [run]
    refine follows_trans T R htrans s _ _ (h (env, op) (List.mem_cons_self _ _) s) ?_
    exact ih _ (fun eo heo t => h eo (List.mem_cons_of_mem _ heo) t)

theorem castCampaignUpdate_verified (env : Env) (upd : Body) (f : Campaign → Campaign)
    (h : castCampaignUpdate env upd = some f) (hu : upd.get "emailVerified" = JVal.undefined)
    (x : Campaign) : (f x).emailVerified = x.emailVerified := by
  unfold castCampaignUpdate at h
  simp only at h
  split at h
  · simp only [Option.some.injEq] at h
    rw [← h]
    simp [hu, pathSet, applySet, Option.join]
  · exact absurd h (by simp)

theorem step_follows_verified (env : Env) (s : Store) (op : Op) :
    Follows (fun i => op.rewrites i)
      (fun c d => c.emailVerified = some true → d.emailVerified = some true)
      s (step env s op) := by
  by_cases hd : ∀ i, op.decides i = false
  · refine follows_weaken _ _ Kept _ s _ (step_follows env s op) ?_ ?_
    · intro i hi; simp [hi, hd i]
    · intro c d h; exact h.verified_mono
  · cases op with
    | cfApprove authorization id =>
      refine cfApprove_follows _ _ (fun _ h => h) env s authorization id ?_
      intro f x i _ _ hf
      right
      intro hv
      rw [castCampaignUpdate_verified env _ f hf (by rfl) x]; exact hv
    | cfReject authorization id body =>
      refine cfReject_follows _ _ (fun _ h => h) env s authorization id body ?_
      intro f x i v _ _ hf
      right
      intro hv
      rw [castCampaignUpdate_verified env _ f hf (by rfl) x]; exact hv
    | _ => exact absurd (fun _ => rfl) hd

theorem find_replaceFirst_hit {α : Type} (q p : α → Bool) (f : α → α) :
    ∀ (l : List α) (c : α), (∀ x ∈ l, p x = true → q x = true) → p c = true →
      q (f c) = true → l.find? q = some c →
      (replaceFirst p f l).find? q = some (f c) := by
  intro l
  induction l with
  | nil => intro c _ _ _ h; simp at h
  | cons x xs ih =>
    intro c hpq hpc hqf h
    by_cases hx : q x = true
    · have hcx : c = x := by simpa [List.find?, hx] using h.symm
      subst hcx
      simp [replaceFirst, hpc, List.find?, hqf]
    · have hx' : q x = false := by simpa using hx
      have hpx : p x = false := by
        by_contra hcon
        have : p x = true := by simpa using hcon
        exact hx (hpq x (List.mem_cons_self _ _) this)
      have h' : xs.find? q = some c := by simpa [List.find?, hx'] using h
      simp only [replaceFirst, hpx, List.find?, hx']
      exact ih c (fun y hy => hpq y (List.mem_cons_of_mem _ hy)) hpc hqf h'

theorem find_crowdfunding_of_find (i : Nat) (c : Campaign) (hcf : c.type = some "crowdfunding") :
    ∀ (l : List Campaign), l.find? (fun d => d._id == i) = some c →
      l.find? (fun d => d._id == i && isCrowdfunding d) = some c := by
  intro l
  induction l with
  | nil => intro hc; simp at hc
  | cons x xs ih =>
    intro hc
    by_cases hx : x._id = i
    · have hcx : c = x := by simpa [List.find?, hx] using hc.symm
      subst hcx
      simp [List.find?, hx, isCrowdfunding, hcf]
    · have hx' : (x._id == i) = false := by simpa using hx
      have : xs.find? (fun d => d._id == i) = some c := by
        simpa [List.find?, hx'] using hc
      simp [List.find?, hx', ih this]

theorem decision_overwrites (env : Env) (s : Store)
    (i : Nat) (c : Campaign) (upd : Body) (f : Campaign → Campaign)
    (hc : s.campaignById i = some c)
    (hcf : c.type = some "crowdfunding") (hf : castCampaignUpdate env upd = some f) :
    ∃ s1, findOneAndUpdate env s (fun d => d._id == i && isCrowdfunding d) upd
        = some (some (s1, f c)) ∧ s1.campaignById i = some (f c) := by
  have hci : c._id = i := by
    have := List.find?_some hc
    simpa using this
  have hp : (fun d : Campaign => d._id == i && isCrowdfunding d) c = true := by
    simp [hci, isCrowdfunding, hcf]
  have hfind := find_crowdfunding_of_find i c hcf s.campaigns hc
  refine ⟨Store.mk s.users
      (replaceFirst (fun d => d._id == i && isCrowdfunding d) f s.campaigns)
      s.donations s.nextId, ?_, ?_⟩
  · unfold findOneAndUpdate
    rw [hf]
    simp only
    rw [hfind]
  · show List.find? (fun d => d._id == i)
      (replaceFirst (fun d => d._id == i && isCrowdfunding d) f s.campaigns) = some (f c)
    refine find_replaceFirst_hit (fun d : Campaign => d._id == i) _ f s.campaigns c ?_ hp ?_ hc
    · intro x _ hx
      simp only [Bool.and_eq_true, beq_iff_eq] at hx
      simp [hx.1]
    · simp [castCampaignUpdate_id env upd f hf c, hci]

theorem get_status (a b : JVal) (k : String) :
    Body.get [("status", a), ("rejectionReason", b)] k
      = if k = "status" then a else if k = "rejectionReason" then b else JVal.undefined := by
  unfold Body.get
  by_cases h1 : k = "status"
  · subst h1; simp [List.find?]
  · by_cases h2 : k = "rejectionReason"
    · subst h2; simp [List.find?]
    · have e1 : ("status" == k) = false := by
        simp only [beq_eq_false_iff_ne, ne_eq]; exact fun h => h1 h.symm
      have e2 : ("rejectionReason" == k) = false := by
        simp only [beq_eq_false_iff_ne, ne_eq]; exact fun h => h2 h.symm
      simp [List.find?, e1, e2, h1, h2]

theorem decision_update (env : Env) (a b : JVal) (f : Campaign → Campaign)
    (hf : castCampaignUpdate env [("status", a), ("rejectionReason", b)] = some f)
    (x : Campaign) :
    ∃ st rr, pathSet castString a = some st ∧ pathSet castString b = some rr
      ∧ (f x).status = applySet x.status st
      ∧ (f x).rejectionReason = applySet x.rejectionReason rr
      ∧ (f x).emailVerified = x.emailVerified := by
  unfold castCampaignUpdate at hf
  simp only [get_status] at hf
  simp only [String.reduceEq, if_false, if_true] at hf
  split at hf
  · rename_i hcond
    simp only [Option.some.injEq] at hf
    rw [← hf]
    simp only [Bool.and_eq_true] at hcond
    obtain ⟨st, hst⟩ := Option.isSome_iff_exists.mp hcond.1.1.1.2
    obtain ⟨rr, hrr⟩ := Option.isSome_iff_exists.mp hcond.1.2
    refine ⟨st, rr, hst, hrr, ?_, ?_, ?_⟩
    · simp [hst, Option.join]
    · simp [hrr, Option.join]
    · simp [pathSet, applySet, Option.join]
  · exact absurd hf (by simp)

theorem decision_update_casts (env : Env) (a b : JVal)
    (ha : pathSet castString a ≠ none) (hb : pathSet castString b ≠ none) :
    ∃ f, castCampaignUpdate env [("status", a), ("rejectionReason", b)] = some f := by
  unfold castCampaignUpdate
  simp only [get_status]
  simp only [String.reduceEq, if_false, if_true]
  have h1 : (pathSet castString a).isSome = true := Option.ne_none_iff_isSome.mp ha
  have h2 : (pathSet castString b).isSome = true := Option.ne_none_iff_isSome.mp hb
  have hu : ∀ (β : Type) (cast : JVal → CastResult β),
      pathSet cast JVal.undefined = some none := fun _ _ => rfl
  simp [h1, h2, hu]

theorem mem_replaceFirst_const {α : Type} (p : α → Bool) (c : α) :
    ∀ (l : List α) (y : α), y ∈ replaceFirst p (fun _ => c) l → y ∈ l ∨ y = c := by
  intro l
  induction l with
  | nil => intro y h; simp [replaceFirst] at h
  | cons x xs ih =>
    intro y h
    by_cases hp : p x = true
    · have h' : y = c ∨ y ∈ xs := by simpa [replaceFirst, hp] using h
      rcases h' with h1 | h1
      · exact Or.inr h1
      · exact Or.inl (List.mem_cons_of_mem _ h1)
    · have hp' : p x = false := by simpa using hp
      have h' : y = x ∨ y ∈ replaceFirst p (fun _ => c) xs := by
        simpa [replaceFirst, hp'] using h
      rcases h' with h1 | h1
      · exact Or.inl (by simp [h1])
      · rcases ih y h1 with h2 | h2
        · exact Or.inl (List.mem_cons_of_mem _ h2)
        · exact Or.inr h2

/-- The invariant of the creation and linking paths, on one user. -/
theorem hashPassword_hash (u h : User) (hh : hashPassword u = some h) :
    (∃ p, h.password = some (.hash p)) ∧ h.googleId = u.googleId
      ∧ h.facebookId = u.facebookId := by
  unfold hashPassword at hh
  split at hh
  · simp only [Option.some.injEq] at hh
    subst hh; exact ⟨⟨_, rfl⟩, rfl, rfl⟩
  · simp only [Option.some.injEq] at hh
    subst hh; exact ⟨⟨_, rfl⟩, rfl, rfl⟩
  · exact absurd hh (by simp)

theorem newUser_password_undefined (env : Env) (id : Nat) (data : Body) (u : User)
    (h : newUser env id data = some u) (hp : data.get "password" = JVal.undefined) :
    u.password = none := by
  unfold newUser at h
  simp only at h
  split at h
  · simp only [Option.some.injEq] at h
    rw [← h]
    simp [hp, pathOr, rawPassword, Option.join]
  · exact absurd h (by simp)

theorem validateUser_password (u : User) (h : validateUser u = true)
    (hr : passwordRequired u = true) : passwordPresent u.password = true := by
  unfold validateUser at h
  simp only [Bool.and_eq_true, Bool.or_eq_true, Bool.not_eq_true'] at h
  rcases h.1.1.2 with h1 | h1
  · rw [hr] at h1; exact absurd h1 (by simp)
  · exact h1

theorem passwordPresent_isSome (p : Option Password) (h : passwordPresent p = true) :
    p.isSome = true := by
  cases p with
  | none => simp [passwordPresent] at h
  | some _ => rfl

theorem createUser_spec (env : Env) (s s1 : Store) (data : Body) (h : User)
    (hc : createUser env s data = some (s1, h)) :
    s1.users = s.users ++ [h] ∧ (∀ t, h.password ≠ some (.raw t))
      ∧ (passwordRequired h = true → h.password.isSome = true) := by
  unfold createUser at hc
  split at hc
  · exact absurd hc (by simp)
  · rename_i u hu
    split at hc
    · rename_i hval
      split at hc
      · exact absurd hc (by simp)
      · rename_i h2 hh
        split at hc
        · exact absurd hc (by simp)
        · simp only [Option.some.injEq, Prod.mk.injEq] at hc
          obtain ⟨rfl, rfl⟩ := hc
          refine ⟨rfl, ?_⟩
          split at hh
          · rename_i hpw
            simp only [Option.some.injEq] at hh
            subst hh
            have hnone := newUser_password_undefined env _ data u hu hpw
            refine ⟨fun t => by simp [hnone], fun hr => ?_⟩
            exact passwordPresent_isSome _ (validateUser_password u hval hr)
          · obtain ⟨⟨p, hp⟩, _, _⟩ := hashPassword_hash u h2 hh
            exact ⟨fun t => by simp [hp], fun _ => by simp [hp]⟩
    · exact absurd hc (by simp)

theorem createUser_sound (env : Env) (s s1 : Store) (data : Body) (h : User)
    (hs : ∀ u ∈ s.users, u.Sound) (hc : createUser env s data = some (s1, h)) :
    ∀ u ∈ s1.users, u.Sound := by
  obtain ⟨hu, h1, h2⟩ := createUser_spec env s s1 data h hc
  intro u hmem
  rw [hu, List.mem_append, List.mem_singleton] at hmem
  rcases hmem with hmem | rfl
  · exact hs u hmem
  · exact ⟨h1, h2⟩

theorem saveUser_sound (s s1 : Store) (u1 : User)
    (hs : ∀ u ∈ s.users, u.Sound) (hraw : ∀ t, u1.password ≠ some (.raw t))
    (hc : saveUser s u1 false = some s1) : ∀ u ∈ s1.users, u.Sound := by
  unfold saveUser at hc
  split at hc
  · rename_i hval
    simp only [Bool.false_eq_true, if_false, Option.some.injEq] at hc
    subst hc
    intro u hmem
    rcases mem_replaceFirst_const _ u1 s.users u hmem with h | rfl
    · exact hs u h
    · exact ⟨hraw, fun hr => passwordPresent_isSome _ (validateUser_password u hval hr)⟩
  · exact absurd hc (by simp)

theorem signup_sound (env : Env) (s : Store) (body : Body)
    (hs : ∀ u ∈ s.users, u.Sound) : ∀ u ∈ (signup env s body).1.users, u.Sound := by
  unfold signup
  repeat' split
  all_goals first
    | exact hs
    | exact createUser_sound _ _ _ _ _ hs ‹_›

theorem apiUserCreate_sound (env : Env) (s : Store) (body : Body)
    (hs : ∀ u ∈ s.users, u.Sound) : ∀ u ∈ (apiUserCreate env s body).1.users, u.Sound := by
  unfold apiUserCreate
  repeat' split
  all_goals first
    | exact hs
    | exact createUser_sound _ _ _ _ _ hs ‹_›

theorem googleVerify_sound (env : Env) (s : Store) (profile : Profile)
    (hs : ∀ u ∈ s.users, u.Sound) : ∀ u ∈ (googleVerify env s profile).1.users, u.Sound := by
  unfold googleVerify
  repeat' split
  all_goals first
    | exact hs
    | exact createUser_sound _ _ _ _ _ hs ‹_›
    | (refine saveUser_sound _ _ _ hs ?_ ‹saveUser _ _ _ = some _›
       have hfind := ‹List.find? _ _ = some _›
       have hm := List.mem_of_find?_eq_some hfind
       exact (hs _ hm).1)

theorem facebookCreate_sound (env : Env) (s : Store) (profile : Profile)
    (hs : ∀ u ∈ s.users, u.Sound) :
    ∀ u ∈ (facebookCreate env s profile).1.users, u.Sound := by
  unfold facebookCreate
  repeat' split
  all_goals first
    | exact hs
    | exact createUser_sound _ _ _ _ _ hs ‹_›

theorem facebookVerify_sound (env : Env) (s : Store) (profile : Profile)
    (hs : ∀ u ∈ s.users, u.Sound) :
    ∀ u ∈ (facebookVerify env s profile).1.users, u.Sound := by
  unfold facebookVerify
  repeat' split
  all_goals first
    | exact hs
    | exact facebookCreate_sound _ _ _ hs
    | (refine saveUser_sound _ _ _ hs ?_ ‹saveUser _ _ _ = some _›
       have hfind := ‹List.find? _ _ = some _›
       have hm := List.mem_of_find?_eq_some hfind
       exact (hs _ hm).1)

theorem run_sound : ∀ (ops : List (Env × Op)) (s : Store),
    (∀ eo ∈ ops, eo.2.createsOrLinks = true) → (∀ u ∈ s.users, u.Sound) →
    ∀ u ∈ (run s ops).users, u.Sound := by
  intro ops
  induction ops with
  | nil => intro s _ hs; exact hs
  | cons eo rest ih =>
    intro s h hs
    obtain ⟨env, op⟩ := eo
    simp only [run]
    refine ih _ (fun eo heo => h eo (List.mem_cons_of_mem _ heo)) ?_
    have hop := h (env, op) (List.mem_cons_self _ _)
    cases op with
    | signup body => exact signup_sound env s body hs
    | apiUserCreate body => exact apiUserCreate_sound env s body hs
    | googleLogin profile => exact googleVerify_sound env s profile hs
    | facebookLogin profile => exact facebookVerify_sound env s profile hs
    | _ => simp [Op.createsOrLinks] at hop

theorem mem_replaceFirst_nodup {α β : Type} [DecidableEq β] (g : α → β) (u h : α) :
    ∀ (l : List α), (l.map g).Nodup → u ∈ l →
      ∀ v ∈ replaceFirst (fun d => g d == g u) (fun _ => h) l,
        v = h ∨ (v ∈ l ∧ g v ≠ g u) := by
  intro l
  induction l with
  | nil => intro _ hu; simp at hu
  | cons x xs ih =>
    intro hnd hu v hv
    rw [List.map_cons, List.nodup_cons] at hnd
    by_cases hx : g x = g u
    · have hv' : v = h ∨ v ∈ xs := by simpa [replaceFirst, hx] using hv
      rcases hv' with h1 | h1
      · exact Or.inl h1
      · refine Or.inr ⟨List.mem_cons_of_mem _ h1, ?_⟩
        intro hcon
        exact hnd.1 (by rw [hx, ← hcon]; exact List.mem_map_of_mem _ h1)
    · have hv' : v = x ∨ v ∈ replaceFirst (fun d => g d == g u) (fun _ => h) xs := by
        simpa [replaceFirst, hx] using hv
      have hu' : u ∈ xs := by
        rcases List.mem_cons.mp hu with h1 | h1
        · exact absurd (by rw [h1]) hx
        · exact h1
      rcases hv' with h1 | h1
      · exact Or.inr ⟨by simp [h1], by rw [h1]; exact hx⟩
      · rcases ih hnd.2 hu' v h1 with h2 | h2
        · exact Or.inl h2
        · exact Or.inr ⟨List.mem_cons_of_mem _ h2.1, h2.2⟩

theorem saveUser_spec (s s1 : Store) (u : User) (m : Bool)
    (h : saveUser s u m = some s1) :
    ∃ w, s1 = s.putUser w ∧ w._id = u._id ∧ w.email = u.email
      ∧ w.resetToken = u.resetToken ∧ w.resetTokenExpiry = u.resetTokenExpiry := by
  unfold saveUser at h
  split at h
  · split at h
    · split at h
      · exact absurd h (by simp)
      · rename_i w hw
        simp only [Option.some.injEq] at h
        refine ⟨w, h.symm, ?_⟩
        unfold hashPassword at hw
        split at hw
        · simp only [Option.some.injEq] at hw
          subst hw; exact ⟨rfl, rfl, rfl, rfl⟩
        · simp only [Option.some.injEq] at hw
          subst hw; exact ⟨rfl, rfl, rfl, rfl⟩
        · exact absurd hw (by simp)
    · simp only [Option.some.injEq] at h
      exact ⟨u, h.symm, rfl, rfl, rfl, rfl⟩
  · exact absurd h (by simp)

theorem resetAssign_spec (user u1 : User) (v : JVal) (m : Bool)
    (h : resetAssign user v = some (u1, m)) :
    u1._id = user._id ∧ u1.email = user.email ∧ u1.resetToken = none
      ∧ u1.resetTokenExpiry = none := by
  unfold resetAssign at h
  split at h
  · simp only [Option.some.injEq, Prod.mk.injEq] at h
    obtain ⟨rfl, _⟩ := h
    exact ⟨rfl, rfl, rfl, rfl⟩
  · split at h
    · exact absurd h (by simp)
    · simp only [Option.some.injEq, Prod.mk.injEq] at h
      obtain ⟨rfl, _⟩ := h
      exact ⟨rfl, rfl, rfl, rfl⟩
    · simp only [Option.some.injEq, Prod.mk.injEq] at h
      obtain ⟨rfl, _⟩ := h
      exact ⟨rfl, rfl, rfl, rfl⟩

theorem stringCond_str (e : String) :
    stringCond (JVal.str e) = some (fun f => f == some e) := rfl

theorem reset_consumes (env : Env) (s s1 : Store) (body : Body) (e : String)
    (hs : s.UsersOk) (he : body.get "email" = JVal.str e)
    (h : resetPassword env s body = (s1, ⟨200, .success "Password reset successful"⟩)) :
    (∃ w ∈ s1.users, w.email = some e) ∧
    ∀ v ∈ s1.users, v.email = some e →
      v.resetToken = none ∧ v.resetTokenExpiry = none := by
  unfold resetPassword at h
  rw [he, stringCond_str] at h
  split at h
  · rename_i emailCond tokenCond hec htc
    simp only [Option.some.injEq] at hec
    subst hec
    split at h
    · simp at h
    · rename_i user hfind
      split at h
      · simp at h
      · rename_i u1 m hassign
        split at h
        · simp at h
        · rename_i s2 hsave
          simp only [Prod.mk.injEq, and_true] at h
          subst h
          obtain ⟨w, rfl, hwid, hwe, hwt, hwx⟩ := saveUser_spec s s2 u1 m hsave
          obtain ⟨hid, hem, ht, hx⟩ := resetAssign_spec user u1 _ m hassign
          have hmem : user ∈ s.users := List.mem_of_find?_eq_some hfind
          have hpred := List.find?_some hfind
          simp only [Bool.and_eq_true, beq_iff_eq] at hpred
          have huser : user.email = some e := hpred.1.1
          have hwu : w._id = user._id := hwid.trans hid
          have key : ∀ v ∈ (s.putUser w).users, v = w ∨ (v ∈ s.users ∧ v._id ≠ user._id) := by
            intro v hv
            have := mem_replaceFirst_nodup (fun u : User => u._id) user w s.users hs.1 hmem v
              (by simpa [Store.putUser, hwu] using hv)
            exact this
          refine ⟨⟨w, ?_, by rw [hwe, hem, huser]⟩, ?_⟩
          · show w ∈ replaceFirst (fun d => d._id == w._id) (fun _ => w) s.users
            clear key hfind hsave
            revert hmem
            generalize s.users = l
            intro hmem
            induction l with
            | nil => simp at hmem
            | cons x xs ih =>
              by_cases hx : x._id = w._id
              · simp [replaceFirst, hx]
              · rcases List.mem_cons.mp hmem with h1 | h1
                · exact absurd (by rw [← h1, hwu]) hx
                · simp [replaceFirst, hx, ih h1]
          · intro v hv hve
            rcases key v hv with h1 | h1
            · rw [h1, hwt, hwx, ht, hx]; exact ⟨rfl, rfl⟩
            · have : v = user :=
                List.inj_on_of_nodup_map hs.2 h1.1 hmem (by rw [hve, huser])
              exact absurd (by rw [this]) h1.2
  · simp at h

theorem find_after_put (s : Store) (hs : s.CampaignsOk) (q : Campaign → Bool)
    (c c1 : Campaign) (hfind : s.campaigns.find? q = some c) (hid : c1._id = c._id)
    (hq : q c1 = true) :
    (s.putCampaign c1).campaigns.find? q = some c1 := by
  have hmem : c ∈ s.campaigns := List.mem_of_find?_eq_some hfind
  have hqc := List.find?_some hfind
  show List.find? q (replaceFirst (fun d => d._id == c1._id) (fun _ => c1) s.campaigns)
    = some c1
  refine find_replaceFirst_hit q (fun d => d._id == c1._id) (fun _ => c1) s.campaigns c
    ?_ (by simp [hid]) hq hfind
  intro x hx hp
  have hxc : x._id = c._id := by
    have : x._id = c1._id := by simpa using hp
    rw [this, hid]
  rw [eq_of_mem_of_id_eq s hs x c hx hmem hxc]
  exact hqc

/-! ## The claims -/

/-- C1 (code at the failing input). A donation request whose body carries
the amount as the string "50" for campaign `10`, which stands at `100`, is
accepted with 201 and saved with the amount `50`, and the campaign ends at
`10050`: line 23 adds `req.body.amount` as it came, so `100 + "50"` is the
string "10050", which the Number cast reads back. -/
theorem donation_string_amount_concatenates :
    (postDonation sampleEnv sampleStore (some "Bearer user-token")
        [("amount", JVal.str "50"), ("type", JVal.str "once"), ("name", JVal.str "Bo"),
         ("email", JVal.str "bo@hopenest.org"), ("phone", JVal.str "555"),
         ("paymentMethod", JVal.str "card"), ("campaignId", JVal.str "10")]).2.status = 201
    ∧ (postDonation sampleEnv sampleStore (some "Bearer user-token")
        [("amount", JVal.str "50"), ("type", JVal.str "once"), ("name", JVal.str "Bo"),
         ("email", JVal.str "bo@hopenest.org"), ("phone", JVal.str "555"),
         ("paymentMethod", JVal.str "card"), ("campaignId", JVal.str "10")]).1.donations.map
        (fun d => d.amount) = [some 50]
    ∧ (sampleStore.campaignById 10).map (fun c => c.currentAmount) = some (some 100)
    ∧ ((postDonation sampleEnv sampleStore (some "Bearer user-token")
        [("amount", JVal.str "50"), ("type", JVal.str "once"), ("name", JVal.str "Bo"),
         ("email", JVal.str "bo@hopenest.org"), ("phone", JVal.str "555"),
         ("paymentMethod", JVal.str "card"), ("campaignId", JVal.str "10")]).1.campaignById
        10).map (fun c => c.currentAmount) = some (some 10050) := by
  decide

/-- The sum of line 23 for a numeric amount: when the body carries the
amount as a number and names a campaign that passes its validators, an
accepted donation leaves the campaign at the sum `(currentAmount || 0) + amount`
of the two numbers, when that sum is a number. -/
theorem donation_numeric_amount_adds (env : Env) (s : Store)
    (authorization : Option String) (body : Body) (userId : JVal) (a total : JsNum) (i : Nat)
    (c : Campaign) (hs : s.CampaignsOk)
    (hauth : requireAuth env authorization = .ok userId)
    (ha : body.get "amount" = JVal.num a)
    (hsum : (c.currentAmount.getD 0).add a = some total)
    (htruthy : truthy (body.get "campaignId") = true)
    (hid : castObjectId (body.get "campaignId") = .value i)
    (hc : s.campaignById i = some c) (hvalid : validateCampaign c = true)
    (h201 : (postDonation env s authorization body).2.status = 201) :
    ∃ d, (postDonation env s authorization body).1.campaignById i = some d
      ∧ d.currentAmount = some total := by
  unfold postDonation at h201 ⊢
  rw [hauth] at h201 ⊢
  simp only at h201 ⊢
  cases hcd : createDonation env s (("userId", userId) :: body) with
  | none => rw [hcd] at h201; simp at h201
  | some p =>
    obtain ⟨s1, dn⟩ := p
    obtain ⟨hcamp, hn, _⟩ := createDonation_campaigns env s s1 _ dn hcd
    have hs1 : s1.CampaignsOk :=
      (follows_same (fun _ => false) Kept kept_refl s s1 hcamp hn).1 hs
    have hc1 : s1.campaignById i = some c := by
      simpa [Store.campaignById, hcamp] using hc
    have hv' : validateCampaign
        (Campaign.mk c._id c.title c.description c.targetAmount
          (some total) c.startDate c.endDate c.imageUrl c.type
          c.category c.organizer c.status c.documents c.rejectionReason c.emailVerified
          c.createdAt c.updatedAt) = true := hvalid
    have hupd : updateCampaignAmount env s1 body
        = some (s1.putCampaign ((Campaign.mk c._id c.title c.description c.targetAmount
          (some total) c.startDate c.endDate c.imageUrl c.type
          c.category c.organizer c.status c.documents c.rejectionReason c.emailVerified
          c.createdAt c.updatedAt).stamp env.now)) := by
      unfold updateCampaignAmount
      rw [hid]
      simp only [hc1, ha, jsAdd, hsum, castNumber, castNumberValue, saveCampaign, hv', if_true]
    have hlook := find_after_put s1 hs1 (fun d => d._id == i) c
      ((Campaign.mk c._id c.title c.description c.targetAmount
          (some total) c.startDate c.endDate c.imageUrl c.type
          c.category c.organizer c.status c.documents c.rejectionReason c.emailVerified
          c.createdAt c.updatedAt).stamp env.now) hc1 rfl
      (by
        have := List.find?_some hc1
        simpa [Campaign.stamp] using this)
    simp only [htruthy, if_true, hupd]
    refine ⟨(Campaign.mk c._id c.title c.description c.targetAmount
          (some total) c.startDate c.endDate c.imageUrl c.type
          c.category c.organizer c.status c.documents c.rejectionReason c.emailVerified
          c.createdAt c.updatedAt).stamp env.now, ?_, rfl⟩
    split <;> exact hlook

/-- C2 (counterexample). Campaign `10` is approved; one admin reject later
its status is rejected: approved is no terminal state. -/
theorem approved_status_is_rewritten :
    (sampleStore.campaignById 10).map (fun c => c.status) = some (some "approved")
    ∧ ((run sampleStore
        [(sampleEnv, Op.cfReject (some "Bearer admin-token") "10" [])]).campaignById
        10).map (fun c => c.status) = some (some "rejected") := by
  decide

/-- C2 (amended). In a well-formed collection, the status of a campaign is
written only by the approve, reject and update routes aimed at it, and the
campaign is removed only by the delete routes aimed at it: over every
sequence of other operations it stays in the store with the status it had.
Approve and reject overwrite whatever status is there: for an admin and a
crowdfunding campaign, approve leaves `approved` and reject (with a reason
that casts to a string, or none) leaves `rejected`. -/
theorem status_written_only_by_decision_or_update (s : Store) (i : Nat) (c : Campaign)
    (hs : s.CampaignsOk) (hc : s.campaignById i = some c) :
    (∀ ops : List (Env × Op),
        (∀ eo ∈ ops, eo.2.rewrites i = false ∧ eo.2.decides i = false) →
        ∃ d, (run s ops).campaignById i = some d ∧ d.status = c.status)
    ∧ (∀ (env : Env) (authorization : Option String) (id : String) (admin : JVal),
        requireAdmin env s authorization = .ok admin → castIdParam id = some i →
        c.type = some "crowdfunding" →
        ∃ d, (cfApprove env s authorization id).1.campaignById i = some d
          ∧ d.status = some "approved")
    ∧ (∀ (env : Env) (authorization : Option String) (id : String) (body : Body)
        (admin : JVal),
        requireAdmin env s authorization = .ok admin → castIdParam id = some i →
        c.type = some "crowdfunding" →
        castString (if truthy (body.get "reason") then body.get "reason"
          else JVal.str "Rejected") ≠ .error →
        ∃ d, (cfReject env s authorization id body).1.campaignById i = some d
          ∧ d.status = some "rejected") := by
  refine ⟨?_, ?_, ?_⟩
  · intro ops hops
    have hrun := run_follows (fun j => decide (j ≠ i)) Kept kept_refl kept_trans ops s
      (fun eo heo t => follows_weaken _ _ Kept Kept t _ (step_follows eo.1 t eo.2)
        (fun j hj => by
          have hji : j = i := by simpa using hj
          subst hji
          simp [(hops eo heo).1, (hops eo heo).2])
        (fun _ _ h => h))
    obtain ⟨d, hd, hk⟩ := hrun.2 i c (by simp) hs hc
    exact ⟨d, hd, hk.status_eq⟩
  · intro env authorization id admin hadmin hid hcf
    obtain ⟨f, hf⟩ := decision_update_casts env (JVal.str "approved") JVal.undefined
      (by simp [pathSet, castString]) (by simp [pathSet])
    obtain ⟨s1, hupd, hlook⟩ := decision_overwrites env s i c _ f hc hcf hf
    obtain ⟨st, rr, hst, _, hstatus, _, _⟩ := decision_update env _ _ f hf c
    refine ⟨f c, ?_, ?_⟩
    · unfold cfApprove
      rw [hadmin]
      simp only [hid, hupd]
      exact hlook
    · rw [hstatus]
      simp only [pathSet, castString, Option.some.injEq] at hst
      rw [← hst]; rfl
  · intro env authorization id body admin hadmin hid hcf hreason
    obtain ⟨f, hf⟩ := decision_update_casts env (JVal.str "rejected")
      (if truthy (body.get "reason") then body.get "reason" else JVal.str "Rejected")
      (by simp [pathSet, castString])
      (by
        unfold pathSet
        split
        · simp
        · split
          · rename_i herr; exact absurd herr hreason
          · simp
          · simp)
    obtain ⟨s1, hupd, hlook⟩ := decision_overwrites env s i c _ f hc hcf hf
    obtain ⟨st, rr, hst, _, hstatus, _, _⟩ := decision_update env _ _ f hf c
    refine ⟨f c, ?_, ?_⟩
    · unfold cfReject
      rw [hadmin]
      simp only [hid, hupd]
      exact hlook
    · rw [hstatus]
      simp only [pathSet, castString, Option.some.injEq] at hst
      rw [← hst]; rfl

theorem status_written_only_by_decision_or_update_witness :
    (∃ d, (run sampleStore
        [(sampleEnv, Op.cfVerifyEmail [("token", JVal.str "verify-token")]),
         (sampleEnv, Op.postDonation (some "Bearer user-token")
            [("amount", JVal.num 5), ("type", JVal.str "once"), ("name", JVal.str "Bo"),
             ("email", JVal.str "bo@hopenest.org"), ("phone", JVal.str "555"),
             ("paymentMethod", JVal.str "card"), ("campaignId", JVal.str "10")])]).campaignById
        10 = some d ∧ d.status = sampleCampaign.status)
    ∧ (∃ d, (cfApprove sampleEnv sampleStore (some "Bearer admin-token") "10").1.campaignById
        10 = some d ∧ d.status = some "approved") :=
  ⟨(status_written_only_by_decision_or_update sampleStore 10 sampleCampaign
      ⟨by decide, by decide⟩ (by decide)).1 _ (by decide),
   (status_written_only_by_decision_or_update sampleStore 10 sampleCampaign
      ⟨by decide, by decide⟩ (by decide)).2.1 sampleEnv (some "Bearer admin-token") "10"
      (JVal.str "1") (by rfl) (by decide) (by decide)⟩

/-- C3 (counterexample). A signup followed by a Google login with the same
email links the account: the user then has both a password hash and a
`googleId`. -/
theorem linked_account_keeps_password :
    ∃ u ∈ (run emptyStore
        [(sampleEnv, Op.signup
            [("name", JVal.str "Bo"), ("email", JVal.str "bo@hopenest.org"),
             ("password", JVal.str "bopw")]),
         (sampleEnv, Op.googleLogin
            ⟨"g-1", some "Bo", some ["bo@hopenest.org"], some []⟩)]).users,
      u.password = some (.hash "bopw") ∧ u.googleId = some "g-1" ∧ u.hasOAuth = true := by
  decide

/-- C3 (amended). On every user record reached from the empty store through
signup, admin user creation and Google or Facebook login, a user with neither
`googleId` nor `facebookId` set has a password hash.  The converse does not
hold: linking keeps the password of the local account. -/
theorem password_present_without_oauth (ops : List (Env × Op))
    (h : ∀ eo ∈ ops, eo.2.createsOrLinks = true) :
    ∀ u ∈ (run emptyStore ops).users, u.hasOAuth = false →
      ∃ p, u.password = some (.hash p) := by
  intro u hu hno
  have hsound := run_sound ops emptyStore h (by intro v hv; simp [emptyStore] at hv) u hu
  have hreq : passwordRequired u = true := by
    unfold User.hasOAuth at hno
    unfold passwordRequired
    simp only [Bool.or_eq_false_iff] at hno
    simp [hno.1, hno.2]
  have hsome := hsound.2 hreq
  cases hp : u.password with
  | none => rw [hp] at hsome; simp at hsome
  | some p =>
    cases p with
    | hash q => exact ⟨q, rfl⟩
    | raw t => exact absurd hp (hsound.1 t)

theorem password_present_without_oauth_witness :
    ∃ p, (User.mk 0 (some "Bo") (some "bo@hopenest.org") (some (.hash "bopw")) none none
        (some "") (some "local") (some "user") (some false) none none
        (some 1000000)).password = some (.hash p) :=
  password_present_without_oauth
    [(sampleEnv, Op.signup
        [("name", JVal.str "Bo"), ("email", JVal.str "bo@hopenest.org"),
         ("password", JVal.str "bopw")]),
     (sampleEnv, Op.facebookLogin
        ⟨"f-7", some "Cy", some ["cy@hopenest.org"], some []⟩)]
    (by decide) _ (by decide) (by decide)

/-- C4 (code at the failing input). User `2` holds the reset code "ABC123".
A request whose `token` is the object with the one key `$ne` and the value
`null` names no code; `xssProtection` leaves it as it is whatever the string
filter, the filter of `User.findOne` matches the stored code with it, and the
password is replaced. -/
theorem reset_accepts_operator_token :
    (sampleStore.userById 2).map (fun u => u.resetToken) = some (some "ABC123")
    ∧ (resetPassword sampleEnv sampleStore
        [("email", JVal.str "bo@hopenest.org"),
         ("token", JVal.obj [("$ne", JVal.null)]),
         ("newPassword", JVal.str "intruder")]).2
        = ⟨200, .success "Password reset successful"⟩
    ∧ ((resetPassword sampleEnv sampleStore
        [("email", JVal.str "bo@hopenest.org"),
         ("token", JVal.obj [("$ne", JVal.null)]),
         ("newPassword", JVal.str "intruder")]).1.userById 2).map (fun u => u.password)
        = some (some (.hash "intruder"))
    ∧ ∀ xss : String → String,
        (xssProtection xss
          [("email", JVal.str "bo@hopenest.org"),
           ("token", JVal.obj [("$ne", JVal.null)]),
           ("newPassword", JVal.str "intruder")]).get "token"
          = JVal.obj [("$ne", JVal.null)] := by
  refine ⟨by decide, by decide, by decide, ?_⟩
  intro xss
  simp [xssProtection, Body.get, List.find?]

/-- C7 (counterexample). Campaign `10` has `emailVerified = true`; an admin
update whose body sets `emailVerified` to `false` writes it back. -/
theorem verified_flag_is_reset_by_update :
    (sampleStore.campaignById 10).map (fun c => c.emailVerified) = some (some true)
    ∧ ((run sampleStore
        [(sampleEnv, Op.cfUpdate (some "Bearer admin-token") "10"
            [("emailVerified", JVal.bool false)])]).campaignById 10).map
        (fun c => c.emailVerified) = some (some false) := by
  decide

/-- C7 (amended). In a well-formed collection, a campaign whose
`emailVerified` is true keeps it true, and stays in the store, over every
sequence of operations that holds no update route and no delete route aimed
at it: only `PUT /api/crowdfunding/:id` and `PUT /api/campaigns/:id` can set
the flag back to false. -/
theorem verified_flag_reset_only_by_update (s : Store) (i : Nat) (c : Campaign)
    (ops : List (Env × Op)) (hs : s.CampaignsOk) (hc : s.campaignById i = some c)
    (hv : c.emailVerified = some true)
    (hops : ∀ eo ∈ ops, eo.2.rewrites i = false) :
    ∃ d, (run s ops).campaignById i = some d ∧ d.emailVerified = some true := by
  have hrun := run_follows (fun j => decide (j ≠ i))
    (fun c d => c.emailVerified = some true → d.emailVerified = some true)
    (fun _ h => h) (fun _ _ _ h1 h2 h => h2 (h1 h)) ops s
    (fun eo heo t => follows_weaken _ _ _ _ t _ (step_follows_verified eo.1 t eo.2)
      (fun j hj => by
        have hji : j = i := by simpa using hj
        subst hji
        exact hops eo heo)
      (fun _ _ h => h))
  obtain ⟨d, hd, hk⟩ := hrun.2 i c (by simp) hs hc
  exact ⟨d, hd, hk hv⟩

theorem verified_flag_reset_only_by_update_witness :
    ∃ d, (run sampleStore
        [(sampleEnv, Op.cfReject (some "Bearer admin-token") "10" []),
         (sampleEnv, Op.cfVerifyEmail [("token", JVal.str "verify-token")]),
         (sampleEnv, Op.cfApprove (some "Bearer admin-token") "10")]).campaignById 10
        = some d ∧ d.emailVerified = some true :=
  verified_flag_reset_only_by_update sampleStore 10 sampleCampaign _
    ⟨by decide, by decide⟩ (by decide) (by decide) (by decide)

/-- C5. After a successful `POST /reset-password` for the user with email
`e` (the collection having distinct ids and emails), that user is still there
with `resetToken` and `resetTokenExpiry` cleared, and a second request with
the same body, at any later clock, is answered 400 and leaves the store, and
so the password, as it is. -/
theorem reset_token_single_use (env env2 : Env) (s s1 : Store) (body : Body) (e : String)
    (hs : s.UsersOk) (he : body.get "email" = JVal.str e)
    (h : resetPassword env s body = (s1, ⟨200, .success "Password reset successful"⟩)) :
    (∃ w ∈ s1.users, w.email = some e)
    ∧ (∀ v ∈ s1.users, v.email = some e →
        v.resetToken = none ∧ v.resetTokenExpiry = none)
    ∧ resetPassword env2 s1 body
        = (s1, ⟨400, .failure "Invalid or expired reset token"⟩) := by
  obtain ⟨h1, h2⟩ := reset_consumes env s s1 body e hs he h
  refine ⟨h1, h2, ?_⟩
  have htc : ∃ tc, stringCond (body.get "token") = some tc := by
    unfold resetPassword at h
    rw [he, stringCond_str] at h
    cases htok : stringCond (body.get "token") with
    | none => rw [htok] at h; simp at h
    | some tc => exact ⟨tc, rfl⟩
  obtain ⟨tc, htc⟩ := htc
  unfold resetPassword
  rw [he, stringCond_str, htc]
  have hnone : s1.users.find? (fun u =>
      (fun f => f == some e) u.email && tc u.resetToken && notExpired env2 u) = none := by
    rw [List.find?_eq_none]
    intro v hv
    by_cases hve : v.email = some e
    · have := (h2 v hv hve).2
      simp [notExpired, this]
    · simp [hve]
  simp only [hnone]

theorem reset_token_single_use_witness :
    (∃ w ∈ (resetPassword sampleEnv sampleStore
        [("email", JVal.str "bo@hopenest.org"), ("token", JVal.str "ABC123"),
         ("newPassword", JVal.str "fresh")]).1.users, w.email = some "bo@hopenest.org")
    ∧ (∀ v ∈ (resetPassword sampleEnv sampleStore
        [("email", JVal.str "bo@hopenest.org"), ("token", JVal.str "ABC123"),
         ("newPassword", JVal.str "fresh")]).1.users, v.email = some "bo@hopenest.org" →
        v.resetToken = none ∧ v.resetTokenExpiry = none)
    ∧ resetPassword sampleEnv (resetPassword sampleEnv sampleStore
        [("email", JVal.str "bo@hopenest.org"), ("token", JVal.str "ABC123"),
         ("newPassword", JVal.str "fresh")]).1
        [("email", JVal.str "bo@hopenest.org"), ("token", JVal.str "ABC123"),
         ("newPassword", JVal.str "fresh")]
        = ((resetPassword sampleEnv sampleStore
        [("email", JVal.str "bo@hopenest.org"), ("token", JVal.str "ABC123"),
         ("newPassword", JVal.str "fresh")]).1,
           ⟨400, .failure "Invalid or expired reset token"⟩) :=
  reset_token_single_use sampleEnv sampleEnv sampleStore _
    [("email", JVal.str "bo@hopenest.org"), ("token", JVal.str "ABC123"),
     ("newPassword", JVal.str "fresh")] "bo@hopenest.org"
    ⟨by decide, by decide⟩ rfl (by decide)

/-- C6 (counterexample). The id `abc` is no ObjectId, so the filter of
`GET /api/crowdfunding/abc` fails to cast and the `catch` of the route
answers 500, where the specification says 404. -/
theorem crowdfunding_detail_malformed_id :
    cfDetail sampleStore "abc" = ⟨500, .message "CastError"⟩
    ∧ (cfDetail sampleStore "abc").status ≠ 404 := by
  decide

/-- C6 (amended). The public listing returns, in store order, exactly the
campaigns with type crowdfunding and status approved.  The public detail
answers every id: 500 when the id is no ObjectId; else 200 with a campaign of
that id with type crowdfunding and status approved; else, when the store
holds none, 404.  For an authenticated caller `u` the listing `/my` returns a
permutation of all crowdfunding campaigns whose organizer is `u`, and for an
admin the listing `/all` a permutation of all crowdfunding campaigns; neither
looks at the status. -/
theorem crowdfunding_visibility (env : Env) (s : Store) :
    (cfList s = ⟨200, .campaigns (s.campaigns.filter (fun c =>
        decide (c.type = some "crowdfunding" ∧ c.status = some "approved")))⟩)
    ∧ (∀ (id : String),
        (castIdParam id = none ∧ cfDetail s id = ⟨500, .message "CastError"⟩)
        ∨ (∃ i, castIdParam id = some i
            ∧ ((∃ c, cfDetail s id = ⟨200, .campaign c⟩ ∧ c ∈ s.campaigns ∧ c._id = i
                  ∧ c.type = some "crowdfunding" ∧ c.status = some "approved")
              ∨ (cfDetail s id = ⟨404, .message "Crowdfunding campaign not found"⟩
                  ∧ ∀ c ∈ s.campaigns, c._id = i →
                    ¬ (c.type = some "crowdfunding" ∧ c.status = some "approved")))))
    ∧ (∀ (authorization : Option String) (userId : JVal) (u : Nat),
        requireAuth env authorization = .ok userId → castObjectId userId = .value u →
        ∃ cs, cfMy env s authorization = ⟨200, .campaigns cs⟩
          ∧ cs.Perm (s.campaigns.filter (fun c =>
              decide (c.type = some "crowdfunding" ∧ c.organizer = some u))))
    ∧ (∀ (authorization : Option String) (admin : JVal),
        requireAdmin env s authorization = .ok admin →
        ∃ cs, cfAll env s authorization = ⟨200, .campaigns cs⟩
          ∧ cs.Perm (s.campaigns.filter (fun c => decide (c.type = some "crowdfunding")))) := by
  refine ⟨?_, ?_, ?_, ?_⟩
  · unfold cfList
    congr 2
    apply List.filter_congr
    intro c _
    by_cases h1 : c.type = some "crowdfunding" <;>
      by_cases h2 : c.status = some "approved" <;> simp [isApprovedCrowdfunding, h1, h2]
  · intro id
    cases hid : castIdParam id with
    | none =>
      left
      refine ⟨rfl, ?_⟩
      unfold cfDetail
      rw [hid]
    | some i =>
      right
      refine ⟨i, rfl, ?_⟩
      unfold cfDetail
      rw [hid]
      simp only
      cases hfind : s.campaigns.find? (fun c => c._id == i && isApprovedCrowdfunding c) with
      | none =>
        right
        refine ⟨rfl, ?_⟩
        intro c hc hci hcon
        rw [List.find?_eq_none] at hfind
        have := hfind c hc
        simp [hci, isApprovedCrowdfunding, hcon.1, hcon.2] at this
      | some c =>
        left
        have hp := List.find?_some hfind
        simp only [Bool.and_eq_true, beq_iff_eq, isApprovedCrowdfunding] at hp
        exact ⟨c, rfl, List.mem_of_find?_eq_some hfind, hp.1, hp.2.1, hp.2.2⟩
  · intro authorization userId u hauth hcast
    unfold cfMy
    rw [hauth]
    simp only [hcast]
    refine ⟨_, rfl, ?_⟩
    unfold sortNewest
    refine (List.perm_insertionSort _ _).trans ?_
    apply List.Perm.of_eq
    apply List.filter_congr
    intro c _
    by_cases h1 : c.type = some "crowdfunding" <;>
      by_cases h2 : c.organizer = some u <;> simp [isCrowdfunding, idCond, h1, h2]
  · intro authorization admin hadmin
    unfold cfAll
    rw [hadmin]
    refine ⟨_, rfl, ?_⟩
    unfold sortNewest
    refine (List.perm_insertionSort _ _).trans ?_
    apply List.Perm.of_eq
    apply List.filter_congr
    intro c _
    by_cases h1 : c.type = some "crowdfunding" <;> simp [isCrowdfunding, h1]

theorem crowdfunding_visibility_witness :
    ∃ cs, cfMy sampleEnv sampleStore (some "Bearer user-token") = ⟨200, .campaigns cs⟩
      ∧ cs.Perm (sampleStore.campaigns.filter (fun c =>
          decide (c.type = some "crowdfunding" ∧ c.organizer = some 2))) :=
  (crowdfunding_visibility sampleEnv sampleStore).2.2.1 (some "Bearer user-token")
    (JVal.str "2") 2 (by rfl) (by rfl)

/-- C8 (counterexample). Application `12` is unverified and its token is
valid.  Once `PUT /api/campaigns/12` has emptied its title, which no
validator checks on an update, `campaign.save()` in `GET /verify-email`
fails the `required` validator of `title`: the call answers 400 with the
text of the catch branch and `emailVerified` stays false. -/
theorem verify_fails_on_invalid_record :
    (cfVerifyEmail sampleEnv
        (run sampleStore [(sampleEnv, Op.apiCampaignUpdate "12" [("title", JVal.str "")])])
        [("token", JVal.str "verify-draft")]).2
      = ⟨400, .text "Verification link is invalid or expired"⟩
    ∧ ((cfVerifyEmail sampleEnv
        (run sampleStore [(sampleEnv, Op.apiCampaignUpdate "12" [("title", JVal.str "")])])
        [("token", JVal.str "verify-draft")]).1.campaignById 12).map
        (fun c => c.emailVerified) = some (some false) := by
  decide

/-- C8 (amended). Let the token of the query verify at both calls, carry the
type `cf_email_verify` and name, by `cid` and `uid`, a crowdfunding campaign
`c` of that organizer in a well-formed collection, and let `c` pass the
validators of the Campaign schema.  Then both calls of `GET /verify-email`
answer the success page, the second call leaves the store as the first left
it, and in that store the campaign has `emailVerified = true` and every other
schema field as in `c`. -/
theorem verify_email_idempotent (env env2 : Env) (s : Store) (query payload : Body)
    (t : String) (cid uid : Nat) (c : Campaign)
    (hq : query.get "token" = JVal.str t) (ht : t ≠ "")
    (hv1 : jwtVerify env t = .ok payload) (hv2 : jwtVerify env2 t = .ok payload)
    (htype : payload.get "t" = JVal.str "cf_email_verify")
    (hcid : castObjectId (payload.get "cid") = .value cid)
    (huid : castObjectId (payload.get "uid") = .value uid)
    (hs : s.CampaignsOk)
    (hc : s.campaigns.find? (fun d =>
      d._id == cid && isCrowdfunding d && d.organizer == some uid) = some c)
    (hvalid : validateCampaign c = true) :
    (cfVerifyEmail env s query).2 = ⟨200, .page "Email verified successfully"⟩
    ∧ (cfVerifyEmail env2 (cfVerifyEmail env s query).1 query).2
        = ⟨200, .page "Email verified successfully"⟩
    ∧ (cfVerifyEmail env2 (cfVerifyEmail env s query).1 query).1
        = (cfVerifyEmail env s query).1
    ∧ ∃ d, (cfVerifyEmail env s query).1.campaignById cid = some d
        ∧ d.emailVerified = some true
        ∧ d._id = c._id ∧ d.title = c.title ∧ d.description = c.description
        ∧ d.targetAmount = c.targetAmount ∧ d.currentAmount = c.currentAmount
        ∧ d.startDate = c.startDate ∧ d.endDate = c.endDate ∧ d.imageUrl = c.imageUrl
        ∧ d.type = c.type ∧ d.category = c.category ∧ d.organizer = c.organizer
        ∧ d.status = c.status ∧ d.documents = c.documents
        ∧ d.rejectionReason = c.rejectionReason ∧ d.createdAt = c.createdAt := by
  have hpred : ∀ (l : List Campaign),
      l.find? (fun c => idCond (.value cid) (some c._id) && isCrowdfunding c
        && idCond (.value uid) c.organizer)
      = l.find? (fun d => d._id == cid && isCrowdfunding d && d.organizer == some uid) := by
    intro l
    congr 1
  have hcp := List.find?_some hc
  simp only [Bool.and_eq_true, beq_iff_eq] at hcp
  have hmem : c ∈ s.campaigns := List.mem_of_find?_eq_some hc
  have hbyid : s.campaignById cid = some c := by
    unfold Store.campaignById
    cases hf : s.campaigns.find? (fun d => d._id == cid) with
    | none =>
      rw [List.find?_eq_none] at hf
      exact absurd (by simp [hcp.1.1]) (hf c hmem)
    | some x =>
      have hx := List.find?_some hf
      have hxc : x._id = c._id := by
        rw [hcp.1.1]; simpa using hx
      rw [eq_of_mem_of_id_eq s hs x c (List.mem_of_find?_eq_some hf) hmem hxc]
  have stepA : ∀ (e : Env) (st : Store) (x : Campaign), jwtVerify e t = .ok payload →
      st.campaigns.find? (fun d =>
        d._id == cid && isCrowdfunding d && d.organizer == some uid) = some x →
      x.emailVerified = some true →
      cfVerifyEmail e st query = (st, ⟨200, .page "Email verified successfully"⟩) := by
    intro e st x hv hx hxv
    unfold cfVerifyEmail
    rw [hq]
    simp only [truthy, jwtVerifyQuery, hv, htype, JVal.isStr, hcid, huid, hpred, hx]
    simp [ht, hxv]
  have stepB : ∀ (e : Env) (st s1 : Store) (x : Campaign), jwtVerify e t = .ok payload →
      st.campaigns.find? (fun d =>
        d._id == cid && isCrowdfunding d && d.organizer == some uid) = some x →
      x.emailVerified ≠ some true →
      saveCampaign e st
        (Campaign.mk x._id x.title x.description x.targetAmount x.currentAmount
          x.startDate x.endDate x.imageUrl x.type x.category x.organizer x.status
          x.documents x.rejectionReason (some true) x.createdAt x.updatedAt) = some s1 →
      cfVerifyEmail e st query = (s1, ⟨200, .page "Email verified successfully"⟩) := by
    intro e st s1 x hv hx hxv hsave
    unfold cfVerifyEmail
    rw [hq]
    simp only [truthy, jwtVerifyQuery, hv, htype, JVal.isStr, hcid, huid, hpred, hx]
    simp [ht, hxv, hsave]
  by_cases hver : c.emailVerified = some true
  · have h1 : cfVerifyEmail env s query = (s, ⟨200, .page "Email verified successfully"⟩) := by
      exact stepA env s c hv1 hc hver
    have h2 : cfVerifyEmail env2 s query = (s, ⟨200, .page "Email verified successfully"⟩) := by
      exact stepA env2 s c hv2 hc hver
    rw [h1]
    simp only [h2]
    exact ⟨trivial, trivial, trivial, c, hbyid, hver, rfl, rfl, rfl, rfl, rfl, rfl, rfl, rfl, rfl,
      rfl, rfl, rfl, rfl, rfl, rfl⟩
  · have hv' : validateCampaign
        (Campaign.mk c._id c.title c.description c.targetAmount c.currentAmount
          c.startDate c.endDate c.imageUrl c.type c.category c.organizer c.status
          c.documents c.rejectionReason (some true) c.createdAt c.updatedAt) = true := hvalid
    have h1 : cfVerifyEmail env s query =
        (s.putCampaign ((Campaign.mk c._id c.title c.description c.targetAmount
          c.currentAmount c.startDate c.endDate c.imageUrl c.type c.category c.organizer
          c.status c.documents c.rejectionReason (some true) c.createdAt
          c.updatedAt).stamp env.now), ⟨200, .page "Email verified successfully"⟩) := by
      refine stepB env s _ c hv1 hc hver ?_
      simp [saveCampaign, hv']
    have hfind2 := find_after_put s hs _ c
      ((Campaign.mk c._id c.title c.description c.targetAmount
          c.currentAmount c.startDate c.endDate c.imageUrl c.type c.category c.organizer
          c.status c.documents c.rejectionReason (some true) c.createdAt
          c.updatedAt).stamp env.now) hc rfl
      (by
        have := hcp
        simp only [Campaign.stamp, isCrowdfunding, Bool.and_eq_true, beq_iff_eq] at this ⊢
        exact this)
    have h2 := stepA env2 _ _ hv2 hfind2 rfl
    rw [h1]
    simp only [h2]
    refine ⟨trivial, trivial, trivial, ?_⟩
    · refine ⟨(Campaign.mk c._id c.title c.description c.targetAmount
          c.currentAmount c.startDate c.endDate c.imageUrl c.type c.category c.organizer
          c.status c.documents c.rejectionReason (some true) c.createdAt
          c.updatedAt).stamp env.now, ?_, rfl, rfl, rfl, rfl, rfl, rfl, rfl, rfl, rfl, rfl,
        rfl, rfl, rfl, rfl, rfl, rfl⟩
      have := find_after_put s hs (fun d => d._id == cid) c
        ((Campaign.mk c._id c.title c.description c.targetAmount
          c.currentAmount c.startDate c.endDate c.imageUrl c.type c.category c.organizer
          c.status c.documents c.rejectionReason (some true) c.createdAt
          c.updatedAt).stamp env.now) hbyid rfl (by simp [Campaign.stamp, hcp.1.1])
      exact this

theorem verify_email_idempotent_witness :
    (cfVerifyEmail sampleEnv sampleStore [("token", JVal.str "verify-draft")]).2
        = ⟨200, .page "Email verified successfully"⟩
    ∧ (cfVerifyEmail sampleEnv
        (cfVerifyEmail sampleEnv sampleStore [("token", JVal.str "verify-draft")]).1
        [("token", JVal.str "verify-draft")]).2
        = ⟨200, .page "Email verified successfully"⟩
    ∧ (cfVerifyEmail sampleEnv
        (cfVerifyEmail sampleEnv sampleStore [("token", JVal.str "verify-draft")]).1
        [("token", JVal.str "verify-draft")]).1
        = (cfVerifyEmail sampleEnv sampleStore [("token", JVal.str "verify-draft")]).1 :=
  ⟨(verify_email_idempotent sampleEnv sampleEnv sampleStore
      [("token", JVal.str "verify-draft")]
      [("t", JVal.str "cf_email_verify"), ("cid", JVal.str "12"), ("uid", JVal.str "2")]
      "verify-draft" 12 2 sampleDraft (by rfl) (by decide) (by rfl) (by rfl) (by rfl)
      (by decide) (by decide) ⟨by decide, by decide⟩ (by decide) (by decide)).1,
   (verify_email_idempotent sampleEnv sampleEnv sampleStore
      [("token", JVal.str "verify-draft")]
      [("t", JVal.str "cf_email_verify"), ("cid", JVal.str "12"), ("uid", JVal.str "2")]
      "verify-draft" 12 2 sampleDraft (by rfl) (by decide) (by rfl) (by rfl) (by rfl)
      (by decide) (by decide) ⟨by decide, by decide⟩ (by decide) (by decide)).2.1,
   (verify_email_idempotent sampleEnv sampleEnv sampleStore
      [("token", JVal.str "verify-draft")]
      [("t", JVal.str "cf_email_verify"), ("cid", JVal.str "12"), ("uid", JVal.str "2")]
      "verify-draft" 12 2 sampleDraft (by rfl) (by decide) (by rfl) (by rfl) (by rfl)
      (by decide) (by decide) ⟨by decide, by decide⟩ (by decide) (by decide)).2.2.1⟩

theorem uploadArray_rejects : ∀ (files : List UploadFile) (seen : Nat),
    seen ≤ fileCountLimit →
    (fileCountLimit < seen + files.length ∨ (∃ f ∈ files, fileSizeLimit < f.size)
      ∨ (∃ f ∈ files, fileFilter f = false)) →
    ∃ e, uploadArray seen files = .error e
      ∧ ((∀ f ∈ files, f.fieldname = "documents") →
          (uploadMessage e = "You can upload up to 5 documents"
              ∧ fileCountLimit < seen + files.length)
          ∨ (uploadMessage e = "Each file must be 5MB or smaller"
              ∧ ∃ f ∈ files, fileSizeLimit < f.size)
          ∨ (uploadMessage e = "Only PDF, JPG, and PNG files are allowed"
              ∧ ∃ f ∈ files, fileFilter f = false)) := by
  intro files
  induction files with
  | nil =>
    intro seen hseen hv
    rcases hv with h | ⟨f, hf, _⟩ | ⟨f, hf, _⟩
    · simp at h; omega
    · simp at hf
    · simp at hf
  | cons f rest ih =>
    intro seen hseen hv
    unfold uploadArray
    by_cases h1 : seen ≥ fileCountLimit
    · refine ⟨⟨some "LIMIT_FILE_COUNT", "Too many files"⟩, by simp [h1],
        fun _ => Or.inl ⟨by decide, ?_⟩⟩
      simp only [List.length_cons]; omega
    · by_cases h2 : (f.fieldname != "documents" || decide (fileCountLimit - seen ≤ 0)) = true
      · refine ⟨⟨some "LIMIT_UNEXPECTED_FILE", "Unexpected field"⟩,
          by simp only [h1, if_false, h2, if_true], fun hall => ?_⟩
        exfalso
        have hf := hall f (List.mem_cons_self _ _)
        simp only [Bool.or_eq_true, bne_iff_ne, ne_eq, decide_eq_true_eq] at h2
        rcases h2 with h2 | h2
        · exact h2 hf
        · omega
      · by_cases h3 : fileFilter f = true
        · by_cases h4 : f.size > fileSizeLimit
          · refine ⟨⟨some "LIMIT_FILE_SIZE", "File too large"⟩,
              by simp only [h1, if_false, h2, h3, Bool.not_true, h4, if_true,
                Bool.false_eq_true],
              fun _ => Or.inr (Or.inl ⟨by decide, f, List.mem_cons_self _ _, h4⟩)⟩
          · have hv' : fileCountLimit < seen + 1 + rest.length
                ∨ (∃ g ∈ rest, fileSizeLimit < g.size) ∨ (∃ g ∈ rest, fileFilter g = false) := by
              rcases hv with h | ⟨g, hg, hbig⟩ | ⟨g, hg, hbad⟩
              · left; simp only [List.length_cons] at h; omega
              · rcases List.mem_cons.mp hg with rfl | hg'
                · exact absurd hbig h4
                · exact Or.inr (Or.inl ⟨g, hg', hbig⟩)
              · rcases List.mem_cons.mp hg with rfl | hg'
                · rw [h3] at hbad; exact absurd hbad (by simp)
                · exact Or.inr (Or.inr ⟨g, hg', hbad⟩)
            obtain ⟨e, he, hmsg⟩ := ih (seen + 1) (by omega) hv'
            refine ⟨e, by simp only [h1, if_false, h2, h3, Bool.not_true, h4,
              Bool.false_eq_true, he], fun hall => ?_⟩
            rcases hmsg (fun g hg => hall g (List.mem_cons_of_mem _ hg)) with h | h | h
            · left; refine ⟨h.1, ?_⟩
              simp only [List.length_cons]; omega
            · obtain ⟨hm, g, hg, hbig⟩ := h
              exact Or.inr (Or.inl ⟨hm, g, List.mem_cons_of_mem _ hg, hbig⟩)
            · obtain ⟨hm, g, hg, hbad⟩ := h
              exact Or.inr (Or.inr ⟨hm, g, List.mem_cons_of_mem _ hg, hbad⟩)
        · have h3' : fileFilter f = false := by simpa using h3
          refine ⟨⟨none, "Only PDF, JPG, and PNG files are allowed"⟩,
            by simp only [h1, if_false, h2, h3', Bool.not_false, if_true,
              Bool.false_eq_true], fun _ =>
            Or.inr (Or.inr ⟨by decide, f, List.mem_cons_self _ _, h3'⟩)⟩

theorem uploadArray_first_violation : ∀ (files : List UploadFile) (seen : Nat)
    (e : UploadError), seen ≤ fileCountLimit → uploadArray seen files = .error e →
    ∃ pre f post, files = pre ++ f :: post
      ∧ (∀ g ∈ pre, g.fieldname = "documents" ∧ fileFilter g = true
          ∧ g.size ≤ fileSizeLimit)
      ∧ seen + pre.length ≤ fileCountLimit
      ∧ (fileCountLimit ≤ seen + pre.length ∨ f.fieldname ≠ "documents" ∨ fileFilter f = false
          ∨ fileSizeLimit < f.size)
      ∧ uploadMessage e =
          (if fileCountLimit ≤ seen + pre.length then "You can upload up to 5 documents"
           else if f.fieldname ≠ "documents" then "Unexpected file field"
           else if fileFilter f = false then "Only PDF, JPG, and PNG files are allowed"
           else "Each file must be 5MB or smaller") := by
  intro files
  induction files with
  | nil =>
    intro seen e _ h
    simp [uploadArray] at h
  | cons f rest ih =>
    intro seen e hseen h
    unfold uploadArray at h
    by_cases h1 : seen ≥ fileCountLimit
    · rw [if_pos h1] at h
      simp only [Except.error.injEq] at h
      subst h
      exact ⟨[], f, rest, rfl, by simp, by simpa using hseen, Or.inl (by simpa using h1),
        by simp [h1, uploadMessage]⟩
    · rw [if_neg h1] at h
      by_cases h2 : (f.fieldname != "documents" || decide (fileCountLimit - seen ≤ 0)) = true
      · rw [if_pos h2] at h
        simp only [Except.error.injEq] at h
        subst h
        have hf : f.fieldname ≠ "documents" := by
          simp only [Bool.or_eq_true, bne_iff_ne, ne_eq, decide_eq_true_eq] at h2
          rcases h2 with h2 | h2
          · exact h2
          · omega
        refine ⟨[], f, rest, rfl, by simp, by simp; omega, Or.inr (Or.inl hf), ?_⟩
        have h1' : ¬ fileCountLimit ≤ seen := h1
        simp [h1', hf, uploadMessage]
      · rw [if_neg h2] at h
        have hf : f.fieldname = "documents" := by
          simp only [Bool.or_eq_true, bne_iff_ne, ne_eq, decide_eq_true_eq, not_or,
            not_not] at h2
          exact h2.1
        by_cases h3 : fileFilter f = true
        · simp only [h3, Bool.not_true, Bool.false_eq_true, if_false] at h
          by_cases h4 : f.size > fileSizeLimit
          · rw [if_pos h4] at h
            simp only [Except.error.injEq] at h
            subst h
            refine ⟨[], f, rest, rfl, by simp, by simp; omega,
              Or.inr (Or.inr (Or.inr h4)), ?_⟩
            have h1' : ¬ fileCountLimit ≤ seen := h1
            simp [h1', hf, h3, uploadMessage]
          · rw [if_neg h4] at h
            cases hrest : uploadArray (seen + 1) rest with
            | ok names => rw [hrest] at h; simp at h
            | error e1 =>
              rw [hrest] at h
              simp only [Except.error.injEq] at h
              subst h
              obtain ⟨pre, g, post, hfiles, hpre, hlen, hviol, hmsg⟩ :=
                ih (seen + 1) e1 (by omega) hrest
              refine ⟨f :: pre, g, post, by rw [hfiles]; rfl, ?_, ?_, ?_, ?_⟩
              · intro x hx
                rcases List.mem_cons.mp hx with rfl | hx
                · exact ⟨hf, h3, by omega⟩
                · exact hpre x hx
              · simp only [List.length_cons]; omega
              · rcases hviol with hv | hv
                · left; simp only [List.length_cons]; omega
                · exact Or.inr hv
              · rw [hmsg]
                simp only [List.length_cons]
                have : seen + 1 + pre.length = seen + (pre.length + 1) := by omega
                rw [this]
        · have h3' : fileFilter f = false := by simpa using h3
          simp only [h3', Bool.not_false, if_true] at h
          simp only [Except.error.injEq] at h
          subst h
          refine ⟨[], f, rest, rfl, by simp, by simp; omega,
            Or.inr (Or.inr (Or.inl h3')), ?_⟩
          have h1' : ¬ fileCountLimit ≤ seen := h1
          simp [h1', hf, h3', uploadMessage]

/-- C9 (counterexample). The upload policy reads the field a file comes in
and the content type the client declares, not the file: `notes.txt` declared
as `application/pdf` is stored and the application is created with 201; and a
`.txt` file in a field other than `documents` is answered 400 with "Unexpected
file field", which is none of the file-count, size and type messages. -/
theorem upload_policy_reads_declared_type :
    (cfApply sampleEnv sampleStore (some "Bearer user-token")
        [⟨"documents", "notes.txt", "application/pdf", 120, 1000000⟩]
        [("title", JVal.str "Clinic"), ("description", JVal.str "A village clinic"),
         ("targetAmount", JVal.str "7000")]).2.status = 201
    ∧ (cfApply sampleEnv sampleStore (some "Bearer user-token")
        [⟨"documents", "notes.txt", "application/pdf", 120, 1000000⟩]
        [("title", JVal.str "Clinic"), ("description", JVal.str "A village clinic"),
         ("targetAmount", JVal.str "7000")]).1.campaigns.map (fun c => c.documents)
        = sampleStore.campaigns.map (fun c => c.documents)
            ++ [["/uploads/crowdfunding/1000000-notes.txt"]]
    ∧ cfApply sampleEnv sampleStore (some "Bearer user-token")
        [⟨"avatar", "notes.txt", "text/plain", 120, 1000000⟩]
        [("title", JVal.str "Clinic"), ("description", JVal.str "A village clinic"),
         ("targetAmount", JVal.str "7000")]
        = (sampleStore, ⟨400, .message "Unexpected file field"⟩) := by
  decide

/-- C9 (amended). An authenticated `POST /apply` whose upload carries more
than 5 files, or a file larger than 5 MB, or a file whose declared content
type is none of PDF, JPEG and PNG, is answered 400 and leaves the store as it
is, so no campaign is created.  The files are checked in the order of the
request, each for the count, the field, the declared content type and the
size, and the first file that fails decides the message: the files before it
pass every check, and the message is the file-count message when five files
came before it, else "Unexpected file field" when its field is not
`documents`, else the type message when its declared type is not allowed, else
the size message.  When every file comes in the `documents` field the message
is therefore the file-count, size or type message, and a violation of that
kind is in the request. -/
theorem upload_policy_rejects (env : Env) (s : Store) (authorization : Option String)
    (userId : JVal) (files : List UploadFile) (body : Body)
    (hauth : requireAuth env authorization = .ok userId)
    (hviol : 5 < files.length ∨ (∃ f ∈ files, 5 * 1024 * 1024 < f.size)
      ∨ (∃ f ∈ files, f.mimetype ∉ ["application/pdf", "image/jpeg", "image/png"])) :
    (cfApply env s authorization files body).1 = s
    ∧ (cfApply env s authorization files body).2.status = 400
    ∧ (∃ pre f post, files = pre ++ f :: post
        ∧ (∀ g ∈ pre, g.fieldname = "documents"
            ∧ g.mimetype ∈ ["application/pdf", "image/jpeg", "image/png"]
            ∧ g.size ≤ 5 * 1024 * 1024)
        ∧ pre.length ≤ 5
        ∧ (pre.length = 5 ∨ f.fieldname ≠ "documents"
            ∨ f.mimetype ∉ ["application/pdf", "image/jpeg", "image/png"]
            ∨ 5 * 1024 * 1024 < f.size)
        ∧ (cfApply env s authorization files body).2.body = .message
            (if pre.length = 5 then "You can upload up to 5 documents"
             else if f.fieldname ≠ "documents" then "Unexpected file field"
             else if f.mimetype ∉ ["application/pdf", "image/jpeg", "image/png"] then
               "Only PDF, JPG, and PNG files are allowed"
             else "Each file must be 5MB or smaller"))
    ∧ ((∀ f ∈ files, f.fieldname = "documents") →
        ((cfApply env s authorization files body).2.body
              = .message "You can upload up to 5 documents" ∧ 5 < files.length)
        ∨ ((cfApply env s authorization files body).2.body
              = .message "Each file must be 5MB or smaller"
            ∧ ∃ f ∈ files, 5 * 1024 * 1024 < f.size)
        ∨ ((cfApply env s authorization files body).2.body
              = .message "Only PDF, JPG, and PNG files are allowed"
            ∧ ∃ f ∈ files, f.mimetype ∉ ["application/pdf", "image/jpeg", "image/png"])) := by
  have hbad : ∀ f : UploadFile,
      fileFilter f = false ↔ f.mimetype ∉ ["application/pdf", "image/jpeg", "image/png"] := by
    intro f
    unfold fileFilter
    simp
  have hgood : ∀ f : UploadFile,
      fileFilter f = true ↔ f.mimetype ∈ ["application/pdf", "image/jpeg", "image/png"] := by
    intro f
    unfold fileFilter
    simp
  have hv : fileCountLimit < 0 + files.length ∨ (∃ f ∈ files, fileSizeLimit < f.size)
      ∨ (∃ f ∈ files, fileFilter f = false) := by
    rcases hviol with h | ⟨f, hf, h⟩ | ⟨f, hf, h⟩
    · left; simpa [fileCountLimit] using h
    · exact Or.inr (Or.inl ⟨f, hf, by simpa [fileSizeLimit] using h⟩)
    · exact Or.inr (Or.inr ⟨f, hf, (hbad f).mpr h⟩)
  obtain ⟨e, he, hmsg⟩ := uploadArray_rejects files 0 (by decide) hv
  obtain ⟨pre, f, post, hfiles, hpre, hlen, hfirst, hfmsg⟩ :=
    uploadArray_first_violation files 0 e (by decide) he
  have hres : cfApply env s authorization files body
      = (s, ⟨400, .message (uploadMessage e)⟩) := by
    unfold cfApply
    rw [hauth]
    simp only [he]
  rw [hres]
  refine ⟨rfl, rfl, ⟨pre, f, post, hfiles, ?_, ?_, ?_, ?_⟩, fun hall => ?_⟩
  · intro g hg
    obtain ⟨h1, h2, h3⟩ := hpre g hg
    exact ⟨h1, (hgood g).mp h2, by simpa [fileSizeLimit] using h3⟩
  · simpa [fileCountLimit] using hlen
  · rcases hfirst with h | h | h | h
    · left; simp only [fileCountLimit, Nat.zero_add] at h hlen; omega
    · exact Or.inr (Or.inl h)
    · exact Or.inr (Or.inr (Or.inl ((hbad f).mp h)))
    · exact Or.inr (Or.inr (Or.inr (by simpa [fileSizeLimit] using h)))
  · show Payload.message (uploadMessage e) = _
    rw [hfmsg]
    simp only [fileCountLimit, Nat.zero_add] at hlen ⊢
    have h5 : (5 ≤ pre.length) = (pre.length = 5) := by
      apply propext; constructor <;> intro h <;> omega
    simp only [h5, hbad f]
  · rcases hmsg hall with h | h | h
    · left; exact ⟨by rw [h.1], by simpa [fileCountLimit] using h.2⟩
    · obtain ⟨hm, f, hf, hbig⟩ := h
      exact Or.inr (Or.inl ⟨by rw [hm], f, hf, by simpa [fileSizeLimit] using hbig⟩)
    · obtain ⟨hm, f, hf, hb⟩ := h
      exact Or.inr (Or.inr ⟨by rw [hm], f, hf, (hbad f).mp hb⟩)

theorem upload_policy_rejects_witness :
    (cfApply sampleEnv sampleStore (some "Bearer user-token")
        [⟨"documents", "notes.txt", "text/plain", 120, 1000000⟩]
        [("title", JVal.str "Well")]).1 = sampleStore
    ∧ (cfApply sampleEnv sampleStore (some "Bearer user-token")
        [⟨"documents", "notes.txt", "text/plain", 120, 1000000⟩]
        [("title", JVal.str "Well")]).2.status = 400 :=
  ⟨(upload_policy_rejects sampleEnv sampleStore (some "Bearer user-token") (JVal.str "2")
      [⟨"documents", "notes.txt", "text/plain", 120, 1000000⟩] [("title", JVal.str "Well")]
      (by rfl) (by decide)).1,
   (upload_policy_rejects sampleEnv sampleStore (some "Bearer user-token") (JVal.str "2")
      [⟨"documents", "notes.txt", "text/plain", 120, 1000000⟩] [("title", JVal.str "Well")]
      (by rfl) (by decide)).2.1⟩

theorem castStringArray_strs (docs : List String) :
    castStringArray (JVal.arr (docs.map JVal.str)) = .value docs := by
  have key : ∀ ds : List String,
      List.foldr (fun x acc =>
        match castString x, acc with
        | .value s, .value l => CastResult.value (s :: l)
        | .absent, .value l => CastResult.value l
        | _, _ => CastResult.error) (CastResult.value []) (ds.map JVal.str)
      = CastResult.value ds := by
    intro ds
    induction ds with
    | nil => rfl
    | cons d ds ih =>
      simp only [List.map_cons, List.foldr_cons]
      rw [ih]
      rfl
  exact key docs

theorem get_cons (k : String) (v : JVal) (rest : Body) (key : String) :
    Body.get ((k, v) :: rest) key = if k = key then v else Body.get rest key := by
  unfold Body.get
  by_cases h : k = key
  · simp [List.find?, h]
  · have : (k == key) = false := by simpa using h
    simp [List.find?, this, h]

theorem get_nil (key : String) : Body.get [] key = JVal.undefined := rfl

theorem applyPayload_get (env : Env) (userId : JVal) (body : Body) (docs : List String) :
    (applyPayload env userId body docs).get "type" = JVal.str "crowdfunding"
    ∧ (applyPayload env userId body docs).get "status" = JVal.str "pending"
    ∧ (applyPayload env userId body docs).get "organizer" = userId
    ∧ (applyPayload env userId body docs).get "documents" = JVal.arr (docs.map JVal.str)
    ∧ (applyPayload env userId body docs).get "emailVerified" = JVal.undefined
    ∧ (applyPayload env userId body docs).get "rejectionReason" = JVal.undefined
    ∧ (applyPayload env userId body docs).get "currentAmount" = JVal.undefined := by
  simp [applyPayload, get_cons, get_nil]

theorem newCampaign_apply (env : Env) (id : Nat) (userId : JVal) (body : Body)
    (docs : List String) (c : Campaign)
    (h : newCampaign env id (applyPayload env userId body docs) = some c) :
    c._id = id ∧ c.status = some "pending" ∧ c.emailVerified = some false
      ∧ c.type = some "crowdfunding" ∧ c.documents = docs
      ∧ c.rejectionReason = none ∧ c.currentAmount = some 0
      ∧ (∀ u, castObjectId userId = .value u → c.organizer = some u) := by
  obtain ⟨g1, g2, g3, g4, g5, g6, g7⟩ := applyPayload_get env userId body docs
  unfold newCampaign at h
  simp only [g1, g2, g3, g4, g5, g6, g7] at h
  split at h
  · simp only [Option.some.injEq] at h
    rw [← h]
    refine ⟨rfl, rfl, rfl, rfl, ?_, rfl, rfl, ?_⟩
    · simp [pathOr, castStringArray_strs, Option.join]
    · intro u hu
      simp only [pathOr]
      cases userId <;> simp_all [castObjectId, Option.join]
  · exact absurd h (by simp)

theorem uploadArray_length : ∀ (files : List UploadFile) (seen : Nat) (names : List String),
    uploadArray seen files = .ok names → names.length = files.length := by
  intro files
  induction files with
  | nil =>
    intro seen names h
    simp only [uploadArray, Except.ok.injEq] at h
    rw [← h]
    rfl
  | cons f rest ih =>
    intro seen names h
    unfold uploadArray at h
    split at h
    · exact absurd h (by simp)
    · split at h
      · exact absurd h (by simp)
      · split at h
        · exact absurd h (by simp)
        · split at h
          · exact absurd h (by simp)
          · split at h
            · exact absurd h (by simp)
            · rename_i ns hns
              simp only [Except.ok.injEq] at h
              rw [← h, List.length_cons, List.length_cons, ih _ _ hns]

theorem pathOr_isSome {α : Type} (cast : JVal → CastResult α) (dflt : Option α) (v : JVal)
    (h : cast v ≠ .error) : (pathOr cast dflt v).isSome = true := by
  unfold pathOr
  split
  · rfl
  · split
    · rename_i herr; exact absurd herr h
    · rfl
    · rfl

theorem jsNumber_cases (v : JVal) : jsNumber v = JVal.nan ∨ ∃ n, jsNumber v = JVal.num n := by
  cases v with
  | undefined => exact Or.inl rfl
  | null => exact Or.inr ⟨0, rfl⟩
  | bool b => exact Or.inr ⟨_, rfl⟩
  | num n => exact Or.inr ⟨n, rfl⟩
  | nan => exact Or.inl rfl
  | str s =>
    cases h : stringToNumber s with
    | none => exact Or.inl (by simp only [jsNumber, h])
    | some n => exact Or.inr ⟨n, by simp only [jsNumber, h]⟩
  | arr xs =>
    cases h : stringToNumber (joinJs xs) with
    | none => exact Or.inl (by simp only [jsNumber, h])
    | some n => exact Or.inr ⟨n, by simp only [jsNumber, h]⟩
  | obj kvs => exact Or.inl rfl

theorem pathOr_isSome_iff {α : Type} (cast : JVal → CastResult α) (dflt : Option α) (v : JVal)
    (hu : cast JVal.undefined ≠ .error) :
    (pathOr cast dflt v).isSome = true ↔ cast v ≠ .error := by
  unfold pathOr
  split
  · simp [hu]
  · split <;> simp_all

theorem pathOr_required (v : JVal) :
    ((pathOr castString none v).isSome = true
      ∧ requiredStr (pathOr castString none v).join = true)
    ↔ ∃ t, castString v = .value t ∧ t ≠ "" := by
  unfold pathOr
  split
  · simp [castString, requiredStr, Option.join]
  · split <;> simp_all [requiredStr, Option.join]

theorem pathOr_number (v : JVal) :
    ((pathOr castNumber none (jsNumber v)).isSome = true
      ∧ ((pathOr castNumber none (jsNumber v)).join).isSome = true)
    ↔ ∃ n, jsNumber v = JVal.num n := by
  rcases jsNumber_cases v with h | ⟨n, h⟩
  · rw [h]; simp [pathOr, castNumber, castNumberValue, Option.join]
  · rw [h]; simp [pathOr, castNumber, castNumberValue, Option.join]

theorem createCampaign_isSome (env : Env) (s : Store) (data : Body) :
    (createCampaign env s data).isSome = true
    ↔ ∃ c, newCampaign env s.nextId data = some c ∧ validateCampaign c = true := by
  unfold createCampaign
  cases h : newCampaign env s.nextId data with
  | none => simp
  | some c =>
    by_cases hv : validateCampaign c = true
    · simp [hv]
    · simp [hv]

theorem applyPayload_paths (env : Env) (userId : JVal) (body : Body) (docs : List String) :
    (applyPayload env userId body docs).get "title" = body.get "title"
    ∧ (applyPayload env userId body docs).get "description" = body.get "description"
    ∧ (applyPayload env userId body docs).get "targetAmount"
        = jsNumber (body.get "targetAmount")
    ∧ (applyPayload env userId body docs).get "startDate"
        = (if truthy (body.get "startDate")
           then jsNewDate env.parseDate (body.get "startDate") else JVal.undefined)
    ∧ (applyPayload env userId body docs).get "endDate"
        = (if truthy (body.get "endDate")
           then jsNewDate env.parseDate (body.get "endDate") else JVal.undefined)
    ∧ (applyPayload env userId body docs).get "category" = body.get "category"
    ∧ (applyPayload env userId body docs).get "imageUrl" = body.get "imageUrl" := by
  simp [applyPayload, get_cons, get_nil]

theorem pathOr_date (env : Env) (dflt : Option Int) (v : JVal) :
    (pathOr (castDate env.parseDate) dflt
        (if truthy v then jsNewDate env.parseDate v else JVal.undefined)).isSome = true
    ↔ (truthy v = true → castDate env.parseDate (jsNewDate env.parseDate v) ≠ .error) := by
  by_cases h : truthy v = true
  · rw [if_pos h]
    constructor
    · intro h1 _
      exact (pathOr_isSome_iff _ _ _ (by simp [castDate])).mp h1
    · intro h1
      exact (pathOr_isSome_iff _ _ _ (by simp [castDate])).mpr (h1 h)
  · rw [if_neg h]
    constructor
    · intro _ h2
      exact absurd h2 h
    · intro _
      rfl

theorem createCampaign_apply_iff (env : Env) (s : Store) (userId : JVal) (body : Body)
    (docs : List String) :
    (createCampaign env s (applyPayload env userId body docs)).isSome = true
    ↔ (∃ t, castString (body.get "title") = .value t ∧ t ≠ "")
      ∧ (∃ t, castString (body.get "description") = .value t ∧ t ≠ "")
      ∧ (∃ n, jsNumber (body.get "targetAmount") = JVal.num n)
      ∧ (truthy (body.get "startDate") = true →
          castDate env.parseDate (jsNewDate env.parseDate (body.get "startDate")) ≠ .error)
      ∧ (truthy (body.get "endDate") = true →
          castDate env.parseDate (jsNewDate env.parseDate (body.get "endDate")) ≠ .error)
      ∧ castString (body.get "category") ≠ .error
      ∧ castString (body.get "imageUrl") ≠ .error
      ∧ castObjectId userId ≠ .error := by
  obtain ⟨g1, g2, g3, g4, g5, g6, g7⟩ := applyPayload_get env userId body docs
  obtain ⟨k1, k2, k3, k4, k5, k6, k7⟩ := applyPayload_paths env userId body docs
  have d1 := pathOr_required (body.get "title")
  have d2 := pathOr_required (body.get "description")
  have d3 := pathOr_number (body.get "targetAmount")
  have d4 := pathOr_date env (some env.now) (body.get "startDate")
  have d5 := pathOr_date env none (body.get "endDate")
  have d6 := pathOr_isSome_iff castString none (body.get "category") (by simp [castString])
  have d7 := pathOr_isSome_iff castString none (body.get "imageUrl") (by simp [castString])
  have d8 := pathOr_isSome_iff castObjectId none userId (by simp [castObjectId])
  have c4 : (pathOr castStringArray (some []) (JVal.arr (docs.map JVal.str))).isSome = true :=
    pathOr_isSome _ _ _ (by rw [castStringArray_strs]; simp)
  rw [createCampaign_isSome, ← d1, ← d2, ← d3, ← d4, ← d5, ← d6, ← d7, ← d8]
  unfold newCampaign
  simp only [g1, g2, g3, g4, g5, g6, g7, k1, k2, k3, k4, k5, k6, k7]
  generalize (if truthy (body.get "startDate") = true
    then jsNewDate env.parseDate (body.get "startDate") else JVal.undefined) = sd
  generalize (if truthy (body.get "endDate") = true
    then jsNewDate env.parseDate (body.get "endDate") else JVal.undefined) = ed
  constructor
  · rintro ⟨c, hc, hv⟩
    split at hc
    · rename_i hC
      simp only [Option.some.injEq] at hc
      subst hc
      simp only [validateCampaign, Bool.and_eq_true] at hv hC
      obtain ⟨⟨⟨⟨v1, v2⟩, v3⟩, _⟩, _⟩ := hv
      obtain ⟨⟨⟨⟨⟨⟨⟨⟨⟨⟨⟨⟨⟨a1, a2⟩, a3⟩, _⟩, a5⟩, a6⟩, a7⟩, _⟩, a9⟩, a10⟩, _⟩, _⟩, _⟩, _⟩ := hC
      exact ⟨⟨a1, v1⟩, ⟨a2, v2⟩, ⟨a3, v3⟩, a5, a6, a9, a7, a10⟩
    · exact absurd hc (by simp)
  · rintro ⟨⟨a1, v1⟩, ⟨a2, v2⟩, ⟨a3, v3⟩, a5, a6, a9, a7, a10⟩
    refine ⟨_, if_pos ?_, ?_⟩
    · rw [a1, a2, a3, a5, a6, a7, a9, a10, c4]
      rfl
    · simp only [validateCampaign, Bool.and_eq_true]
      exact ⟨⟨⟨⟨v1, v2⟩, v3⟩, rfl⟩, rfl⟩

/-- C10. For an authenticated `POST /apply` whose upload passes the policy:
with no file the answer is 400 and the store stays as it is; with files the
answer is either 400 with the store as it is (the metadata fail the schema)
or 201 with one campaign added, and that campaign has status pending,
`emailVerified` false, type crowdfunding, the organizer of the token and one
document path per file, whatever the body holds.  With files the answer is
201 exactly when title and description cast to non-empty strings,
`Number(targetAmount)` is a number, a start or end date that is given is a
valid date, category and image URL cast, and the user id of the token casts
to an ObjectId. -/
theorem apply_creates_pending (env : Env) (s : Store) (authorization : Option String)
    (userId : JVal) (files : List UploadFile) (body : Body) (names : List String)
    (hauth : requireAuth env authorization = .ok userId)
    (hup : uploadArray 0 files = .ok names) :
    (files = [] → cfApply env s authorization files body
        = (s, ⟨400, .message "Please upload at least one document (PDF/JPG/PNG)."⟩))
    ∧ (files ≠ [] →
        cfApply env s authorization files body
            = (s, ⟨400, .message "Campaign validation failed"⟩)
        ∨ ∃ c, cfApply env s authorization files body
              = (Store.mk s.users (s.campaigns ++ [c]) s.donations (s.nextId + 1),
                 ⟨201, .campaign c⟩)
            ∧ c.status = some "pending" ∧ c.emailVerified = some false
            ∧ c.type = some "crowdfunding"
            ∧ (∀ u, castObjectId userId = .value u → c.organizer = some u)
            ∧ c.documents = names.map (fun n => "/uploads/crowdfunding/" ++ n)
            ∧ c.documents.length = files.length)
    ∧ (files ≠ [] →
        ((cfApply env s authorization files body).2.status = 201
          ↔ (∃ t, castString (body.get "title") = .value t ∧ t ≠ "")
            ∧ (∃ t, castString (body.get "description") = .value t ∧ t ≠ "")
            ∧ (∃ n, jsNumber (body.get "targetAmount") = JVal.num n)
            ∧ (truthy (body.get "startDate") = true →
                castDate env.parseDate (jsNewDate env.parseDate (body.get "startDate"))
                  ≠ .error)
            ∧ (truthy (body.get "endDate") = true →
                castDate env.parseDate (jsNewDate env.parseDate (body.get "endDate"))
                  ≠ .error)
            ∧ castString (body.get "category") ≠ .error
            ∧ castString (body.get "imageUrl") ≠ .error
            ∧ castObjectId userId ≠ .error)) := by
  have hlen := uploadArray_length files 0 names hup
  have hres : cfApply env s authorization files body = applyHandler env s userId body names := by
    unfold cfApply
    rw [hauth]
    simp only [hup]
  rw [hres]
  refine ⟨?_, ?_, ?_⟩
  · intro hf
    subst hf
    have : names = [] := List.length_eq_zero.mp (by simpa using hlen)
    subst this
    rfl
  · intro hf
    have hne : names ≠ [] := by
      intro hn; rw [hn] at hlen; exact hf (List.length_eq_zero.mp hlen.symm)
    have hlen0 : ((names.map (fun n => "/uploads/crowdfunding/" ++ n)).length == 0) = false := by
      cases names with
      | nil => exact absurd rfl hne
      | cons _ _ => simp
    unfold applyHandler
    simp only [hlen0, Bool.false_eq_true, if_false]
    cases hc : createCampaign env s
        (applyPayload env userId body (names.map (fun n => "/uploads/crowdfunding/" ++ n))) with
    | none => left; rfl
    | some p =>
      obtain ⟨s1, c⟩ := p
      right
      have hspec : s1 = Store.mk s.users (s.campaigns ++ [c]) s.donations (s.nextId + 1)
          ∧ newCampaign env s.nextId
              (applyPayload env userId body (names.map (fun n => "/uploads/crowdfunding/" ++ n)))
            = some c := by
        unfold createCampaign at hc
        split at hc
        · exact absurd hc (by simp)
        · rename_i d hd
          split at hc
          · simp only [Option.some.injEq, Prod.mk.injEq] at hc
            obtain ⟨rfl, rfl⟩ := hc
            exact ⟨rfl, hd⟩
          · exact absurd hc (by simp)
      obtain ⟨_, hst, hev, hty, hdocs, _, _, horg⟩ :=
        newCampaign_apply env s.nextId userId body _ c hspec.2
      refine ⟨c, ?_, hst, hev, hty, horg, hdocs, by rw [hdocs, List.length_map, hlen]⟩
      rw [← hspec.1]
      simp only [hc]
      split <;> rfl
  · intro hf
    have hne : names ≠ [] := by
      intro hn; rw [hn] at hlen; exact hf (List.length_eq_zero.mp hlen.symm)
    have hlen0 : ((names.map (fun n => "/uploads/crowdfunding/" ++ n)).length == 0) = false := by
      cases names with
      | nil => exact absurd rfl hne
      | cons _ _ => simp
    rw [← createCampaign_apply_iff env s userId body
      (names.map (fun n => "/uploads/crowdfunding/" ++ n))]
    unfold applyHandler
    simp only [hlen0, Bool.false_eq_true, if_false]
    cases hc : createCampaign env s
        (applyPayload env userId body (names.map (fun n => "/uploads/crowdfunding/" ++ n))) with
    | none => simp
    | some p =>
      simp only [Option.isSome_some, iff_true]
      split <;> rfl

theorem apply_creates_pending_witness :
    (cfApply sampleEnv sampleStore (some "Bearer user-token")
        [⟨"documents", "land deed.pdf", "application/pdf", 2048, 1000000⟩]
        [("title", JVal.str "Clinic"), ("description", JVal.str "A village clinic"),
         ("targetAmount", JVal.str "7000.50"), ("status", JVal.str "approved"),
         ("emailVerified", JVal.str "true"), ("type", JVal.str "campaign"),
         ("organizer", JVal.str "1")]).2.status = 201 :=
  ((apply_creates_pending sampleEnv sampleStore (some "Bearer user-token") (JVal.str "2")
      [⟨"documents", "land deed.pdf", "application/pdf", 2048, 1000000⟩]
      [("title", JVal.str "Clinic"), ("description", JVal.str "A village clinic"),
       ("targetAmount", JVal.str "7000.50"), ("status", JVal.str "approved"),
       ("emailVerified", JVal.str "true"), ("type", JVal.str "campaign"),
       ("organizer", JVal.str "1")]
      ["1000000-land_deed.pdf"] (by rfl) (by rfl)).2.2 (by decide)).mpr
    ⟨⟨"Clinic", by rfl, by decide⟩, ⟨"A village clinic", by rfl, by decide⟩,
     ⟨JsNum.fin 70005 1, by rfl⟩, fun h => absurd h (by decide),
     fun h => absurd h (by decide), by decide, by decide, by decide⟩

/-! ### Login -/

theorem find_by_email_list (u : User) (e : String) (he : u.email = some e) :
    ∀ (l : List User), (l.map (fun x => x.email)).Nodup → u ∈ l →
      l.find? (fun x => x.email == some e) = some u := by
  intro l
  induction l with
  | nil => intro _ hu; simp at hu
  | cons x xs ih =>
    intro hnd hu
    rw [List.map_cons, List.nodup_cons] at hnd
    rcases List.mem_cons.mp hu with h1 | h1
    · subst h1; simp [List.find?, he]
    · have hx : x.email ≠ some e := by
        intro hcon
        apply hnd.1
        rw [hcon, ← he]
        exact List.mem_map_of_mem _ h1
      have hx' : (x.email == some e) = false := by simpa using hx
      simp only [List.find?, hx']
      exact ih hnd.2 h1

theorem find_by_email (s : Store) (u : User) (e : String) (hs : s.UsersOk)
    (hu : u ∈ s.users) (he : u.email = some e) :
    s.users.find? (fun x => x.email == some e) = some u :=
  find_by_email_list u e he s.users hs.2 hu

theorem find_none_of_forall {α : Type} (p : α → Bool) (l : List α)
    (h : ∀ x ∈ l, p x = false) : l.find? p = none := by
  simp only [List.find?_eq_none]
  intro x hx
  simp [h x hx]

theorem login_found (s : Store) (body : Body) (u : User) (e : String)
    (hfind : s.users.find? (fun x => x.email == some e) = some u)
    (he : body.get "email" = JVal.str e) (hne : e ≠ "")
    (hpw : truthy (body.get "password") = true) :
    login s body =
      if u.isBlocked == some true then ⟨403, .message "Account is blocked"⟩
      else if !passwordPresent u.password && (truthyStr u.googleId || truthyStr u.facebookId) then
        ⟨400, .message
          "This account was created with social login. Please use Google or Facebook to sign in."⟩
      else
        match comparePassword u.password (body.get "password") with
        | none => ⟨500, .message "Something went wrong"⟩
        | some false => ⟨400, .message "Invalid credentials"⟩
        | some true => ⟨200, .session u._id u.name⟩ := by
  unfold login
  have hte : truthy (JVal.str e) = true := by simp [truthy, hne]
  simp only [he, hte, hpw, stringCond_str, hfind, Bool.not_true, Bool.or_self,
    Bool.false_eq_true, if_false]

theorem login_missing (s : Store) (body : Body) (e : String)
    (hnone : s.users.find? (fun x => x.email == some e) = none)
    (he : body.get "email" = JVal.str e) (hne : e ≠ "")
    (hpw : truthy (body.get "password") = true) :
    login s body = ⟨400, .message "Invalid credentials"⟩ := by
  unfold login
  have hte : truthy (JVal.str e) = true := by simp [truthy, hne]
  simp only [he, hte, hpw, stringCond_str, hnone, Bool.not_true, Bool.or_self,
    Bool.false_eq_true, if_false]

theorem login_required (s : Store) (body : Body)
    (h : truthy (body.get "email") = false ∨ truthy (body.get "password") = false) :
    login s body = ⟨400, .message "Email and password are required"⟩ := by
  unfold login
  rcases h with h | h <;> simp [h]

/-- C11. A blocked user who logs in with the email of the account and the
correct password is answered 403 "Account is blocked", and the answer to a
login under the email of a blocked account never carries a token. -/
theorem blocked_login_refused (s : Store) (body : Body) (u : User) (e p : String)
    (hs : s.UsersOk) (hu : u ∈ s.users) (hb : u.isBlocked = some true)
    (hemail : u.email = some e) (he : body.get "email" = JVal.str e)
    (hp : body.get "password" = JVal.str p)
    (_hcorrect : comparePassword u.password (JVal.str p) = some true)
    (hne : e ≠ "") (hpne : p ≠ "") :
    login s body = ⟨403, .message "Account is blocked"⟩
      ∧ ∀ i n, (login s body).body ≠ .session i n := by
  have hpw : truthy (body.get "password") = true := by simp [hp, truthy, hpne]
  have h := login_found s body u e (find_by_email s u e hs hu hemail) he hne hpw
  simp only [hb, beq_self_eq_true, if_true] at h
  rw [h]
  exact ⟨rfl, fun i n => by simp⟩

theorem blocked_login_refused_witness :
    comparePassword sampleBlocked.password (JVal.str "cypw") = some true
      ∧ login accountStore [("email", .str "cy@hopenest.org"), ("password", .str "cypw")]
          = ⟨403, .message "Account is blocked"⟩ :=
  ⟨by decide,
   (blocked_login_refused accountStore
      [("email", .str "cy@hopenest.org"), ("password", .str "cypw")] sampleBlocked
      "cy@hopenest.org" "cypw" ⟨by decide, by decide⟩ (by decide) (by rfl) (by rfl) (by rfl) (by rfl)
      (by decide) (by decide) (by decide)).1⟩

/-- C12 (counterexample). The blocked account `cy@hopenest.org` with a wrong
password is answered 403 "Account is blocked", not the generic
"Invalid credentials". -/
theorem blocked_login_ignores_password :
    sampleBlocked ∈ accountStore.users
      ∧ sampleBlocked.isBlocked = some true
      ∧ comparePassword sampleBlocked.password (JVal.str "wrong") = some false
      ∧ login accountStore [("email", .str "cy@hopenest.org"), ("password", .str "wrong")]
          = ⟨403, .message "Account is blocked"⟩
      ∧ login accountStore [("email", .str "cy@hopenest.org"), ("password", .str "wrong")]
          ≠ ⟨400, .message "Invalid credentials"⟩ := by
  decide

/-- C12 (amended). In login the blocked-account rejection comes after the
lookup of the account and before the credential check and the token: a login
under the email of a blocked account, with any non-empty password, right or
wrong, is answered 403 "Account is blocked" and never with a token or the
generic "Invalid credentials". -/
theorem blocked_login_precedes_credentials (s : Store) (body : Body) (u : User)
    (e : String) (hs : s.UsersOk) (hu : u ∈ s.users) (hb : u.isBlocked = some true)
    (hemail : u.email = some e) (he : body.get "email" = JVal.str e) (hne : e ≠ "")
    (hpw : truthy (body.get "password") = true) :
    login s body = ⟨403, .message "Account is blocked"⟩
      ∧ login s body ≠ ⟨400, .message "Invalid credentials"⟩
      ∧ ∀ i n, (login s body).body ≠ .session i n := by
  have h := login_found s body u e (find_by_email s u e hs hu hemail) he hne hpw
  simp only [hb, beq_self_eq_true, if_true] at h
  rw [h]
  exact ⟨rfl, by decide, fun i n => by simp⟩

theorem blocked_login_precedes_credentials_witness :
    login accountStore [("email", .str "cy@hopenest.org"), ("password", .num 7)]
      = ⟨403, .message "Account is blocked"⟩ :=
  (blocked_login_precedes_credentials accountStore
    [("email", .str "cy@hopenest.org"), ("password", .num 7)] sampleBlocked
    "cy@hopenest.org" ⟨by decide, by decide⟩ (by decide) (by rfl) (by rfl) (by rfl) (by decide)
    (by decide)).1

/-- C13 (counterexample). The OAuth-only account
`ed@hopenest.org` (no password, `facebookId` set) is blocked, and a login
under its email is answered 403 "Account is blocked", not the social-login
guidance. -/
theorem blocked_social_login_gets_no_guidance :
    sampleSocialBlocked ∈ accountStore.users
      ∧ sampleSocialBlocked.password = none
      ∧ sampleSocialBlocked.facebookId = some "f-5"
      ∧ login accountStore [("email", .str "ed@hopenest.org"), ("password", .str "guess")]
          = ⟨403, .message "Account is blocked"⟩ := by
  decide

/-- C13 (amended). For an OAuth-only account (no password stored, `googleId`
or `facebookId` set) and every non-empty submitted password, login answers
the social-login guidance when the account is not blocked and 403
"Account is blocked" when it is; in neither case the generic
"Invalid credentials" or a token. -/
theorem social_login_guidance (s : Store) (body : Body) (u : User) (e : String)
    (hs : s.UsersOk) (hu : u ∈ s.users) (hemail : u.email = some e)
    (he : body.get "email" = JVal.str e) (hne : e ≠ "")
    (hpw : truthy (body.get "password") = true)
    (hnopw : passwordPresent u.password = false) (hoauth : u.hasOAuth = true) :
    (u.isBlocked ≠ some true → login s body = ⟨400, .message
        "This account was created with social login. Please use Google or Facebook to sign in."⟩)
      ∧ (u.isBlocked = some true → login s body = ⟨403, .message "Account is blocked"⟩)
      ∧ (login s body).body ≠ .message "Invalid credentials"
      ∧ ∀ i n, (login s body).body ≠ .session i n := by
  have h := login_found s body u e (find_by_email s u e hs hu hemail) he hne hpw
  unfold User.hasOAuth at hoauth
  simp only [hnopw, hoauth, Bool.not_false, Bool.and_self, if_true] at h
  by_cases hb : u.isBlocked = some true
  · simp only [hb, beq_self_eq_true, if_true] at h
    rw [h]
    exact ⟨fun hcon => absurd hb hcon, fun _ => rfl, by decide, fun i n => by simp⟩
  · have hb' : (u.isBlocked == some true) = false := by simpa using hb
    simp only [hb', Bool.false_eq_true, if_false] at h
    rw [h]
    exact ⟨fun _ => rfl, fun hcon => absurd hcon hb, by decide, fun i n => by simp⟩

theorem social_login_guidance_witness :
    login accountStore [("email", .str "di@hopenest.org"), ("password", .str "guess")]
      = ⟨400, .message
        "This account was created with social login. Please use Google or Facebook to sign in."⟩ :=
  (social_login_guidance accountStore
    [("email", .str "di@hopenest.org"), ("password", .str "guess")] sampleSocial
    "di@hopenest.org" ⟨by decide, by decide⟩ (by decide) (by rfl) (by rfl) (by decide)
    (by decide) (by decide) (by decide)).1 (by decide)

/-- For an email and a password that are strings, login does not tell
whether an account exists: the answer (status and body) of a store in which no
user has the email equals the answer of a store in which an unblocked user
with a local password has the email and the password does not match; for a
non-empty email and password it is 400 "Invalid credentials". -/
theorem login_same_answer_for_strings (s1 s2 : Store) (body : Body) (u : User)
    (e p : String) (he : body.get "email" = JVal.str e)
    (hp : body.get "password" = JVal.str p)
    (habsent : ∀ x ∈ s1.users, x.email ≠ some e)
    (hs : s2.UsersOk) (hu : u ∈ s2.users) (hemail : u.email = some e)
    (hunblocked : u.isBlocked ≠ some true)
    (hlocal : passwordPresent u.password = true)
    (hwrong : comparePassword u.password (JVal.str p) = some false) :
    login s1 body = login s2 body
      ∧ (e ≠ "" → p ≠ "" → login s2 body = ⟨400, .message "Invalid credentials"⟩) := by
  by_cases hne : e = ""
  · have ht : truthy (body.get "email") = false := by simp [he, truthy, hne]
    rw [login_required s1 body (Or.inl ht), login_required s2 body (Or.inl ht)]
    exact ⟨rfl, fun h => absurd hne h⟩
  · by_cases hpne : p = ""
    · have ht : truthy (body.get "password") = false := by simp [hp, truthy, hpne]
      rw [login_required s1 body (Or.inr ht), login_required s2 body (Or.inr ht)]
      exact ⟨rfl, fun _ h => absurd hpne h⟩
    · have hpw : truthy (body.get "password") = true := by simp [hp, truthy, hpne]
      have hnone : s1.users.find? (fun x => x.email == some e) = none :=
        find_none_of_forall _ _ (fun x hx => by simpa using habsent x hx)
      have h1 := login_missing s1 body e hnone he hne hpw
      have h2 := login_found s2 body u e (find_by_email s2 u e hs hu hemail) he hne hpw
      have hb' : (u.isBlocked == some true) = false := by simpa using hunblocked
      rw [hp] at h2
      simp only [hb', hlocal, hwrong, Bool.false_eq_true, if_false, Bool.not_true,
        Bool.false_and] at h2
      rw [h1, h2]
      exact ⟨rfl, fun _ _ => rfl⟩

theorem login_same_answer_for_strings_at_sample :
    login emptyStore [("email", .str "bo@hopenest.org"), ("password", .str "guess")]
      = login accountStore [("email", .str "bo@hopenest.org"), ("password", .str "guess")] :=
  (login_same_answer_for_strings emptyStore accountStore
    [("email", .str "bo@hopenest.org"), ("password", .str "guess")] sampleUser
    "bo@hopenest.org" "guess" (by rfl) (by rfl) (by decide) ⟨by decide, by decide⟩
    (by decide) (by rfl) (by decide) (by decide) (by decide)).1

/-- C14 (code at the failing input). The password of the body is the number
`7`, which is truthy and so passes the check of the required fields.  No user
has the email `nobody@hopenest.org`, and the answer is 400 "Invalid
credentials".  The email `bo@hopenest.org` belongs to an unblocked user with
a local password; there `bcrypt.compare` throws on a candidate that is no
string and the `catch` of the route answers 500 "Something went wrong".  The
two answers differ, so the answer tells that the account exists. -/
theorem login_reveals_account_to_numeric_password :
    (∀ x ∈ accountStore.users, x.email ≠ some "nobody@hopenest.org")
    ∧ login accountStore [("email", .str "nobody@hopenest.org"), ("password", .num 7)]
        = ⟨400, .message "Invalid credentials"⟩
    ∧ sampleUser ∈ accountStore.users
    ∧ sampleUser.email = some "bo@hopenest.org"
    ∧ sampleUser.isBlocked ≠ some true
    ∧ passwordPresent sampleUser.password = true
    ∧ comparePassword sampleUser.password (.num 7) ≠ some true
    ∧ login accountStore [("email", .str "bo@hopenest.org"), ("password", .num 7)]
        = ⟨500, .message "Something went wrong"⟩ := by
  decide

/-! ### The verify callbacks -/

/-- The document of the creation branch of the Google callback. -/
theorem newUser_google (env : Env) (id : Nat) (pid : String) (dn : Option String)
    (e av : String) :
    newUser env id
        [("googleId", .str pid), ("name", optStr dn), ("email", .str e), ("avatar", .str av),
         ("provider", .str "google")]
      = some (User.mk id dn (some e) none (some pid) none (some av) (some "google")
          (some "user") (some false) none none (some env.now)) := by
  cases dn <;>
    simp [newUser, get_cons, get_nil, pathOr, castString, castBoolean, optStr, rawPassword,
      Option.join]

theorem newUser_facebook (env : Env) (id : Nat) (pid : String) (dn em : Option String)
    (ev : JVal) (av : String) (hev : pathOr castString none ev = some em) :
    newUser env id
        [("facebookId", .str pid), ("name", optStr dn), ("email", ev),
         ("avatar", .str av), ("provider", .str "facebook")]
      = some (User.mk id dn em none none (some pid) (some av) (some "facebook")
          (some "user") (some false) none none (some env.now)) := by
  unfold newUser
  simp only [get_cons, get_nil, String.reduceEq, if_true, if_false]
  rw [hev]
  cases dn <;>
    simp [pathOr, castString, castBoolean, optStr, rawPassword, Option.join]

theorem createUser_new (env : Env) (s : Store) (data : Body) (u : User)
    (hu : newUser env s.nextId data = some u)
    (hp : data.get "password" = JVal.undefined) :
    createUser env s data =
      if validateUser u = true ∧ s.users.any (fun x => x.email == u.email) = false
      then some (s.withNewUser u, u) else none := by
  unfold createUser
  rw [hu]
  simp only [hp]
  by_cases hv : validateUser u = true
  · by_cases hd : s.users.any (fun x => x.email == u.email) = true
    · simp [hv, hd]
    · simp only [Bool.not_eq_true] at hd
      simp [hv, hd, Store.withNewUser]
  · simp [hv]

theorem any_email_false (s : Store) (e : String)
    (h : s.users.find? (fun x => x.email == some e) = none) :
    s.users.any (fun x => x.email == some e) = false := by
  rw [List.find?_eq_none] at h
  rw [List.any_eq_false]
  intro x hx
  exact h x hx

theorem validateUser_social (id : Nat) (d e pid av : String) (g : Bool) (now : Int)
    (hd : d ≠ "") (he : e ≠ "") (hpid : pid ≠ "") :
    validateUser (User.mk id (some d) (some e) none (if g then some pid else none)
      (if g then none else some pid) (some av) (some (if g then "google" else "facebook"))
      (some "user") (some false) none none (some now)) = true := by
  cases g <;>
    simp [validateUser, requiredStr, passwordRequired, truthyStr, enumOk, hd, he, hpid]

theorem validateUser_link_google (u : User) (pid avatar : String)
    (hv : validateUser u = true) (hpid : pid ≠ "") :
    validateUser (User.mk u._id u.name u.email u.password (some pid) u.facebookId
      (some avatar) u.provider u.role u.isBlocked u.resetToken u.resetTokenExpiry
      u.createdAt) = true := by
  unfold validateUser at hv ⊢
  simp only [Bool.and_eq_true] at hv ⊢
  refine ⟨⟨⟨⟨hv.1.1.1.1, hv.1.1.1.2⟩, ?_⟩, hv.1.2⟩, hv.2⟩
  simp [passwordRequired, truthyStr, hpid]

theorem validateUser_link_facebook (u : User) (pid avatar : String)
    (hv : validateUser u = true) (hpid : pid ≠ "") :
    validateUser (User.mk u._id u.name u.email u.password u.googleId (some pid)
      (some avatar) u.provider u.role u.isBlocked u.resetToken u.resetTokenExpiry
      u.createdAt) = true := by
  unfold validateUser at hv ⊢
  simp only [Bool.and_eq_true] at hv ⊢
  refine ⟨⟨⟨⟨hv.1.1.1.1, hv.1.1.1.2⟩, ?_⟩, hv.1.2⟩, hv.2⟩
  simp [passwordRequired, truthyStr, hpid]

theorem linkedAvatar_isSome (u : User) (profile : Profile)
    (h : truthyStr u.avatar = true ∨ profile.photos.isSome = true) :
    ∃ a, linkedAvatar u profile = some a := by
  unfold linkedAvatar
  by_cases ha : truthyStr u.avatar = true
  · rw [if_pos ha]
    cases hav : u.avatar with
    | none => rw [hav] at ha; simp [truthyStr] at ha
    | some a => exact ⟨a, rfl⟩
  · rw [if_neg ha]
    rcases h with h | h
    · exact absurd h ha
    · unfold profilePhoto
      cases hph : profile.photos with
      | none => rw [hph] at h; simp at h
      | some l => cases l <;> simp

theorem profilePhoto_isSome (profile : Profile) (h : profile.photos.isSome = true) :
    ∃ a, profilePhoto profile = some a := by
  unfold profilePhoto
  cases hph : profile.photos with
  | none => rw [hph] at h; simp at h
  | some l => cases l <;> simp

theorem google_reuses (env : Env) (s : Store) (profile : Profile) (u : User)
    (h : s.users.find? (fun x => x.googleId == some profile.id) = some u) :
    googleVerify env s profile = (s, some u) := by
  unfold googleVerify
  rw [h]

theorem google_links (env : Env) (s : Store) (profile : Profile) (e : String)
    (rest : List String) (u : User)
    (hid : s.users.find? (fun x => x.googleId == some profile.id) = none)
    (hem : profile.emails = some (e :: rest))
    (hfind : s.users.find? (fun x => x.email == some e) = some u) :
    (googleVerify env s profile = (s, none)
      ∨ ∃ w, googleVerify env s profile = (s.putUser w, some w) ∧ u.sameAccount w
          ∧ w.googleId = some profile.id ∧ w.facebookId = u.facebookId)
    ∧ (validateUser u = true → profile.id ≠ ""
        → (truthyStr u.avatar = true ∨ profile.photos.isSome = true)
        → ∃ w, googleVerify env s profile = (s.putUser w, some w)) := by
  unfold googleVerify
  rw [hid]
  simp only [hem, hfind]
  cases hav : linkedAvatar u profile with
  | none =>
    refine ⟨Or.inl rfl, fun _ _ h => ?_⟩
    obtain ⟨a, ha⟩ := linkedAvatar_isSome u profile h
    rw [ha] at hav
    exact absurd hav (by simp)
  | some avatar =>
    simp only [saveUser]
    by_cases hv : validateUser (User.mk u._id u.name u.email u.password (some profile.id)
        u.facebookId (some avatar) u.provider u.role u.isBlocked u.resetToken
        u.resetTokenExpiry u.createdAt) = true
    · simp only [hv, if_true, Bool.false_eq_true, if_false]
      refine ⟨Or.inr ⟨_, rfl, ?_, rfl, rfl⟩, fun _ _ _ => ⟨_, rfl⟩⟩
      exact ⟨rfl, rfl, rfl, rfl, rfl, rfl, rfl, rfl, rfl, rfl⟩
    · simp only [hv, if_false]
      refine ⟨Or.inl rfl, fun hvu hpid _ => ?_⟩
      exact absurd (validateUser_link_google u profile.id avatar hvu hpid) hv

theorem google_creates (env : Env) (s : Store) (profile : Profile) (e : String)
    (rest : List String)
    (hid : s.users.find? (fun x => x.googleId == some profile.id) = none)
    (hem : profile.emails = some (e :: rest))
    (hfind : s.users.find? (fun x => x.email == some e) = none) :
    (googleVerify env s profile = (s, none)
      ∨ ∃ w, googleVerify env s profile = (s.withNewUser w, some w) ∧ w._id = s.nextId
          ∧ w.googleId = some profile.id ∧ w.name = profile.displayName
          ∧ w.email = some e ∧ w.password = none)
    ∧ (requiredStr profile.displayName = true → e ≠ "" → profile.id ≠ ""
        → profile.photos.isSome = true
        → ∃ w, googleVerify env s profile = (s.withNewUser w, some w)) := by
  unfold googleVerify
  rw [hid]
  simp only [hem, hfind]
  cases hav : profilePhoto profile with
  | none =>
    refine ⟨Or.inl rfl, fun _ _ _ h => ?_⟩
    obtain ⟨a, ha⟩ := profilePhoto_isSome profile h
    rw [ha] at hav
    exact absurd hav (by simp)
  | some avatar =>
    simp only
    rw [createUser_new env s _ _ (newUser_google env s.nextId profile.id profile.displayName e
      avatar) (by simp [get_cons, get_nil])]
    have hany := any_email_false s e hfind
    simp only [hany, and_true]
    by_cases hv : validateUser (User.mk s.nextId profile.displayName (some e) none
        (some profile.id) none (some avatar) (some "google") (some "user") (some false)
        none none (some env.now)) = true
    · simp only [hv, if_true]
      exact ⟨Or.inr ⟨_, rfl, rfl, rfl, rfl, rfl, rfl⟩, fun _ _ _ _ => ⟨_, rfl⟩⟩
    · simp only [hv, if_false]
      refine ⟨Or.inl rfl, fun hd he hpid _ => ?_⟩
      exfalso
      apply hv
      cases hdn : profile.displayName with
      | none => rw [hdn] at hd; simp [requiredStr] at hd
      | some d =>
        have hd' : d ≠ "" := by rw [hdn] at hd; simpa [requiredStr] using hd
        exact validateUser_social s.nextId d e profile.id avatar true env.now hd' he hpid

theorem facebook_reuses (env : Env) (s : Store) (profile : Profile) (u : User)
    (h : s.users.find? (fun x => x.facebookId == some profile.id) = some u) :
    facebookVerify env s profile = (s, some u) := by
  unfold facebookVerify
  rw [h]

theorem facebook_links (env : Env) (s : Store) (profile : Profile) (e : String) (u : User)
    (hid : s.users.find? (fun x => x.facebookId == some profile.id) = none)
    (hem : facebookEmail profile = some e) (hne : e ≠ "")
    (hfind : s.users.find? (fun x => x.email == some e) = some u) :
    (facebookVerify env s profile = (s, none)
      ∨ ∃ w, facebookVerify env s profile = (s.putUser w, some w) ∧ u.sameAccount w
          ∧ w.facebookId = some profile.id ∧ w.googleId = u.googleId)
    ∧ (validateUser u = true → profile.id ≠ ""
        → (truthyStr u.avatar = true ∨ profile.photos.isSome = true)
        → ∃ w, facebookVerify env s profile = (s.putUser w, some w)) := by
  unfold facebookVerify
  rw [hid]
  have ht : truthyStr (some e) = true := by simp [truthyStr, hne]
  simp only [hem, ht, if_true, hfind]
  cases hav : linkedAvatar u profile with
  | none =>
    refine ⟨Or.inl rfl, fun _ _ h => ?_⟩
    obtain ⟨a, ha⟩ := linkedAvatar_isSome u profile h
    rw [ha] at hav
    exact absurd hav (by simp)
  | some avatar =>
    simp only [saveUser]
    by_cases hv : validateUser (User.mk u._id u.name u.email u.password u.googleId
        (some profile.id) (some avatar) u.provider u.role u.isBlocked u.resetToken
        u.resetTokenExpiry u.createdAt) = true
    · simp only [hv, if_true, Bool.false_eq_true, if_false]
      refine ⟨Or.inr ⟨_, rfl, ?_, rfl, rfl⟩, fun _ _ _ => ⟨_, rfl⟩⟩
      exact ⟨rfl, rfl, rfl, rfl, rfl, rfl, rfl, rfl, rfl, rfl⟩
    · simp only [hv, if_false]
      refine ⟨Or.inl rfl, fun hvu hpid _ => ?_⟩
      exact absurd (validateUser_link_facebook u profile.id avatar hvu hpid) hv

theorem facebookCreate_spec (env : Env) (s : Store) (profile : Profile) :
    (facebookCreate env s profile = (s, none)
      ∨ ∃ w, facebookCreate env s profile = (s.withNewUser w, some w) ∧ w._id = s.nextId
          ∧ w.facebookId = some profile.id ∧ w.name = profile.displayName
          ∧ w.email = facebookEmail profile ∧ w.password = none)
    ∧ (∀ e, facebookEmail profile = some e → e ≠ ""
        → s.users.find? (fun x => x.email == some e) = none
        → requiredStr profile.displayName = true → profile.id ≠ ""
        → profile.photos.isSome = true
        → ∃ w, facebookCreate env s profile = (s.withNewUser w, some w)) := by
  unfold facebookCreate
  cases hav : profilePhoto profile with
  | none =>
    refine ⟨Or.inl rfl, fun _ _ _ _ _ _ h => ?_⟩
    obtain ⟨a, ha⟩ := profilePhoto_isSome profile h
    rw [ha] at hav
    exact absurd hav (by simp)
  | some avatar =>
    simp only
    rw [createUser_new env s _ _ (newUser_facebook env s.nextId profile.id profile.displayName
      (facebookEmail profile) _ avatar (by cases facebookEmail profile <;> rfl))
      (by simp [get_cons, get_nil])]
    by_cases hc : validateUser (User.mk s.nextId profile.displayName (facebookEmail profile)
          none none (some profile.id) (some avatar) (some "facebook") (some "user")
          (some false) none none (some env.now)) = true
        ∧ s.users.any (fun x => x.email == facebookEmail profile) = false
    · simp only [hc, and_self, if_true]
      exact ⟨Or.inr ⟨_, rfl, rfl, rfl, rfl, rfl, rfl⟩, fun _ _ _ _ _ _ _ => ⟨_, rfl⟩⟩
    · rw [if_neg hc]
      refine ⟨Or.inl rfl, fun e hem he hfind hd hpid _ => ?_⟩
      exfalso
      apply hc
      rw [hem]
      refine ⟨?_, any_email_false s e hfind⟩
      cases hdn : profile.displayName with
      | none => rw [hdn] at hd; simp [requiredStr] at hd
      | some d =>
        have hd' : d ≠ "" := by rw [hdn] at hd; simpa [requiredStr] using hd
        exact validateUser_social s.nextId d e profile.id avatar false env.now hd' he hpid

theorem facebook_creates (env : Env) (s : Store) (profile : Profile)
    (hid : s.users.find? (fun x => x.facebookId == some profile.id) = none)
    (hfind : ∀ e, facebookEmail profile = some e → e ≠ "" →
      s.users.find? (fun x => x.email == some e) = none) :
    facebookVerify env s profile = facebookCreate env s profile := by
  unfold facebookVerify
  rw [hid]
  simp only
  split
  · rename_i ht
    cases hem : facebookEmail profile with
    | none => rw [hem] at ht; simp [truthyStr] at ht
    | some e =>
      have hne : e ≠ "" := by rw [hem] at ht; simpa [truthyStr] using ht
      rw [hfind e hem hne]
  · rfl

/-- C15 (counterexample). A Facebook profile without an email, for which no
account matches, gets no user from the verify callback (the schema requires
an email, so the creation fails) and nothing is created. -/
theorem facebook_without_email_creates_nothing :
    facebookVerify sampleEnv sampleStore ⟨"f-9", some "Flo", none, some []⟩
      = (sampleStore, none) := by
  decide

/-- C15 (amended). For both providers and every profile, the verify callback
either passes an error and leaves the store as it is, or returns a user
chosen in this order: the user whose provider id equals `profile.id`, as it
is (this step never fails); else the user whose email equals the email of
the profile, written back with the provider id attached; else a user created
under the next `_id` with the id, the name and the email of the profile and
no password.  The linking step returns its user when the account found
passes the schema validators, the provider id is non-empty and an avatar or
a photo list is there; the creation step returns its user when the profile
carries a non-empty name, a non-empty email, a non-empty id and a photo
list. -/
theorem oauth_account_choice (env : Env) (s : Store) (profile : Profile) :
    ((∀ u, s.users.find? (fun x => x.googleId == some profile.id) = some u →
        googleVerify env s profile = (s, some u))
      ∧ (∀ e rest u, s.users.find? (fun x => x.googleId == some profile.id) = none →
          profile.emails = some (e :: rest) →
          s.users.find? (fun x => x.email == some e) = some u →
          (googleVerify env s profile = (s, none)
            ∨ ∃ w, googleVerify env s profile = (s.putUser w, some w) ∧ u.sameAccount w
                ∧ w.googleId = some profile.id ∧ w.facebookId = u.facebookId)
          ∧ (validateUser u = true → profile.id ≠ ""
              → (truthyStr u.avatar = true ∨ profile.photos.isSome = true)
              → ∃ w, googleVerify env s profile = (s.putUser w, some w)))
      ∧ (∀ e rest, s.users.find? (fun x => x.googleId == some profile.id) = none →
          profile.emails = some (e :: rest) →
          s.users.find? (fun x => x.email == some e) = none →
          (googleVerify env s profile = (s, none)
            ∨ ∃ w, googleVerify env s profile = (s.withNewUser w, some w)
                ∧ w._id = s.nextId ∧ w.googleId = some profile.id
                ∧ w.name = profile.displayName ∧ w.email = some e ∧ w.password = none)
          ∧ (requiredStr profile.displayName = true → e ≠ "" → profile.id ≠ ""
              → profile.photos.isSome = true
              → ∃ w, googleVerify env s profile = (s.withNewUser w, some w))))
    ∧ ((∀ u, s.users.find? (fun x => x.facebookId == some profile.id) = some u →
        facebookVerify env s profile = (s, some u))
      ∧ (∀ e u, s.users.find? (fun x => x.facebookId == some profile.id) = none →
          facebookEmail profile = some e → e ≠ "" →
          s.users.find? (fun x => x.email == some e) = some u →
          (facebookVerify env s profile = (s, none)
            ∨ ∃ w, facebookVerify env s profile = (s.putUser w, some w) ∧ u.sameAccount w
                ∧ w.facebookId = some profile.id ∧ w.googleId = u.googleId)
          ∧ (validateUser u = true → profile.id ≠ ""
              → (truthyStr u.avatar = true ∨ profile.photos.isSome = true)
              → ∃ w, facebookVerify env s profile = (s.putUser w, some w)))
      ∧ (s.users.find? (fun x => x.facebookId == some profile.id) = none →
          (∀ e, facebookEmail profile = some e → e ≠ "" →
            s.users.find? (fun x => x.email == some e) = none) →
          (facebookVerify env s profile = (s, none)
            ∨ ∃ w, facebookVerify env s profile = (s.withNewUser w, some w)
                ∧ w._id = s.nextId ∧ w.facebookId = some profile.id
                ∧ w.name = profile.displayName ∧ w.email = facebookEmail profile
                ∧ w.password = none)
          ∧ (∀ e, facebookEmail profile = some e → e ≠ ""
              → requiredStr profile.displayName = true → profile.id ≠ ""
              → profile.photos.isSome = true
              → ∃ w, facebookVerify env s profile = (s.withNewUser w, some w)))) := by
  refine ⟨⟨google_reuses env s profile, google_links env s profile,
    google_creates env s profile⟩, facebook_reuses env s profile,
    facebook_links env s profile, fun hid hfind => ?_⟩
  rw [facebook_creates env s profile hid hfind]
  refine ⟨(facebookCreate_spec env s profile).1, fun e hem hne hd hpid hph => ?_⟩
  exact (facebookCreate_spec env s profile).2 e hem hne (hfind e hem hne) hd hpid hph

theorem oauth_account_choice_witness :
    (∃ w, googleVerify sampleEnv sampleStore
        ⟨"g-2", some "Bo", some ["bo@hopenest.org"], some []⟩
          = (sampleStore.putUser w, some w))
    ∧ (∃ w, facebookVerify sampleEnv sampleStore
        ⟨"f-9", some "Flo", some ["flo@hopenest.org"], some []⟩
          = (sampleStore.withNewUser w, some w)) :=
  ⟨((oauth_account_choice sampleEnv sampleStore
      ⟨"g-2", some "Bo", some ["bo@hopenest.org"], some []⟩).1.2.1
      "bo@hopenest.org" [] sampleUser (by decide) (by rfl) (by decide)).2
      (by decide) (by decide) (Or.inr (by rfl)),
   ((oauth_account_choice sampleEnv sampleStore
      ⟨"f-9", some "Flo", some ["flo@hopenest.org"], some []⟩).2.2.2
      (by decide) (by decide)).2 "flo@hopenest.org" (by rfl) (by decide) (by decide)
      (by decide) (by rfl)⟩

/-! ### The decisions of an admin -/

theorem find_crowdfunding_none (i : Nat) :
    ∀ (l : List Campaign), (∀ c ∈ l, c._id = i → c.type ≠ some "crowdfunding") →
      l.find? (fun d => d._id == i && isCrowdfunding d) = none := by
  intro l h
  rw [List.find?_eq_none]
  intro c hc
  by_cases hi : c._id = i
  · have := h c hc hi
    simp [isCrowdfunding, this]
  · simp [hi]

theorem reject_reason_cast (v : JVal) :
    castString (if truthy v then v else JVal.str "Rejected") ≠ .absent
    ∧ (truthy v = false →
        castString (if truthy v then v else JVal.str "Rejected") = .value "Rejected")
    ∧ (∀ t, v = JVal.str t → t ≠ "" →
        castString (if truthy v then v else JVal.str "Rejected") = .value t) := by
  refine ⟨?_, ?_, ?_⟩
  · by_cases h : truthy v = true
    · rw [if_pos h]
      cases v with
      | undefined => simp [truthy] at h
      | null => simp [truthy] at h
      | bool b => simp [castString]
      | num n => simp [castString]
      | nan => simp [castString]
      | str t => simp [castString]
      | arr xs => simp [castString]
      | obj kvs =>
        simp only [castString]
        split
        · split <;> simp
        · simp
    · rw [if_neg h]
      simp [castString]
  · intro h
    simp [h, castString]
  · intro t hv ht
    subst hv
    simp [truthy, ht, castString]

theorem reject_update_of_cast (env : Env) (v : JVal) (t : String)
    (h : castString v = .value t) :
    ∃ f, castCampaignUpdate env [("status", JVal.str "rejected"), ("rejectionReason", v)]
        = some f
      ∧ ∀ x : Campaign, (f x).status = some "rejected"
          ∧ (f x).rejectionReason = some t
          ∧ (f x).emailVerified = x.emailVerified := by
  have hne : ∀ w : JVal, castString w = .value t → pathSet castString w = some (some (some t)) := by
    intro w hw
    cases w with
    | undefined => simp [castString] at hw
    | null => simp [castString] at hw
    | bool b => simp only [pathSet, hw]
    | num n => simp only [pathSet, hw]
    | nan => simp only [pathSet, hw]
    | str u => simp only [pathSet, hw]
    | arr xs => simp only [pathSet, hw]
    | obj kvs => simp only [pathSet, hw]
  have hcast := hne v h
  obtain ⟨f, hf⟩ := decision_update_casts env (JVal.str "rejected") v
    (by simp [pathSet, castString]) (by rw [hcast]; simp)
  refine ⟨f, hf, fun x => ?_⟩
  obtain ⟨st, rr, hst, hrr, hstatus, hreason, hver⟩ := decision_update env _ _ f hf x
  rw [hcast] at hrr
  simp only [pathSet, castString, Option.some.injEq] at hst
  simp only [Option.some.injEq] at hrr
  refine ⟨?_, ?_, hver⟩
  · rw [hstatus, ← hst]; rfl
  · rw [hreason, ← hrr]; rfl

theorem reject_update_refused (env : Env) (v : JVal) (h : castString v = .error) :
    castCampaignUpdate env [("status", JVal.str "rejected"), ("rejectionReason", v)]
      = none := by
  have hcast : pathSet castString v = none := by
    cases v with
    | undefined => simp [castString] at h
    | null => simp [castString] at h
    | bool b => simp only [pathSet, h]
    | num n => simp only [pathSet, h]
    | nan => simp only [pathSet, h]
    | str u => simp only [pathSet, h]
    | arr xs => simp only [pathSet, h]
    | obj kvs => simp only [pathSet, h]
  unfold castCampaignUpdate
  simp only [get_status]
  simp only [String.reduceEq, if_false, if_true, hcast]
  simp

/-- C16 (counterexample). Application `12` is a pending crowdfunding record.
An admin reject request whose reason is the array `["x"]` fails the String
cast of `rejectionReason`: the answer is 400 and the record stays pending.
An admin reject request on the id `abc`, which is no ObjectId and names no
record, is answered 400, where the specification says 404. -/
theorem reject_refuses_uncastable_reason :
    (sampleStore.campaignById 12).map (fun c => (c.type, c.status))
        = some (some "crowdfunding", some "pending")
    ∧ cfReject sampleEnv sampleStore (some "Bearer admin-token") "12"
        [("reason", .arr [.str "x"])] = (sampleStore, ⟨400, .message "CastError"⟩)
    ∧ cfReject sampleEnv sampleStore (some "Bearer admin-token") "abc"
        [("reason", .str "Documents are unreadable")]
        = (sampleStore, ⟨400, .message "CastError"⟩) := by
  decide

/-- C16 (amended). Every admin reject request is answered by one of four
cases.  The update writes `reason || 'Rejected'`, cast to a string, and that
value always casts or fails to cast: it is "Rejected" for a reason that is
left out, empty or falsy in another way, and the reason itself for a
non-empty string.  When the id is no ObjectId, or when the value fails to cast
(an array, an object without a string `_id`), the answer is 400 and the store
is left as it is.  Otherwise, on an existing crowdfunding record the answer is
200 with the record, which ends with status `rejected`, with `rejectionReason`
equal to the cast value, and with its `emailVerified` as before; and when no
crowdfunding record has the id (the id names no record, or a record of
another type), the store is left as it is and the answer is 404. -/
theorem reject_records_reason (env : Env) (s : Store) (authorization : Option String)
    (id : String) (body : Body) (admin : JVal)
    (hadmin : requireAdmin env s authorization = .ok admin) :
    castString (if truthy (body.get "reason") then body.get "reason"
        else JVal.str "Rejected") ≠ .absent
    ∧ (truthy (body.get "reason") = false →
        castString (if truthy (body.get "reason") then body.get "reason"
          else JVal.str "Rejected") = .value "Rejected")
    ∧ (∀ t, body.get "reason" = JVal.str t → t ≠ "" →
        castString (if truthy (body.get "reason") then body.get "reason"
          else JVal.str "Rejected") = .value t)
    ∧ (castIdParam id = none →
        cfReject env s authorization id body = (s, ⟨400, .message "CastError"⟩))
    ∧ (castString (if truthy (body.get "reason") then body.get "reason"
          else JVal.str "Rejected") = .error →
        cfReject env s authorization id body = (s, ⟨400, .message "CastError"⟩))
    ∧ (∀ i t, castIdParam id = some i →
        castString (if truthy (body.get "reason") then body.get "reason"
          else JVal.str "Rejected") = .value t →
        (∀ c, s.campaignById i = some c → c.type = some "crowdfunding" →
          ∃ s1 d, cfReject env s authorization id body = (s1, ⟨200, .campaign d⟩)
            ∧ s1.campaignById i = some d ∧ d.status = some "rejected"
            ∧ d.rejectionReason = some t
            ∧ d.emailVerified = c.emailVerified)
        ∧ ((∀ c ∈ s.campaigns, c._id = i → c.type ≠ some "crowdfunding") →
          cfReject env s authorization id body
            = (s, ⟨404, .message "Crowdfunding campaign not found"⟩))) := by
  obtain ⟨r1, r2, r3⟩ := reject_reason_cast (body.get "reason")
  refine ⟨r1, r2, r3, fun hid => ?_, fun herr => ?_, fun i t hid hval => ⟨fun c hc hcf => ?_,
    fun hnone => ?_⟩⟩
  · unfold cfReject
    rw [hadmin]
    simp only [hid]
  · unfold cfReject
    rw [hadmin]
    cases hid : castIdParam id with
    | none => rfl
    | some i =>
      simp only
      unfold findOneAndUpdate
      rw [reject_update_refused env _ herr]
  · obtain ⟨f, hf, hfx⟩ := reject_update_of_cast env _ t hval
    obtain ⟨s1, hupd, hlook⟩ := decision_overwrites env s i c _ f hc hcf hf
    refine ⟨s1, f c, ?_, hlook, (hfx c).1, (hfx c).2.1, (hfx c).2.2⟩
    unfold cfReject
    rw [hadmin]
    simp only [hid, hupd]
  · obtain ⟨f, hf, _⟩ := reject_update_of_cast env _ t hval
    unfold cfReject
    rw [hadmin]
    simp only [hid]
    unfold findOneAndUpdate
    rw [hf]
    simp only [find_crowdfunding_none i s.campaigns hnone]

theorem reject_records_reason_witness :
    (∃ s1 d, cfReject sampleEnv sampleStore (some "Bearer admin-token") "12"
        [("reason", .str "Documents are unreadable")] = (s1, ⟨200, .campaign d⟩)
      ∧ s1.campaignById 12 = some d ∧ d.status = some "rejected"
      ∧ d.rejectionReason = some "Documents are unreadable"
      ∧ d.emailVerified = sampleDraft.emailVerified) :=
  ((reject_records_reason sampleEnv sampleStore (some "Bearer admin-token") "12"
    [("reason", .str "Documents are unreadable")] (JVal.str "1")
    (by rfl)).2.2.2.2.2 12 "Documents are unreadable" (by decide) (by rfl)).1 sampleDraft
    (by decide) (by decide)

/-- C17 (code at the failing input). The application `11` was rejected with
the reason "Incomplete documents".  An admin approve request is answered 200
and leaves the record with status `approved` and with the reason still in
place: the update `{ status: 'approved', rejectionReason: undefined }` writes
the status only, since an `undefined` value is dropped from an update. -/
theorem approve_keeps_rejection_reason :
    (accountStore.campaignById 11).map (fun c => (c.status, c.rejectionReason))
        = some (some "rejected", some "Incomplete documents")
      ∧ (cfApprove sampleEnv accountStore (some "Bearer admin-token") "11").2.status = 200
      ∧ ((cfApprove sampleEnv accountStore (some "Bearer admin-token") "11").1.campaignById
          11).map (fun c => (c.status, c.rejectionReason))
        = some (some "approved", some "Incomplete documents")
      ∧ (cfApprove sampleEnv accountStore (some "Bearer admin-token") "11").2.body
        = .campaign (Campaign.mk 11 (some "Bridge") (some "A foot bridge") (some 3000) (some 0)
            (some 0) none none (some "crowdfunding") none (some 2) (some "approved")
            ["/uploads/crowdfunding/3-c.pdf"] (some "Incomplete documents") (some true) 0
            1000000) := by
  decide

/-- What approve does for every crowdfunding record: the status becomes
`approved` and the `rejectionReason` stays what it was. -/
theorem approve_update_keeps_reason (env : Env) (s : Store)
    (authorization : Option String) (id : String) (i : Nat) (admin : JVal) (c : Campaign)
    (hadmin : requireAdmin env s authorization = .ok admin)
    (hid : castIdParam id = some i) (hc : s.campaignById i = some c)
    (hcf : c.type = some "crowdfunding") :
    ∃ s1 d, cfApprove env s authorization id = (s1, ⟨200, .campaign d⟩)
      ∧ s1.campaignById i = some d ∧ d.status = some "approved"
      ∧ d.rejectionReason = c.rejectionReason := by
  obtain ⟨f, hf⟩ := decision_update_casts env (JVal.str "approved") JVal.undefined
    (by simp [pathSet, castString]) (by simp [pathSet])
  obtain ⟨s1, hupd, hlook⟩ := decision_overwrites env s i c _ f hc hcf hf
  obtain ⟨st, rr, hst, hrr, hstatus, hreason, _⟩ := decision_update env _ _ f hf c
  refine ⟨s1, f c, ?_, hlook, ?_, ?_⟩
  · unfold cfApprove
    rw [hadmin]
    simp only [hid, hupd]
  · rw [hstatus]
    simp only [pathSet, castString, Option.some.injEq] at hst
    rw [← hst]; rfl
  · rw [hreason]
    simp only [pathSet, Option.some.injEq] at hrr
    rw [← hrr]; rfl

/-! ### The authentication middleware and the inline token checks -/

theorem splitOn_ne_nil (sep : Char) : ∀ cs : List Char, splitOn sep cs ≠ [] := by
  intro cs
  induction cs with
  | nil => simp [splitOn]
  | cons c cs ih =>
    unfold splitOn
    split
    · simp
    · split
      · simp
      · simp

theorem splitOn_head (sep : Char) :
    ∀ cs : List Char, (splitOn sep cs).head? = some (cs.takeWhile (fun c => c != sep)) := by
  intro cs
  induction cs with
  | nil => simp [splitOn]
  | cons c cs ih =>
    unfold splitOn
    by_cases h : c = sep
    · simp [h]
    · have h' : (c == sep) = false := by simpa using h
      simp only [h', Bool.false_eq_true, if_false]
      cases hs : splitOn sep cs with
      | nil => exact absurd hs (splitOn_ne_nil sep cs)
      | cons w ws =>
        rw [hs] at ih
        simp only [List.head?_cons, Option.some.injEq] at ih
        have hne : (c != sep) = true := by simpa using h
        simp [List.takeWhile, hne, ih]

theorem splitOn_bearer (rest : List Char) :
    (splitOn ' ' ("Bearer ".data ++ rest)).get? 1
      = some (rest.takeWhile (fun c => c != ' ')) := by
  have h : "Bearer ".data = ['B', 'e', 'a', 'r', 'e', 'r', ' '] := rfl
  rw [h]
  have hh := splitOn_head ' ' rest
  cases hs : splitOn ' ' rest with
  | nil => exact absurd hs (splitOn_ne_nil ' ' rest)
  | cons w ws =>
    rw [hs] at hh
    simp only [List.head?_cons, Option.some.injEq] at hh
    simp [splitOn, hs, hh]

/-- The token `requireAuth` reads: the header starts with `Bearer ` and the
token is the run of characters after it, up to the next blank. -/
theorem bearerToken_eq_some (a : Option String) (token : String) :
    bearerToken a = some token ↔
      ∃ h rest, a = some h ∧ h.data = "Bearer ".data ++ rest
        ∧ token = String.mk (rest.takeWhile (fun c => c != ' ')) := by
  unfold bearerToken
  constructor
  · intro hb
    split at hb
    · rename_i hp
      rw [List.isPrefixOf_iff_prefix] at hp
      obtain ⟨rest, hrest⟩ := hp
      cases a with
      | none =>
        simp at hrest
      | some h =>
        simp only [Option.getD_some] at hrest hb
        rw [← hrest, splitOn_bearer] at hb
        simp only [Option.map_some', Option.some.injEq] at hb
        exact ⟨h, rest, rfl, hrest.symm, hb.symm⟩
    · exact absurd hb (by simp)
  · rintro ⟨h, rest, rfl, hrest, rfl⟩
    have hp : "Bearer ".data.isPrefixOf h.data = true := by
      rw [List.isPrefixOf_iff_prefix, hrest]
      exact List.prefix_append _ _
    simp only [Option.getD_some, hp, if_true]
    rw [hrest, splitOn_bearer]
    rfl

theorem bearerToken_none_of_other_scheme (a : Option String)
    (h : ∀ hd, a = some hd → "Bearer ".data.isPrefixOf hd.data = false) :
    bearerToken a = none := by
  unfold bearerToken
  cases a with
  | none => rfl
  | some hd => simp [h hd rfl]

theorem requireAdmin_eq (env : Env) (s : Store) (a : Option String) :
    requireAdmin env s a =
      match requireAuth env a with
      | .error r => .error r
      | .ok v =>
        match castObjectId v with
        | .error => .error ⟨401, .message "Invalid or expired token"⟩
        | .absent => .error ⟨403, .message "Admin access required"⟩
        | .value i =>
          match s.userById i with
          | none => .error ⟨403, .message "Admin access required"⟩
          | some user =>
            if user.role != some "admin" then .error ⟨403, .message "Admin access required"⟩
            else .ok v := by
  unfold requireAdmin requireAuth
  cases bearerToken a with
  | none => rfl
  | some token =>
    simp only
    by_cases ht : (token == "") = true
    · simp only [ht, if_true]
    · simp only [ht, Bool.false_eq_true, if_false]
      cases jwtVerify env token with
      | error e => rfl
      | ok decoded => rfl

/-- C18. `requireAuth` passes control to the handler, with `req.userId` read
from the token, only if the Authorization header is `Bearer <token>` and the
token verifies, and it does so whenever that holds; every refusal is a 401:
a missing or non-Bearer header is answered 401 "Authentication required", an
invalid or expired token 401.  `requireAdmin` refuses what `requireAuth`
refuses, with the same answer; when the token verifies and names no user or
a user whose role is not `admin` it answers 403; it passes control only for
a user that exists with role `admin`. -/
theorem auth_middleware_contract (env : Env) (s : Store) (a : Option String) :
    (∀ v, requireAuth env a = .ok v →
        ∃ h rest token decoded, a = some h ∧ h.data = "Bearer ".data ++ rest
          ∧ token = String.mk (rest.takeWhile (fun c => c != ' ')) ∧ token ≠ ""
          ∧ jwtVerify env token = .ok decoded ∧ v = decoded.get "userId")
    ∧ (∀ token decoded, bearerToken a = some token → token ≠ "" →
        jwtVerify env token = .ok decoded → requireAuth env a = .ok (decoded.get "userId"))
    ∧ (∀ r, requireAuth env a = .error r → r.status = 401)
    ∧ ((∀ h, a = some h → "Bearer ".data.isPrefixOf h.data = false) →
        requireAuth env a = .error ⟨401, .message "Authentication required"⟩)
    ∧ (∀ token e, bearerToken a = some token → jwtVerify env token = .error e →
        ∃ m, requireAuth env a = .error ⟨401, .message m⟩)
    ∧ (∀ r, requireAuth env a = .error r → requireAdmin env s a = .error r)
    ∧ (∀ v, requireAuth env a = .ok v → castObjectId v ≠ .error →
        (∀ i u, castObjectId v = .value i → s.userById i = some u → u.role ≠ some "admin") →
        requireAdmin env s a = .error ⟨403, .message "Admin access required"⟩)
    ∧ (∀ v, requireAdmin env s a = .ok v →
        requireAuth env a = .ok v
          ∧ ∃ i u, castObjectId v = .value i ∧ s.userById i = some u
              ∧ u.role = some "admin") := by
  refine ⟨?_, ?_, ?_, ?_, ?_, ?_, ?_, ?_⟩
  · intro v hv
    unfold requireAuth at hv
    cases hb : bearerToken a with
    | none => rw [hb] at hv; exact absurd hv (by simp)
    | some token =>
      rw [hb] at hv
      simp only at hv
      obtain ⟨h, rest, ha, hrest, htok⟩ := (bearerToken_eq_some a token).mp hb
      by_cases ht : token = ""
      · simp [ht] at hv
      · have ht' : (token == "") = false := by simpa using ht
        simp only [ht', Bool.false_eq_true, if_false] at hv
        cases hj : jwtVerify env token with
        | error e => rw [hj] at hv; exact absurd hv (by simp)
        | ok decoded =>
          rw [hj] at hv
          simp only [Except.ok.injEq] at hv
          exact ⟨h, rest, token, decoded, ha, hrest, htok, ht, hj, hv.symm⟩
  · intro token decoded hb ht hj
    unfold requireAuth
    have ht' : (token == "") = false := by simpa using ht
    simp only [hb, ht', hj, Bool.false_eq_true, if_false]
  · intro r hr
    unfold requireAuth at hr
    split at hr
    · simp only [Except.error.injEq] at hr
      rw [← hr]
    · split at hr
      · simp only [Except.error.injEq] at hr
        rw [← hr]
      · split at hr
        · simp only [Except.error.injEq] at hr
          rw [← hr]
        · exact absurd hr (by simp)
  · intro hno
    unfold requireAuth
    rw [bearerToken_none_of_other_scheme a hno]
  · intro token e hb hj
    unfold requireAuth
    simp only [hb, hj]
    split
    · exact ⟨_, rfl⟩
    · exact ⟨_, rfl⟩
  · intro r hr
    rw [requireAdmin_eq, hr]
  · intro v hv hcast hno
    rw [requireAdmin_eq, hv]
    simp only
    cases hc : castObjectId v with
    | error => exact absurd hc hcast
    | absent => rfl
    | value i =>
      simp only
      cases hu : s.userById i with
      | none => rfl
      | some u =>
        have hr := hno i u hc hu
        simp [hr]
  · intro v hv
    rw [requireAdmin_eq] at hv
    cases ha : requireAuth env a with
    | error r => rw [ha] at hv; exact absurd hv (by simp)
    | ok w =>
      rw [ha] at hv
      simp only at hv
      cases hc : castObjectId w with
      | error => rw [hc] at hv; exact absurd hv (by simp)
      | absent => rw [hc] at hv; exact absurd hv (by simp)
      | value i =>
        rw [hc] at hv
        simp only at hv
        cases hu : s.userById i with
        | none => rw [hu] at hv; exact absurd hv (by simp)
        | some u =>
          rw [hu] at hv
          simp only at hv
          by_cases hr : u.role = some "admin"
          · simp only [hr, bne_self_eq_false, Bool.false_eq_true, if_false,
              Except.ok.injEq] at hv
            subst hv
            exact ⟨rfl, i, u, hc, hu, hr⟩
          · have hr' : (u.role != some "admin") = true := by simpa using hr
            simp [hr'] at hv

theorem auth_middleware_contract_witness :
    requireAuth sampleEnv (some "Bearer user-token") = .ok (JVal.str "2")
      ∧ requireAuth sampleEnv (some "Basic user-token")
          = .error ⟨401, .message "Authentication required"⟩
      ∧ requireAdmin sampleEnv sampleStore (some "Bearer user-token")
          = .error ⟨403, .message "Admin access required"⟩ :=
  ⟨(auth_middleware_contract sampleEnv sampleStore (some "Bearer user-token")).2.1
      "user-token" [("userId", .str "2")] (by rfl) (by decide) (by rfl),
   (auth_middleware_contract sampleEnv sampleStore (some "Basic user-token")).2.2.2.1
      (fun h hh => by
        have : h = "Basic user-token" := (Option.some.inj hh).symm
        subst this; rfl),
   (auth_middleware_contract sampleEnv sampleStore (some "Bearer user-token")).2.2.2.2.2.2.1
      (JVal.str "2") (by rfl) (by decide)
      (fun i u hi hu => by
        have hi2 : i = 2 := by
          have : castObjectId (JVal.str "2") = CastResult.value 2 := by rfl
          rw [this] at hi
          exact (CastResult.value.inj hi).symm
        subst hi2
        have : u = sampleUser := by
          have h2 : sampleStore.userById 2 = some sampleUser := by decide
          rw [h2] at hu
          exact (Option.some.inj hu).symm
        subst this
        decide)⟩

/-- C19 (code at the failing inputs). On the three account routes that
verify the token themselves, a token that fails `jwt.verify` lands in the
`catch` of the handler: `GET /me` and `DELETE /delete` answer 500 for an
invalid and for an expired token, and `PUT /update` answers 401 for an
invalid token only and 500 for an expired one.  The store is left as it
is. -/
theorem inline_token_errors_answered_500 :
    (jwtVerify agedEnv "garbage" = .error .invalid
      ∧ jwtVerify agedEnv "old-token" = .error .expired)
    ∧ me agedEnv accountStore (some "Bearer garbage")
        = ⟨500, .message "Error fetching user data"⟩
    ∧ me agedEnv accountStore (some "Bearer old-token")
        = ⟨500, .message "Error fetching user data"⟩
    ∧ accountDelete agedEnv accountStore (some "Bearer garbage")
        = (accountStore, ⟨500, .message "jwt error"⟩)
    ∧ accountDelete agedEnv accountStore (some "Bearer old-token")
        = (accountStore, ⟨500, .message "jwt error"⟩)
    ∧ profileUpdate agedEnv accountStore (some "Bearer garbage")
        [("name", .str "Bo"), ("email", .str "bo@hopenest.org")]
        = (accountStore, ⟨401, .message "Invalid token"⟩)
    ∧ profileUpdate agedEnv accountStore (some "Bearer old-token")
        [("name", .str "Bo"), ("email", .str "bo@hopenest.org")]
        = (accountStore, ⟨500, .message "Error updating profile"⟩) := by
  refine ⟨⟨rfl, rfl⟩, ?_, ?_, ?_, ?_, ?_, ?_⟩ <;> decide

/-- What the three routes do for every request whose token is missing or
fails to verify: a missing token is answered 401 "Not authenticated", a
token that fails to verify 401 or 500, and in each case the store is neither
written nor read (the answer is the same over every store). -/
theorem inline_token_refusals (env : Env) (s t : Store) (a : Option String) (body : Body)
    (hbad : inlineToken a = none ∨ inlineToken a = some ""
      ∨ ∃ token e, inlineToken a = some token ∧ jwtVerify env token = .error e) :
    ((me env s a).status = 401 ∨ (me env s a).status = 500)
    ∧ me env s a = me env t a
    ∧ (accountDelete env s a).1 = s
    ∧ ((accountDelete env s a).2.status = 401 ∨ (accountDelete env s a).2.status = 500)
    ∧ (accountDelete env s a).2 = (accountDelete env t a).2
    ∧ (profileUpdate env s a body).1 = s
    ∧ ((profileUpdate env s a body).2.status = 401 ∨ (profileUpdate env s a body).2.status = 500)
    ∧ (profileUpdate env s a body).2 = (profileUpdate env t a body).2
    ∧ ((inlineToken a = none ∨ inlineToken a = some "") →
        me env s a = ⟨401, .message "Not authenticated"⟩
        ∧ accountDelete env s a = (s, ⟨401, .message "Not authenticated"⟩)
        ∧ profileUpdate env s a body = (s, ⟨401, .message "Not authenticated"⟩)) := by
  unfold me accountDelete profileUpdate
  rcases hbad with h | h | ⟨token, e, h, hj⟩
  · simp [h]
  · simp [h]
  · by_cases ht : token = ""
    · subst ht; simp [h]
    · have ht' : (token == "") = false := by simpa using ht
      cases e <;> simp [h, hj, ht', ht]

/-! ### Mail as a side effect -/

theorem requireAuth_withMail (env : Env) (b : Bool) (a : Option String) :
    requireAuth (env.withMail b) a = requireAuth env a := rfl

theorem createCampaign_withMail (env : Env) (b : Bool) (s : Store) (data : Body) :
    createCampaign (env.withMail b) s data = createCampaign env s data := rfl

theorem applyPayload_withMail (env : Env) (b : Bool) (userId : JVal) (body : Body)
    (docs : List String) :
    applyPayload (env.withMail b) userId body docs = applyPayload env userId body docs := rfl

theorem applyHandler_withMail (env : Env) (b : Bool) (s : Store) (userId : JVal)
    (body : Body) (names : List String) :
    applyHandler (env.withMail b) s userId body names = applyHandler env s userId body names := by
  unfold applyHandler
  simp only [createCampaign_withMail, applyPayload_withMail]
  split
  · rfl
  · split
    · rfl
    · split <;> split <;> rfl

theorem cfApply_withMail (env : Env) (b : Bool) (s : Store) (a : Option String)
    (files : List UploadFile) (body : Body) :
    cfApply (env.withMail b) s a files body = cfApply env s a files body := by
  unfold cfApply
  simp only [requireAuth_withMail, applyHandler_withMail]

theorem createDonation_withMail (env : Env) (b : Bool) (s : Store) (data : Body) :
    createDonation (env.withMail b) s data = createDonation env s data := rfl

theorem updateCampaignAmount_withMail (env : Env) (b : Bool) (s : Store) (body : Body) :
    updateCampaignAmount (env.withMail b) s body = updateCampaignAmount env s body := rfl

theorem postDonation_withMail (env : Env) (b : Bool) (s : Store) (a : Option String)
    (body : Body) :
    postDonation (env.withMail b) s a body = postDonation env s a body := by
  unfold postDonation
  simp only [requireAuth_withMail, createDonation_withMail, updateCampaignAmount_withMail]
  split
  · rfl
  · split
    · rfl
    · rename_i s1 donation _
      cases receiptMail (env.withMail b) donation <;> cases receiptMail env donation <;> rfl

theorem requestReset_withMail (env : Env) (b : Bool) (s : Store) (body : Body) :
    requestReset (env.withMail b) s body = requestReset env s body := by
  unfold requestReset
  split
  · rfl
  · split
    · rfl
    · have hnow : (env.withMail b).now = env.now := rfl
      have hcode : (env.withMail b).resetCode = env.resetCode := rfl
      simp only [hnow, hcode]
      split
      · rfl
      · split <;> split <;> rfl

theorem resend_withMail (env : Env) (s : Store) (a : Option String) (id : String) :
    cfResendVerification (env.withMail false) s a id
        = cfResendVerification (env.withMail true) s a id
      ∨ (cfResendVerification (env.withMail true) s a id
            = ⟨200, .message "Verification email sent"⟩
          ∧ cfResendVerification (env.withMail false) s a id
            = ⟨500, .message "transport failure"⟩) := by
  unfold cfResendVerification
  simp only [requireAuth_withMail]
  cases requireAuth env a with
  | error r => exact Or.inl rfl
  | ok userId =>
    simp only
    cases castObjectId userId with
    | error => cases castIdParam id <;> exact Or.inl rfl
    | absent =>
      cases castIdParam id with
      | none => exact Or.inl rfl
      | some i =>
        simp only
        cases s.campaigns.find? (fun c => c._id == i && isCrowdfunding c
            && idCond CastResult.absent c.organizer) with
        | none => exact Or.inl trivial
        | some campaign =>
          simp only
          split
          · exact Or.inl trivial
          · exact Or.inl trivial
    | value u =>
      cases castIdParam id with
      | none => exact Or.inl rfl
      | some i =>
        simp only
        cases s.campaigns.find? (fun c => c._id == i && isCrowdfunding c
            && idCond (CastResult.value u) c.organizer) with
        | none => exact Or.inl rfl
        | some campaign =>
          simp only
          split
          · exact Or.inl rfl
          · cases s.userById u with
            | none => exact Or.inl rfl
            | some user =>
              simp only
              by_cases he : truthyStr user.email = true
              · right
                simp [sendMail, he, Env.withMail]
              · left
                simp [sendMail, he]

/-- C20 (counterexample). At the resend-verification call site a failure of
`sendMail` is not ignored: the owner's request for the draft `12` is answered
200 "Verification email sent" when the transport accepts the message and 500
when it refuses. -/
theorem resend_reports_mail_failure :
    cfResendVerification (sampleEnv.withMail true) sampleStore (some "Bearer user-token") "12"
        = ⟨200, .message "Verification email sent"⟩
      ∧ cfResendVerification (sampleEnv.withMail false) sampleStore (some "Bearer user-token")
          "12" = ⟨500, .message "transport failure"⟩ := by
  decide

/-- C20 (amended). At the call sites of `sendMail` in the apply, donation and
password-reset request handlers a failure of the transport is ignored: the
store after the request and the answer (status and body) are the same as
when the transport accepts the message.  The resend-verification handler
writes nothing, and its answer under a failing transport is either the one
it gives under a working transport (the request stopped before the mail) or
500 where a working transport gives 200 "Verification email sent". -/
theorem mail_failure_ignored_where_best_effort (env : Env) (s : Store)
    (a : Option String) (files : List UploadFile) (body : Body) (id : String) :
    cfApply (env.withMail false) s a files body = cfApply (env.withMail true) s a files body
    ∧ postDonation (env.withMail false) s a body = postDonation (env.withMail true) s a body
    ∧ requestReset (env.withMail false) s body = requestReset (env.withMail true) s body
    ∧ (cfResendVerification (env.withMail false) s a id
          = cfResendVerification (env.withMail true) s a id
        ∨ (cfResendVerification (env.withMail true) s a id
              = ⟨200, .message "Verification email sent"⟩
            ∧ cfResendVerification (env.withMail false) s a id
              = ⟨500, .message "transport failure"⟩)) := by
  refine ⟨?_, ?_, ?_, resend_withMail env s a id⟩
  · rw [cfApply_withMail, cfApply_withMail]
  · rw [postDonation_withMail, postDonation_withMail]
  · rw [requestReset_withMail, requestReset_withMail]

/-! ### The mailer -/

theorem ensureTransporter_handed (cfg : MailConfig) (m m1 : Mailer) (tx : Transport)
    (h : ensureTransporter cfg m = .ok (m1, tx)) :
    m1.handed = m.handed ∧ m1.transporter = some tx := by
  unfold ensureTransporter at h
  split at h
  · rename_i tx0 htx
    simp only [Except.ok.injEq, Prod.mk.injEq] at h
    obtain ⟨rfl, rfl⟩ := h
    exact ⟨rfl, htx⟩
  · split at h
    · simp only [Except.ok.injEq, Prod.mk.injEq] at h
      obtain ⟨rfl, rfl⟩ := h
      exact ⟨rfl, rfl⟩
    · split at h
      · exact absurd h (by simp)
      · simp only [Except.ok.injEq, Prod.mk.injEq] at h
        obtain ⟨rfl, rfl⟩ := h
        exact ⟨rfl, rfl⟩

theorem ensureTransporter_available (cfg : MailConfig) (m : Mailer)
    (h : m.transporter.isSome = true ∨ truthyStr cfg.smtpHost = true
      ∨ cfg.testAccount.isSome = true) :
    ∃ m1 tx, ensureTransporter cfg m = .ok (m1, tx) := by
  unfold ensureTransporter
  cases htx : m.transporter with
  | some tx => exact ⟨_, _, rfl⟩
  | none =>
    simp only
    by_cases hh : truthyStr cfg.smtpHost = true
    · simp only [hh, if_true]
      exact ⟨_, _, rfl⟩
    · simp only [hh, if_false]
      cases hacc : cfg.testAccount with
      | some account => exact ⟨_, _, rfl⟩
      | none =>
        rcases h with h | h | h
        · rw [htx] at h; simp at h
        · exact absurd h hh
        · rw [hacc] at h; simp at h

/-- C21 (amended). `sendMail(to, subject, html)` throws "Missing recipient"
for every `to` that is empty or absent, and leaves the state of the module as
it was:
no transport is created and none is handed a message.  For a non-empty `to`,
with a transport at hand (one created before, a configured host, or a test
account that can be created), it hands exactly one message to the transport,
with that `to`, `subject` and `html`; without one it hands nothing. -/
theorem sendMail_contract (m : Mailer) (cfg : MailConfig) (recipient : Option String)
    (subject html : String) :
    (truthyStr recipient = false →
        m.sendMail cfg recipient subject html = (m, .error "Missing recipient"))
    ∧ (∀ r, recipient = some r → r ≠ "" →
        (m.transporter.isSome = true ∨ truthyStr cfg.smtpHost = true
          ∨ cfg.testAccount.isSome = true) →
        ∃ tx, (m.sendMail cfg recipient subject html).1.handed
            = m.handed ++ [(tx, ⟨fromAddress cfg, r, subject, html⟩)]
          ∧ (m.sendMail cfg recipient subject html).1.transporter = some tx
          ∧ (m.transporter.isSome = true → m.transporter = some tx))
    ∧ (∀ r, recipient = some r → r ≠ "" →
        ¬ (m.transporter.isSome = true ∨ truthyStr cfg.smtpHost = true
          ∨ cfg.testAccount.isSome = true) →
        (m.sendMail cfg recipient subject html).1 = m
          ∧ ∃ e, (m.sendMail cfg recipient subject html).2 = .error e) := by
  refine ⟨fun h => ?_, fun r hr hne hav => ?_, fun r hr hne hno => ?_⟩
  · unfold Mailer.sendMail
    simp [h]
  · subst hr
    have ht : truthyStr (some r) = true := by simp [truthyStr, hne]
    obtain ⟨m1, tx, hens⟩ := ensureTransporter_available cfg m hav
    obtain ⟨hh, htx⟩ := ensureTransporter_handed cfg m m1 tx hens
    refine ⟨tx, ?_, ?_, ?_⟩
    · unfold Mailer.sendMail
      simp only [ht, Bool.not_true, Bool.false_eq_true, if_false, hens, Option.getD_some]
      split <;> simp [hh]
    · unfold Mailer.sendMail
      simp only [ht, Bool.not_true, Bool.false_eq_true, if_false, hens, Option.getD_some]
      split <;> simp [htx]
    · intro hsome
      unfold ensureTransporter at hens
      cases hm : m.transporter with
      | none => rw [hm] at hsome; simp at hsome
      | some tx0 =>
        rw [hm] at hens
        simp only [Except.ok.injEq, Prod.mk.injEq] at hens
        rw [hens.2]
  · subst hr
    have ht : truthyStr (some r) = true := by simp [truthyStr, hne]
    have h1 : m.transporter = none := by
      cases hm : m.transporter with
      | none => rfl
      | some _ => exact absurd (Or.inl (by simp [hm])) hno
    have h2 : truthyStr cfg.smtpHost = false := by
      cases hh : truthyStr cfg.smtpHost with
      | false => rfl
      | true => exact absurd (Or.inr (Or.inl hh)) hno
    have h3 : cfg.testAccount = none := by
      cases hm : cfg.testAccount with
      | none => rfl
      | some _ => exact absurd (Or.inr (Or.inr (by simp [hm]))) hno
    unfold Mailer.sendMail ensureTransporter
    simp [ht, h1, h2, h3]

theorem sendMail_contract_witness :
    freshMailer.sendMail sampleMailConfig (some "") "Receipt" "<p>Thanks</p>"
        = (freshMailer, .error "Missing recipient")
    ∧ ∃ tx, (freshMailer.sendMail sampleMailConfig (some "bo@hopenest.org") "Receipt"
          "<p>Thanks</p>").1.handed
        = freshMailer.handed ++ [(tx, ⟨fromAddress sampleMailConfig, "bo@hopenest.org",
            "Receipt", "<p>Thanks</p>"⟩)]
      ∧ (freshMailer.sendMail sampleMailConfig (some "bo@hopenest.org") "Receipt"
          "<p>Thanks</p>").1.transporter = some tx
      ∧ (freshMailer.transporter.isSome = true → freshMailer.transporter = some tx) :=
  ⟨(sendMail_contract freshMailer sampleMailConfig (some "") "Receipt" "<p>Thanks</p>").1
      (by decide),
   (sendMail_contract freshMailer sampleMailConfig (some "bo@hopenest.org") "Receipt"
      "<p>Thanks</p>").2.1 "bo@hopenest.org" rfl (by decide) (Or.inr (Or.inl (by decide)))⟩

/-- C21 (counterexample). No `SMTP_HOST` is set and `createTestAccount`
throws: `sendMail` with the non-empty recipient `bo@hopenest.org` throws
before `tx.sendMail` is reached, so no message is handed to any transport and
the module keeps no transport. -/
theorem sendMail_hands_nothing_without_transport :
    truthyStr (some "bo@hopenest.org") = true
    ∧ freshMailer.sendMail offlineMailConfig (some "bo@hopenest.org") "Receipt"
        "<p>Thanks</p>" = (freshMailer, .error "createTestAccount failed")
    ∧ (freshMailer.sendMail offlineMailConfig (some "bo@hopenest.org") "Receipt"
        "<p>Thanks</p>").1.handed = []
    ∧ (freshMailer.sendMail offlineMailConfig (some "bo@hopenest.org") "Receipt"
        "<p>Thanks</p>").1.transporter = none := by
  refine ⟨by decide, rfl, rfl, rfl⟩

/-! ### The life of a user record -/

theorem keepsUsers_refl (s : Store) : s.keepsUsers s :=
  fun u hu => ⟨u, hu, rfl⟩

theorem keepsUsers_of_eq (s t : Store) (h : t.users = s.users) : s.keepsUsers t :=
  fun u hu => ⟨u, by rw [h]; exact hu, rfl⟩

theorem keepsUsers_trans (s t r : Store) (h1 : s.keepsUsers t) (h2 : t.keepsUsers r) :
    s.keepsUsers r := by
  intro u hu
  obtain ⟨w, hw, hwu⟩ := h1 u hu
  obtain ⟨v, hv, hvw⟩ := h2 w hw
  exact ⟨v, hv, by rw [hvw, hwu]⟩

theorem replaceFirst_keeps_id (h : User) :
    ∀ (l : List User), ∀ u ∈ l,
      ∃ w ∈ replaceFirst (fun d => d._id == h._id) (fun _ => h) l, w._id = u._id := by
  intro l
  induction l with
  | nil => intro u hu; simp at hu
  | cons x xs ih =>
    intro u hu
    by_cases hx : x._id = h._id
    · have hp : (x._id == h._id) = true := by simpa using hx
      simp only [replaceFirst, hp, if_true]
      rcases List.mem_cons.mp hu with h1 | h1
      · exact ⟨h, List.mem_cons_self _ _, by rw [h1, hx]⟩
      · exact ⟨u, List.mem_cons_of_mem _ h1, rfl⟩
    · have hp : (x._id == h._id) = false := by simpa using hx
      simp only [replaceFirst, hp, Bool.false_eq_true, if_false]
      rcases List.mem_cons.mp hu with h1 | h1
      · exact ⟨x, List.mem_cons_self _ _, by rw [h1]⟩
      · obtain ⟨w, hw, hwu⟩ := ih u h1
        exact ⟨w, List.mem_cons_of_mem _ hw, hwu⟩

theorem keepsUsers_putUser (s : Store) (h : User) : s.keepsUsers (s.putUser h) :=
  fun u hu => replaceFirst_keeps_id h s.users u hu

theorem keepsUsers_withNewUser (s s1 : Store) (h : User) (hs : s1.users = s.users ++ [h]) :
    s.keepsUsers s1 :=
  fun u hu => ⟨u, by rw [hs]; exact List.mem_append_left _ hu, rfl⟩

theorem mem_removeFirst_of_false {α : Type} (p : α → Bool) :
    ∀ (l : List α) (u : α), u ∈ l → p u = false → u ∈ removeFirst p l := by
  intro l
  induction l with
  | nil => intro u hu; simp at hu
  | cons x xs ih =>
    intro u hu hp
    by_cases hx : p x = true
    · simp only [removeFirst, hx, if_true]
      rcases List.mem_cons.mp hu with h1 | h1
      · rw [h1, hx] at hp; exact absurd hp (by simp)
      · exact h1
    · simp only [removeFirst, hx, if_false]
      rcases List.mem_cons.mp hu with h1 | h1
      · rw [h1]; exact List.mem_cons_self _ _
      · exact List.mem_cons_of_mem _ (ih u h1 hp)

theorem saveUser_keepsUsers (s s1 : Store) (u : User) (m : Bool)
    (h : saveUser s u m = some s1) : s.keepsUsers s1 := by
  obtain ⟨w, hw, _⟩ := saveUser_spec s s1 u m h
  rw [hw]
  exact keepsUsers_putUser s w

theorem createUser_keepsUsers (env : Env) (s s1 : Store) (data : Body) (u : User)
    (h : createUser env s data = some (s1, u)) : s.keepsUsers s1 :=
  keepsUsers_withNewUser s s1 u (createUser_spec env s s1 data u h).1

theorem profileSave_keepsUsers (s s1 : Store) (user u1 : User) (m : Bool)
    (h : profileSave s user u1 m = some (some s1)) : s.keepsUsers s1 := by
  unfold profileSave at h
  split at h
  · split at h
    · exact absurd h (by simp)
    · split at h
      · exact absurd h (by simp)
      · simp only [Option.some.injEq] at h
        subst h; exact keepsUsers_putUser s _
  · simp at h

theorem signup_keepsUsers (env : Env) (s : Store) (body : Body) :
    s.keepsUsers (signup env s body).1 := by
  unfold signup
  repeat' split
  all_goals first
    | exact keepsUsers_refl _
    | exact createUser_keepsUsers _ _ _ _ _ ‹_›

theorem apiUserCreate_keepsUsers (env : Env) (s : Store) (body : Body) :
    s.keepsUsers (apiUserCreate env s body).1 := by
  unfold apiUserCreate
  repeat' split
  all_goals first
    | exact keepsUsers_refl _
    | exact createUser_keepsUsers _ _ _ _ _ ‹_›

theorem resetPassword_keepsUsers (env : Env) (s : Store) (body : Body) :
    s.keepsUsers (resetPassword env s body).1 := by
  unfold resetPassword
  repeat' split
  all_goals first
    | exact keepsUsers_refl _
    | exact saveUser_keepsUsers _ _ _ _ ‹_›

theorem requestReset_keepsUsers (env : Env) (s : Store) (body : Body) :
    s.keepsUsers (requestReset env s body).1 := by
  unfold requestReset
  repeat' split
  all_goals first
    | exact keepsUsers_refl _
    | exact saveUser_keepsUsers _ _ _ _ ‹_›

theorem profileUpdate_keepsUsers (env : Env) (s : Store) (authorization : Option String)
    (body : Body) : s.keepsUsers (profileUpdate env s authorization body).1 := by
  unfold profileUpdate
  repeat' split
  all_goals first
    | exact keepsUsers_refl _
    | exact profileSave_keepsUsers _ _ _ _ _ ‹_›

theorem apiUserUpdate_keepsUsers (s : Store) (id : String) (body : Body) :
    s.keepsUsers (apiUserUpdate s id body).1 := by
  unfold apiUserUpdate
  repeat' split
  all_goals first
    | exact keepsUsers_refl _
    | exact keepsUsers_putUser _ _

theorem facebookCreate_keepsUsers (env : Env) (s : Store) (profile : Profile) :
    s.keepsUsers (facebookCreate env s profile).1 := by
  unfold facebookCreate
  repeat' split
  all_goals first
    | exact keepsUsers_refl _
    | exact createUser_keepsUsers _ _ _ _ _ ‹_›

theorem googleVerify_keepsUsers (env : Env) (s : Store) (profile : Profile) :
    s.keepsUsers (googleVerify env s profile).1 := by
  unfold googleVerify
  repeat' split
  all_goals first
    | exact keepsUsers_refl _
    | exact createUser_keepsUsers _ _ _ _ _ ‹_›
    | exact saveUser_keepsUsers _ _ _ _ ‹_›

theorem facebookVerify_keepsUsers (env : Env) (s : Store) (profile : Profile) :
    s.keepsUsers (facebookVerify env s profile).1 := by
  unfold facebookVerify
  repeat' split
  all_goals first
    | exact keepsUsers_refl _
    | exact facebookCreate_keepsUsers _ _ _
    | exact saveUser_keepsUsers _ _ _ _ ‹_›

theorem createCampaign_users (env : Env) (s s1 : Store) (data : Body) (c : Campaign)
    (h : createCampaign env s data = some (s1, c)) : s1.users = s.users := by
  unfold createCampaign at h
  split at h
  · exact absurd h (by simp)
  · split at h
    · simp only [Option.some.injEq, Prod.mk.injEq] at h
      obtain ⟨rfl, _⟩ := h
      rfl
    · exact absurd h (by simp)

theorem findOneAndUpdate_users (env : Env) (s s1 : Store) (filter : Campaign → Bool)
    (update : Body) (c : Campaign)
    (h : findOneAndUpdate env s filter update = some (some (s1, c))) :
    s1.users = s.users := by
  unfold findOneAndUpdate at h
  split at h
  · exact absurd h (by simp)
  · split at h
    · simp at h
    · simp only [Option.some.injEq, Prod.mk.injEq] at h
      obtain ⟨rfl, _⟩ := h
      rfl

theorem findOneAndDelete_users (s s1 : Store) (filter : Campaign → Bool) (c : Campaign)
    (h : findOneAndDelete s filter = some (s1, c)) : s1.users = s.users := by
  unfold findOneAndDelete at h
  split at h
  · exact absurd h (by simp)
  · simp only [Option.some.injEq, Prod.mk.injEq] at h
    obtain ⟨rfl, _⟩ := h
    rfl

theorem saveCampaign_users (env : Env) (s s1 : Store) (c : Campaign)
    (h : saveCampaign env s c = some s1) : s1.users = s.users := by
  unfold saveCampaign at h
  split at h
  · simp only [Option.some.injEq] at h
    subst h; rfl
  · exact absurd h (by simp)

theorem createDonation_users (env : Env) (s s1 : Store) (data : Body) (d : Donation)
    (h : createDonation env s data = some (s1, d)) : s1.users = s.users := by
  unfold createDonation at h
  split at h
  · exact absurd h (by simp)
  · split at h
    · simp only [Option.some.injEq, Prod.mk.injEq] at h
      obtain ⟨rfl, _⟩ := h
      rfl
    · exact absurd h (by simp)

theorem updateCampaignAmount_users (env : Env) (s s1 : Store) (body : Body)
    (h : updateCampaignAmount env s body = some s1) : s1.users = s.users := by
  unfold updateCampaignAmount at h
  split at h
  · exact absurd h (by simp)
  · simp only [Option.some.injEq] at h
    subst h; rfl
  · split at h
    · simp only [Option.some.injEq] at h
      subst h; rfl
    · split at h
      · exact absurd h (by simp)
      · exact saveCampaign_users _ _ _ _ h
      · exact saveCampaign_users _ _ _ _ h

theorem apiCampaignCreate_users (env : Env) (s : Store) (body : Body) :
    (apiCampaignCreate env s body).1.users = s.users := by
  unfold apiCampaignCreate
  repeat' split
  all_goals first
    | rfl
    | exact createCampaign_users _ _ _ _ _ ‹_›

theorem apiCampaignUpdate_users (env : Env) (s : Store) (id : String) (body : Body) :
    (apiCampaignUpdate env s id body).1.users = s.users := by
  unfold apiCampaignUpdate
  repeat' split
  all_goals first
    | rfl
    | exact findOneAndUpdate_users _ _ _ _ _ _ ‹_›

theorem apiCampaignDelete_users (s : Store) (id : String) :
    (apiCampaignDelete s id).1.users = s.users := by
  unfold apiCampaignDelete
  repeat' split
  all_goals first
    | rfl
    | exact findOneAndDelete_users _ _ _ _ ‹_›

theorem applyHandler_users (env : Env) (s : Store) (userId : JVal) (body : Body)
    (names : List String) : (applyHandler env s userId body names).1.users = s.users := by
  unfold applyHandler
  repeat' split
  all_goals first
    | rfl
    | exact createCampaign_users _ _ _ _ _ ‹_›

theorem cfApply_users (env : Env) (s : Store) (authorization : Option String)
    (files : List UploadFile) (body : Body) :
    (cfApply env s authorization files body).1.users = s.users := by
  unfold cfApply
  repeat' split
  all_goals first
    | rfl
    | exact applyHandler_users _ _ _ _ _

theorem cfVerifyEmail_users (env : Env) (s : Store) (query : Body) :
    (cfVerifyEmail env s query).1.users = s.users := by
  unfold cfVerifyEmail
  repeat' split
  all_goals first
    | rfl
    | exact saveCampaign_users _ _ _ _ ‹_›

theorem cfCreate_users (env : Env) (s : Store) (authorization : Option String) (body : Body) :
    (cfCreate env s authorization body).1.users = s.users := by
  unfold cfCreate
  repeat' split
  all_goals first
    | rfl
    | exact createCampaign_users _ _ _ _ _ ‹_›

theorem cfUpdate_users (env : Env) (s : Store) (authorization : Option String) (id : String)
    (body : Body) : (cfUpdate env s authorization id body).1.users = s.users := by
  unfold cfUpdate
  repeat' split
  all_goals first
    | rfl
    | exact findOneAndUpdate_users _ _ _ _ _ _ ‹_›

theorem cfDelete_users (env : Env) (s : Store) (authorization : Option String) (id : String) :
    (cfDelete env s authorization id).1.users = s.users := by
  unfold cfDelete
  repeat' split
  all_goals first
    | rfl
    | exact findOneAndDelete_users _ _ _ _ ‹_›

theorem cfApprove_users (env : Env) (s : Store) (authorization : Option String)
    (id : String) : (cfApprove env s authorization id).1.users = s.users := by
  unfold cfApprove
  repeat' split
  all_goals first
    | rfl
    | exact findOneAndUpdate_users _ _ _ _ _ _ ‹_›

theorem cfReject_users (env : Env) (s : Store) (authorization : Option String) (id : String)
    (body : Body) : (cfReject env s authorization id body).1.users = s.users := by
  unfold cfReject
  repeat' split
  all_goals first
    | rfl
    | exact findOneAndUpdate_users _ _ _ _ _ _ ‹_›

theorem postDonation_users (env : Env) (s : Store) (authorization : Option String)
    (body : Body) : (postDonation env s authorization body).1.users = s.users := by
  unfold postDonation
  split
  · rfl
  · split
    · rfl
    · rename_i s1 donation hd
      have h1 := createDonation_users _ _ _ _ _ hd
      have h2 : (if truthy (body.get "campaignId") = true then
            match updateCampaignAmount env s1 body with
            | some s2 => s2
            | none => s1
          else s1).users = s.users := by
        split
        · split
          · rename_i s2 hs2
            rw [updateCampaignAmount_users _ _ _ _ hs2, h1]
          · exact h1
        · exact h1
      simp only
      split <;> exact h2

theorem accountDelete_keeps (env : Env) (s : Store) (authorization : Option String)
    (i : Nat) (hop : (Op.accountDelete authorization).removesUser env i = false)
    (u : User) (hu : u ∈ s.users) (hi : u._id = i) :
    ∃ w ∈ (accountDelete env s authorization).1.users, w._id = i := by
  simp only [Op.removesUser] at hop
  unfold accountDelete
  cases ht : inlineToken authorization with
  | none => exact ⟨u, hu, hi⟩
  | some token =>
    rw [ht] at hop
    simp only at hop ⊢
    split
    · exact ⟨u, hu, hi⟩
    · cases hj : jwtVerify env token with
      | error e => exact ⟨u, hu, hi⟩
      | ok decoded =>
        rw [hj] at hop
        simp only at hop ⊢
        cases hc : castObjectId (decoded.get "userId") with
        | error => exact ⟨u, hu, hi⟩
        | absent => exact ⟨u, hu, hi⟩
        | value j =>
          rw [hc] at hop
          simp only at hop ⊢
          refine ⟨u, mem_removeFirst_of_false _ s.users u hu ?_, hi⟩
          have hji : (j == i) = false := hop
          have hne : j ≠ i := by simpa using hji
          have : u._id ≠ j := by rw [hi]; exact fun h => hne h.symm
          simpa using this

theorem apiUserDelete_keeps (env : Env) (s : Store) (id : String)
    (i : Nat) (hop : (Op.apiUserDelete id).removesUser env i = false)
    (u : User) (hu : u ∈ s.users) (hi : u._id = i) :
    ∃ w ∈ (apiUserDelete s id).1.users, w._id = i := by
  simp only [Op.removesUser] at hop
  unfold apiUserDelete
  cases hc : castIdParam id with
  | none => exact ⟨u, hu, hi⟩
  | some j =>
    rw [hc] at hop
    simp only
    split
    · exact ⟨u, hu, hi⟩
    · refine ⟨u, mem_removeFirst_of_false _ s.users u hu ?_, hi⟩
      have hne : j ≠ i := by simpa using hop
      have : u._id ≠ j := by rw [hi]; exact fun h => hne h.symm
      simpa using this

theorem step_keeps_user (env : Env) (s : Store) (op : Op) (i : Nat)
    (hop : op.removesUser env i = false) (u : User) (hu : u ∈ s.users) (hi : u._id = i) :
    ∃ w ∈ (step env s op).users, w._id = i := by
  have hk : ∀ t : Store, s.keepsUsers t → ∃ w ∈ t.users, w._id = i := by
    intro t ht
    obtain ⟨w, hw, hwu⟩ := ht u hu
    exact ⟨w, hw, by rw [hwu, hi]⟩
  have he : ∀ t : Store, t.users = s.users → ∃ w ∈ t.users, w._id = i :=
    fun t ht => hk t (keepsUsers_of_eq s t ht)
  cases op with
  | apiCampaignCreate body => exact he _ (apiCampaignCreate_users env s body)
  | apiCampaignUpdate id body => exact he _ (apiCampaignUpdate_users env s id body)
  | apiCampaignDelete id => exact he _ (apiCampaignDelete_users s id)
  | cfApply a files body => exact he _ (cfApply_users env s a files body)
  | cfVerifyEmail query => exact he _ (cfVerifyEmail_users env s query)
  | cfCreate a body => exact he _ (cfCreate_users env s a body)
  | cfUpdate a id body => exact he _ (cfUpdate_users env s a id body)
  | cfDelete a id => exact he _ (cfDelete_users env s a id)
  | cfApprove a id => exact he _ (cfApprove_users env s a id)
  | cfReject a id body => exact he _ (cfReject_users env s a id body)
  | postDonation a body => exact he _ (postDonation_users env s a body)
  | signup body => exact hk _ (signup_keepsUsers env s body)
  | profileUpdate a body => exact hk _ (profileUpdate_keepsUsers env s a body)
  | accountDelete a => exact accountDelete_keeps env s a i hop u hu hi
  | requestReset body => exact hk _ (requestReset_keepsUsers env s body)
  | resetPassword body => exact hk _ (resetPassword_keepsUsers env s body)
  | apiUserCreate body => exact hk _ (apiUserCreate_keepsUsers env s body)
  | apiUserUpdate id body => exact hk _ (apiUserUpdate_keepsUsers s id body)
  | apiUserDelete id => exact apiUserDelete_keeps env s id i hop u hu hi
  | googleLogin profile => exact hk _ (googleVerify_keepsUsers env s profile)
  | facebookLogin profile => exact hk _ (facebookVerify_keepsUsers env s profile)

theorem run_keeps_user (i : Nat) :
    ∀ (ops : List (Env × Op)) (s : Store),
      (∀ eo ∈ ops, eo.2.removesUser eo.1 i = false) →
      (∃ u ∈ s.users, u._id = i) → ∃ w ∈ (run s ops).users, w._id = i := by
  intro ops
  induction ops with
  | nil => intro s _ h; exact h
  | cons eo rest ih =>
    intro s hops hu
    obtain ⟨u, hu1, hu2⟩ := hu
    have h1 := step_keeps_user eo.1 s eo.2 i (hops eo (List.mem_cons_self _ _)) u hu1 hu2
    exact ih (step eo.1 s eo.2) (fun x hx => hops x (List.mem_cons_of_mem _ hx)) h1

/-- C22 (counterexample). `DELETE /api/users/2`, which reads no token at all,
removes user `2` from the store. -/
theorem user_removed_by_admin_delete :
    sampleUser ∈ sampleStore.users
      ∧ (apiUserDelete sampleStore "2").2 = ⟨200, .message "User deleted successfully"⟩
      ∧ (step sampleEnv sampleStore (Op.apiUserDelete "2")).users = [sampleAdmin]
      ∧ ¬ ∃ w ∈ (step sampleEnv sampleStore (Op.apiUserDelete "2")).users, w._id = 2 := by
  decide

/-- C22 (amended). A user is removed from the store only by a delete route
aimed at that user: `DELETE /api/auth/delete` with a token that verifies and
names the user, or `DELETE /api/users/:id` with the id of the user.  After
every other operation of the HTTP surface, and after every sequence of such
operations, a user under each `_id` that was there is still there. -/
theorem user_removed_only_by_delete_routes (s : Store) (i : Nat) (u : User)
    (hu : u ∈ s.users) (hi : u._id = i) :
    (∀ (env : Env) (op : Op), op.removesUser env i = false →
        ∃ w ∈ (step env s op).users, w._id = i)
    ∧ (∀ ops : List (Env × Op), (∀ eo ∈ ops, eo.2.removesUser eo.1 i = false) →
        ∃ w ∈ (run s ops).users, w._id = i) :=
  ⟨fun env op hop => step_keeps_user env s op i hop u hu hi,
   fun ops hops => run_keeps_user i ops s hops ⟨u, hu, hi⟩⟩

theorem user_removed_only_by_delete_routes_witness :
    (∃ w ∈ (step sampleEnv sampleStore (Op.apiUserDelete "1")).users, w._id = 2)
    ∧ (∃ w ∈ (run sampleStore
          [(sampleEnv, Op.accountDelete (some "Bearer admin-token")),
           (sampleEnv, Op.resetPassword
              [("email", .str "bo@hopenest.org"), ("token", .str "ABC123"),
               ("newPassword", .str "fresh")]),
           (sampleEnv, Op.apiUserUpdate "2" [("name", .str "Bob")])]).users, w._id = 2) :=
  ⟨(user_removed_only_by_delete_routes sampleStore 2 sampleUser (by decide) rfl).1
      sampleEnv (Op.apiUserDelete "1") (by decide),
   (user_removed_only_by_delete_routes sampleStore 2 sampleUser (by decide) rfl).2 _
      (by decide)⟩

/-! ### User administration, the error handler and required fields -/

/-- C23 (code at the failing input). `GET /api/users` and `POST /api/users`
are mounted without a middleware and read no `Authorization` header: a
request without a token gets the list of all users, and a request without a
token creates a user, here one with the role `admin`. -/
theorem user_administration_is_open :
    apiUsers sampleStore
        = ⟨200, .users [sampleAdmin.withPassword none, sampleUser.withPassword none]⟩
      ∧ (apiUserCreate sampleEnv sampleStore
          [("name", .str "Eve"), ("email", .str "eve@hopenest.org"),
           ("password", .str "evepw"), ("role", .str "admin")]).2.status = 201
      ∧ (apiUserCreate sampleEnv sampleStore
          [("name", .str "Eve"), ("email", .str "eve@hopenest.org"),
           ("password", .str "evepw"), ("role", .str "admin")]).1.users
        = [sampleAdmin, sampleUser,
            ⟨13, some "Eve", some "eve@hopenest.org", some (.hash "evepw"), none, none,
             some "", some "local", some "admin", some false, none, none, some 1000000⟩] := by
  decide

/-- What `GET /api/users` answers over every store: status 200 and one entry
per user, in store order, each without its `password`. -/
theorem apiUsers_lists_all (s : Store) :
    (apiUsers s).status = 200
      ∧ ∃ l, (apiUsers s).body = .users l ∧ l.length = s.users.length
          ∧ l.map (fun u => u._id) = s.users.map (fun u => u._id)
          ∧ ∀ u ∈ l, u.password = none := by
  refine ⟨rfl, _, rfl, by simp, by simp [Function.comp, User.withPassword], ?_⟩
  intro u hu
  simp only [List.mem_map] at hu
  obtain ⟨v, _, rfl⟩ := hu
  rfl

/-- C24 (counterexample). With `NODE_ENV` unset, and with `NODE_ENV=test`,
the error handler answers 500 with the message and the stack of the error. -/
theorem error_handler_leaks_outside_production :
    globalErrorHandler none ⟨"connect ECONNREFUSED", "Error: connect ECONNREFUSED at db.js:12"⟩
        = (500, ⟨"connect ECONNREFUSED", some "Error: connect ECONNREFUSED at db.js:12"⟩)
      ∧ globalErrorHandler (some "test")
          ⟨"connect ECONNREFUSED", "Error: connect ECONNREFUSED at db.js:12"⟩
        = (500, ⟨"connect ECONNREFUSED", some "Error: connect ECONNREFUSED at db.js:12"⟩) := by
  decide

/-- C24 (amended). The error handler answers every unhandled error with 500.
When `NODE_ENV` is `production` the body is the fixed text
"Internal server error" and has no `stack`; for every other value of
`NODE_ENV`, and when it is unset, the body carries the message and the stack
of the error. -/
theorem error_handler_hides_detail_in_production (nodeEnv : Option String) (err : JsError) :
    (globalErrorHandler nodeEnv err).1 = 500
      ∧ (nodeEnv = some "production" →
          (globalErrorHandler nodeEnv err).2 = ⟨"Internal server error", none⟩)
      ∧ (nodeEnv ≠ some "production" →
          (globalErrorHandler nodeEnv err).2 = ⟨err.message, some err.stack⟩) := by
  unfold globalErrorHandler
  by_cases h : nodeEnv = some "production"
  · simp [h]
  · have h' : (nodeEnv == some "production") = false := by simpa using h
    simp [h, h']

theorem error_handler_hides_detail_in_production_witness :
    (globalErrorHandler (some "production") ⟨"boom", "Error: boom at x.js:1"⟩).2
        = ⟨"Internal server error", none⟩
      ∧ (globalErrorHandler (some "development") ⟨"boom", "Error: boom at x.js:1"⟩).2
        = ⟨"boom", some "Error: boom at x.js:1"⟩ :=
  ⟨(error_handler_hides_detail_in_production (some "production")
      ⟨"boom", "Error: boom at x.js:1"⟩).2.1 rfl,
   (error_handler_hides_detail_in_production (some "development")
      ⟨"boom", "Error: boom at x.js:1"⟩).2.2 (by decide)⟩

theorem signup_required (env : Env) (s : Store) (body : Body)
    (h : truthy (body.get "name") = false ∨ truthy (body.get "email") = false
      ∨ truthy (body.get "password") = false) :
    signup env s body = (s, ⟨400, .message "Name, email, and password are required"⟩) := by
  unfold signup
  rcases h with h | h | h <;> simp [h]

theorem truthy_missing_or_empty (v : JVal) (h : v = JVal.undefined ∨ v = JVal.str "") :
    truthy v = false := by
  rcases h with h | h <;> subst h <;> rfl

/-- C25. A login request whose email or password is missing or empty is
answered 400 "Email and password are required", whatever the store holds (no
user is looked up); a signup request whose name, email or password is
missing or empty is answered 400 "Name, email, and password are required"
and the store is left as it is (no user is created).  Neither answer carries
a token. -/
theorem required_fields_checked_first (env : Env) (s t : Store) (body : Body) :
    (((body.get "email" = .undefined ∨ body.get "email" = .str "")
        ∨ (body.get "password" = .undefined ∨ body.get "password" = .str "")) →
      login s body = ⟨400, .message "Email and password are required"⟩
        ∧ login s body = login t body
        ∧ ∀ i n, (login s body).body ≠ .session i n)
    ∧ (((body.get "name" = .undefined ∨ body.get "name" = .str "")
        ∨ (body.get "email" = .undefined ∨ body.get "email" = .str "")
        ∨ (body.get "password" = .undefined ∨ body.get "password" = .str "")) →
      signup env s body = (s, ⟨400, .message "Name, email, and password are required"⟩)
        ∧ (signup env s body).2 = (signup env t body).2
        ∧ ∀ i n, (signup env s body).2.body ≠ .session i n) := by
  refine ⟨fun h => ?_, fun h => ?_⟩
  · have ht : truthy (body.get "email") = false ∨ truthy (body.get "password") = false := by
      rcases h with h | h
      · exact Or.inl (truthy_missing_or_empty _ h)
      · exact Or.inr (truthy_missing_or_empty _ h)
    rw [login_required s body ht, login_required t body ht]
    exact ⟨rfl, rfl, fun i n => by simp⟩
  · have ht : truthy (body.get "name") = false ∨ truthy (body.get "email") = false
        ∨ truthy (body.get "password") = false := by
      rcases h with h | h | h
      · exact Or.inl (truthy_missing_or_empty _ h)
      · exact Or.inr (Or.inl (truthy_missing_or_empty _ h))
      · exact Or.inr (Or.inr (truthy_missing_or_empty _ h))
    rw [signup_required env s body ht, signup_required env t body ht]
    exact ⟨rfl, rfl, fun i n => by simp⟩

theorem required_fields_checked_first_witness :
    login sampleStore [("password", .str "bopw")]
        = ⟨400, .message "Email and password are required"⟩
      ∧ signup sampleEnv sampleStore
          [("name", .str "Flo"), ("email", .str "flo@hopenest.org"), ("password", .str "")]
        = (sampleStore, ⟨400, .message "Name, email, and password are required"⟩) :=
  ⟨((required_fields_checked_first sampleEnv sampleStore sampleStore
      [("password", .str "bopw")]).1 (Or.inl (Or.inl (by rfl)))).1,
   ((required_fields_checked_first sampleEnv sampleStore sampleStore
      [("name", .str "Flo"), ("email", .str "flo@hopenest.org"), ("password", .str "")]).2
      (Or.inr (Or.inr (Or.inr (by rfl))))).1⟩

/-! ### The donation record -/

theorem newDonation_fields (env : Env) (id : Nat) (userId : JVal) (body : Body)
    (d : Donation) (h : newDonation env id (("userId", userId) :: body) = some d) :
    d._id = id
      ∧ d.userId = (pathOr castObjectId none userId).join
      ∧ d.amount = (pathOr castNumber none (body.get "amount")).join
      ∧ d.type = (pathOr castString none (body.get "type")).join
      ∧ d.name = (pathOr castString none (body.get "name")).join
      ∧ d.email = (pathOr castString none (body.get "email")).join
      ∧ d.phone = (pathOr castString none (body.get "phone")).join
      ∧ d.paymentMethod = (pathOr castString none (body.get "paymentMethod")).join
      ∧ d.reminder = (pathOr castBoolean (some false) (body.get "reminder")).join
      ∧ d.date = (pathOr (castDate env.parseDate) (some env.now) (body.get "date")).join
      ∧ d.status = (pathOr castString (some "completed") (body.get "status")).join
      ∧ d.campaignId = (pathOr castObjectId none (body.get "campaignId")).join := by
  unfold newDonation at h
  simp only [get_cons, String.reduceEq, if_false, if_true] at h
  split at h
  · simp only [Option.some.injEq] at h
    rw [← h]
    exact ⟨rfl, rfl, rfl, rfl, rfl, rfl, rfl, rfl, rfl, rfl, rfl, rfl⟩
  · exact absurd h (by simp)

theorem createDonation_spec (env : Env) (s s1 : Store) (data : Body) (d : Donation)
    (h : createDonation env s data = some (s1, d)) :
    newDonation env s.nextId data = some d ∧ s1.donations = s.donations ++ [d] := by
  unfold createDonation at h
  split at h
  · exact absurd h (by simp)
  · rename_i d0 hd
    split at h
    · simp only [Option.some.injEq, Prod.mk.injEq] at h
      obtain ⟨rfl, rfl⟩ := h
      exact ⟨hd, rfl⟩
    · exact absurd h (by simp)

theorem saveCampaign_donations (env : Env) (s s1 : Store) (c : Campaign)
    (h : saveCampaign env s c = some s1) : s1.donations = s.donations := by
  unfold saveCampaign at h
  split at h
  · simp only [Option.some.injEq] at h
    subst h; rfl
  · exact absurd h (by simp)

theorem updateCampaignAmount_donations (env : Env) (s s1 : Store) (body : Body)
    (h : updateCampaignAmount env s body = some s1) : s1.donations = s.donations := by
  unfold updateCampaignAmount at h
  split at h
  · exact absurd h (by simp)
  · simp only [Option.some.injEq] at h
    subst h; rfl
  · split at h
    · simp only [Option.some.injEq] at h
      subst h; rfl
    · split at h
      · exact absurd h (by simp)
      · exact saveCampaign_donations _ _ _ _ h
      · exact saveCampaign_donations _ _ _ _ h

theorem postDonation_outcome (env : Env) (s : Store) (authorization : Option String)
    (body : Body) (userId : JVal) (hauth : requireAuth env authorization = .ok userId) :
    postDonation env s authorization body = (s, ⟨500, .failure "Failed to process donation"⟩)
      ∨ ∃ d, newDonation env s.nextId (("userId", userId) :: body) = some d
          ∧ (postDonation env s authorization body).2 = ⟨201, .donation d⟩
          ∧ (postDonation env s authorization body).1.donations = s.donations ++ [d] := by
  unfold postDonation
  rw [hauth]
  simp only
  cases hc : createDonation env s (("userId", userId) :: body) with
  | none => exact Or.inl rfl
  | some p =>
    obtain ⟨s1, d⟩ := p
    obtain ⟨hnew, hdon⟩ := createDonation_spec env s s1 _ d hc
    refine Or.inr ⟨d, hnew, ?_, ?_⟩
    · simp only
      split <;> rfl
    · have h2 : (if truthy (body.get "campaignId") = true then
            match updateCampaignAmount env s1 body with
            | some s2 => s2
            | none => s1
          else s1).donations = s.donations ++ [d] := by
        split
        · split
          · rename_i s2 hs2
            rw [updateCampaignAmount_donations _ _ _ _ hs2, hdon]
          · exact hdon
        · exact hdon
      simp only
      split <;> exact h2

theorem pathOr_objectId_value (v : JVal) (i : Nat) (h : castObjectId v = .value i) :
    (pathOr castObjectId none v).join = some i := by
  cases v with
  | undefined => simp [castObjectId] at h
  | null => simp [castObjectId] at h
  | bool b => simp [castObjectId] at h
  | nan => simp [castObjectId] at h
  | arr xs => simp [castObjectId] at h
  | num n => simp only [pathOr, h]; rfl
  | str t => simp only [pathOr, h]; rfl
  | obj kvs => simp only [pathOr, h]; rfl

/-- C26. An authenticated donation request is answered 500 with nothing
saved, or 201 with one donation appended to the store.  The `userId` of the
saved donation is the cast of `req.userId`, the user id of the verified
token, whatever `userId` the body supplies; every other field is the cast of
the field of that name in the body, or the schema default when the body
leaves it out. -/
theorem donation_tied_to_token (env : Env) (s : Store) (authorization : Option String)
    (body : Body) (userId : JVal) (hauth : requireAuth env authorization = .ok userId) :
    postDonation env s authorization body = (s, ⟨500, .failure "Failed to process donation"⟩)
      ∨ ∃ d, (postDonation env s authorization body).2 = ⟨201, .donation d⟩
          ∧ (postDonation env s authorization body).1.donations = s.donations ++ [d]
          ∧ d.userId = (pathOr castObjectId none userId).join
          ∧ (∀ i, castObjectId userId = .value i → d.userId = some i)
          ∧ d.amount = (pathOr castNumber none (body.get "amount")).join
          ∧ d.type = (pathOr castString none (body.get "type")).join
          ∧ d.name = (pathOr castString none (body.get "name")).join
          ∧ d.email = (pathOr castString none (body.get "email")).join
          ∧ d.phone = (pathOr castString none (body.get "phone")).join
          ∧ d.paymentMethod = (pathOr castString none (body.get "paymentMethod")).join
          ∧ d.reminder = (pathOr castBoolean (some false) (body.get "reminder")).join
          ∧ d.date = (pathOr (castDate env.parseDate) (some env.now) (body.get "date")).join
          ∧ d.status = (pathOr castString (some "completed") (body.get "status")).join
          ∧ d.campaignId = (pathOr castObjectId none (body.get "campaignId")).join := by
  rcases postDonation_outcome env s authorization body userId hauth with h | ⟨d, hnew, hr, hs⟩
  · exact Or.inl h
  · obtain ⟨_, hu, ha, hty, hn, he, hp, hpm, hrem, hdate, hst, hc⟩ :=
      newDonation_fields env s.nextId userId body d hnew
    refine Or.inr ⟨d, hr, hs, hu, ?_, ha, hty, hn, he, hp, hpm, hrem, hdate, hst, hc⟩
    intro i hi
    rw [hu]
    exact pathOr_objectId_value userId i hi

theorem donation_tied_to_token_witness :
    ∃ d, (postDonation sampleEnv sampleStore (some "Bearer user-token")
        [("amount", .str "50.00"), ("type", .str "once"), ("name", .str "Bo"),
         ("email", .str "bo@hopenest.org"), ("phone", .str "555"),
         ("paymentMethod", .str "card"), ("userId", .str "1")]).2 = ⟨201, .donation d⟩
      ∧ d.userId = some 2 ∧ d.amount = some 50 :=
  ((donation_tied_to_token sampleEnv sampleStore (some "Bearer user-token")
    [("amount", .str "50.00"), ("type", .str "once"), ("name", .str "Bo"),
     ("email", .str "bo@hopenest.org"), ("phone", .str "555"),
     ("paymentMethod", .str "card"), ("userId", .str "1")] (JVal.str "2")
    (by rfl)).resolve_left (by decide)).imp
    (fun _ h => ⟨h.1, h.2.2.2.1 2 (by rfl), h.2.2.2.2.1.trans (by decide)⟩)

theorem donation_body_userId_ignored :
    (postDonation sampleEnv sampleStore (some "Bearer user-token")
        [("amount", .num 25), ("type", .str "once"), ("name", .str "Bo"),
         ("email", .str "bo@hopenest.org"), ("phone", .str "555"),
         ("paymentMethod", .str "card"), ("userId", .str "1")]).1.donations.map
      (fun d => d.userId) = [some 2] := by
  decide

/-! ### The guard of the verification link -/

theorem jwtVerifyQuery_some (env : Env) (v : JVal) (payload : Body)
    (h : jwtVerifyQuery env v = some payload) :
    ∃ t, v = JVal.str t ∧ jwtVerify env t = .ok payload := by
  cases v with
  | str t =>
    simp only [jwtVerifyQuery] at h
    cases hj : jwtVerify env t with
    | error e => rw [hj] at h; exact absurd h (by simp)
    | ok p =>
      rw [hj] at h
      simp only [Option.some.injEq] at h
      exact ⟨t, rfl, by rw [hj, h]⟩
  | undefined => exact absurd h (by simp [jwtVerifyQuery])
  | null => exact absurd h (by simp [jwtVerifyQuery])
  | bool b => exact absurd h (by simp [jwtVerifyQuery])
  | num n => exact absurd h (by simp [jwtVerifyQuery])
  | nan => exact absurd h (by simp [jwtVerifyQuery])
  | arr xs => exact absurd h (by simp [jwtVerifyQuery])
  | obj kvs => exact absurd h (by simp [jwtVerifyQuery])

theorem isStr_eq (v : JVal) (t : String) (h : v.isStr t = true) : v = JVal.str t := by
  cases v with
  | str u =>
    simp only [JVal.isStr, beq_iff_eq] at h
    rw [h]
  | undefined => exact absurd h (by simp [JVal.isStr])
  | null => exact absurd h (by simp [JVal.isStr])
  | bool b => exact absurd h (by simp [JVal.isStr])
  | num n => exact absurd h (by simp [JVal.isStr])
  | nan => exact absurd h (by simp [JVal.isStr])
  | arr xs => exact absurd h (by simp [JVal.isStr])
  | obj kvs => exact absurd h (by simp [JVal.isStr])

theorem idCond_some (w : CastResult Nat) (i : Nat) (h : idCond w (some i) = true) :
    w = .value i := by
  cases w with
  | error => exact absurd h (by simp [idCond])
  | absent => exact absurd h (by simp [idCond])
  | value j =>
    simp only [idCond, beq_iff_eq, Option.some.injEq] at h
    rw [h]

theorem verify_outcome (env : Env) (s : Store) (query : Body) :
    ((cfVerifyEmail env s query).1 = s
        ∧ ((cfVerifyEmail env s query).2.status = 400
          ∨ (cfVerifyEmail env s query).2.status = 404))
      ∨ ∃ c, verifyTarget env s query c
          ∧ ((c.emailVerified = some true
              ∧ cfVerifyEmail env s query = (s, ⟨200, .page "Email verified successfully"⟩))
            ∨ (c.emailVerified ≠ some true
              ∧ cfVerifyEmail env s query
                = (s.putCampaign (c.verified env.now),
                   ⟨200, .page "Email verified successfully"⟩))) := by
  unfold cfVerifyEmail
  by_cases htr : truthy (query.get "token") = true
  · simp only [htr, Bool.not_true, Bool.false_eq_true, if_false]
    cases hjq : jwtVerifyQuery env (query.get "token") with
    | none => exact Or.inl ⟨rfl, Or.inl rfl⟩
    | some payload =>
      obtain ⟨t, hq, hj⟩ := jwtVerifyQuery_some env _ payload hjq
      have hne : t ≠ "" := by
        intro h0
        rw [hq, h0] at htr
        simp [truthy] at htr
      simp only
      by_cases hty : (payload.get "t").isStr "cf_email_verify" = true
      · have htype := isStr_eq _ _ hty
        simp only [hty, Bool.not_true, Bool.false_eq_true, if_false]
        split
        · exact Or.inl ⟨rfl, Or.inl rfl⟩
        · exact Or.inl ⟨rfl, Or.inl rfl⟩
        · rename_i cid uid hncid hnuid
          split
          · exact Or.inl ⟨rfl, Or.inr rfl⟩
          · rename_i c hfind
            have hmem : c ∈ s.campaigns := List.mem_of_find?_eq_some hfind
            have hp := List.find?_some hfind
            simp only [Bool.and_eq_true] at hp
            have hcid := idCond_some _ _ hp.1.1
            have hcf : c.type = some "crowdfunding" := by
              have := hp.1.2
              simpa [isCrowdfunding] using this
            have htarget : verifyTarget env s query c :=
              ⟨t, payload, hq, hne, hj, htype, hmem, hcf, hcid, hp.2⟩
            by_cases hver : c.emailVerified = some true
            · refine Or.inr ⟨c, htarget, Or.inl ⟨hver, ?_⟩⟩
              simp [hver]
            · have hver' : (c.emailVerified != some true) = true := by simpa using hver
              simp only [hver', if_true]
              unfold saveCampaign
              by_cases hval : validateCampaign
                  (Campaign.mk c._id c.title c.description c.targetAmount c.currentAmount
                    c.startDate c.endDate c.imageUrl c.type c.category c.organizer c.status
                    c.documents c.rejectionReason (some true) c.createdAt c.updatedAt) = true
              · rw [if_pos hval]
                exact Or.inr ⟨c, htarget, Or.inr ⟨hver, rfl⟩⟩
              · rw [if_neg hval]
                exact Or.inl ⟨rfl, Or.inl rfl⟩
      · simp only [hty, Bool.not_false, if_true]
        first | exact Or.inl ⟨rfl, Or.inl rfl⟩ | exact Or.inl ⟨trivial, Or.inl trivial⟩
  · have htr' : truthy (query.get "token") = false := by simpa using htr
    simp only [htr', Bool.not_false, if_true]
    exact Or.inl ⟨trivial, Or.inl trivial⟩

/-- C27. `GET /verify-email` writes the store only when the token verifies,
has the type `cf_email_verify`, and its application id and owner id name a
crowdfunding record of the store whose organizer is that owner: the write
then sets `emailVerified` on that record and the answer is the success page.
In every other case (missing token, bad signature or expiry, wrong type, no
such record, another owner) the store is left as it is and the answer is
400 or 404: 400 "Missing token" without a token, 400 for a token that does
not verify, 400 "Invalid token" for another type, 404 when no record
matches. -/
theorem verify_email_guarded (env : Env) (s : Store) (query : Body) :
    ((¬ ∃ c, verifyTarget env s query c) →
        (cfVerifyEmail env s query).1 = s
          ∧ ((cfVerifyEmail env s query).2.status = 400
            ∨ (cfVerifyEmail env s query).2.status = 404))
    ∧ ((cfVerifyEmail env s query).1 ≠ s →
        ∃ c, verifyTarget env s query c ∧ c.emailVerified ≠ some true
          ∧ cfVerifyEmail env s query
            = (s.putCampaign (c.verified env.now),
               ⟨200, .page "Email verified successfully"⟩))
    ∧ (truthy (query.get "token") = false →
        cfVerifyEmail env s query = (s, ⟨400, .text "Missing token"⟩))
    ∧ (∀ t, query.get "token" = .str t → t ≠ "" → (∀ p, jwtVerify env t ≠ .ok p) →
        cfVerifyEmail env s query
          = (s, ⟨400, .text "Verification link is invalid or expired"⟩))
    ∧ (∀ t p, query.get "token" = .str t → t ≠ "" → jwtVerify env t = .ok p →
        p.get "t" ≠ .str "cf_email_verify" →
        cfVerifyEmail env s query = (s, ⟨400, .text "Invalid token"⟩))
    ∧ (∀ t p, query.get "token" = .str t → t ≠ "" → jwtVerify env t = .ok p →
        p.get "t" = .str "cf_email_verify" →
        castObjectId (p.get "cid") ≠ .error → castObjectId (p.get "uid") ≠ .error →
        (∀ c ∈ s.campaigns, ¬ (c.type = some "crowdfunding"
          ∧ castObjectId (p.get "cid") = .value c._id
          ∧ idCond (castObjectId (p.get "uid")) c.organizer = true)) →
        cfVerifyEmail env s query = (s, ⟨404, .text "Application not found"⟩)) := by
  refine ⟨fun hno => ?_, fun hchg => ?_, fun hmiss => ?_, fun t hq hne hbad => ?_,
    fun t p hq hne hj hty => ?_, fun t p hq hne hj hty hcid huid hnone => ?_⟩
  · rcases verify_outcome env s query with h | ⟨c, hc, _⟩
    · exact h
    · exact absurd ⟨c, hc⟩ hno
  · rcases verify_outcome env s query with h | ⟨c, hc, h | h⟩
    · exact absurd h.1 hchg
    · rw [h.2] at hchg
      exact absurd rfl hchg
    · exact ⟨c, hc, h.1, h.2⟩
  · unfold cfVerifyEmail
    simp [hmiss]
  · have htr : truthy (query.get "token") = true := by simp [hq, truthy, hne]
    have hjq : jwtVerifyQuery env (query.get "token") = none := by
      rw [hq]
      simp only [jwtVerifyQuery]
      cases hj : jwtVerify env t with
      | error e => rfl
      | ok p => exact absurd hj (hbad p)
    unfold cfVerifyEmail
    simp [htr, hjq]
  · have htr : truthy (query.get "token") = true := by simp [hq, truthy, hne]
    have hjq : jwtVerifyQuery env (query.get "token") = some p := by
      rw [hq]
      simp only [jwtVerifyQuery, hj]
    have hstr : (p.get "t").isStr "cf_email_verify" = false := by
      cases hv : (p.get "t").isStr "cf_email_verify" with
      | false => rfl
      | true => exact absurd (isStr_eq _ _ hv) hty
    unfold cfVerifyEmail
    simp [htr, hjq, hstr]
  · have htr : truthy (query.get "token") = true := by simp [hq, truthy, hne]
    have hjq : jwtVerifyQuery env (query.get "token") = some p := by
      rw [hq]
      simp only [jwtVerifyQuery, hj]
    have hstr : (p.get "t").isStr "cf_email_verify" = true := by
      rw [hty]; simp [JVal.isStr]
    have hfind : s.campaigns.find? (fun c =>
        idCond (castObjectId (p.get "cid")) (some c._id) && isCrowdfunding c
          && idCond (castObjectId (p.get "uid")) c.organizer) = none := by
      rw [List.find?_eq_none]
      intro c hc hcon
      simp only [Bool.and_eq_true] at hcon
      exact hnone c hc ⟨by simpa [isCrowdfunding] using hcon.1.2,
        idCond_some _ _ hcon.1.1, hcon.2⟩
    unfold cfVerifyEmail
    simp only [htr, hjq, hstr, Bool.not_true, Bool.false_eq_true, if_false]
    rw [hfind]

theorem verify_email_guarded_witness :
    cfVerifyEmail sampleEnv sampleStore [] = (sampleStore, ⟨400, .text "Missing token"⟩)
      ∧ cfVerifyEmail sampleEnv sampleStore [("token", .str "garbage")]
        = (sampleStore, ⟨400, .text "Verification link is invalid or expired"⟩)
      ∧ cfVerifyEmail sampleEnv sampleStore [("token", .str "user-token")]
        = (sampleStore, ⟨400, .text "Invalid token"⟩) :=
  ⟨(verify_email_guarded sampleEnv sampleStore []).2.2.1 (by decide),
   (verify_email_guarded sampleEnv sampleStore [("token", .str "garbage")]).2.2.2.1
      "garbage" (by rfl) (by decide) (fun p h => by
        have h2 : jwtVerify sampleEnv "garbage" = .error .invalid := rfl
        rw [h2] at h
        cases h),
   (verify_email_guarded sampleEnv sampleStore [("token", .str "user-token")]).2.2.2.2.1
      "user-token" [("userId", .str "2")] (by rfl) (by decide) (by rfl) (fun h => by
        have h2 : Body.get [("userId", JVal.str "2")] "t" = JVal.undefined := rfl
        rw [h2] at h
        cases h)⟩

/-! ### Stored file names -/

theorem squeezeSpaces_in_run : ∀ cs : List Char,
    squeezeSpaces true cs = squeezeSpaces false (cs.dropWhile isJsSpace) := by
  intro cs
  induction cs with
  | nil => rfl
  | cons c cs ih =>
    by_cases hc : isJsSpace c = true
    · simp only [squeezeSpaces, hc, if_true, List.dropWhile_cons_of_pos, ih]
    · have hc' : isJsSpace c = false := by simpa using hc
      simp [squeezeSpaces, hc', List.dropWhile]

theorem squeezeSpaces_eq_replaceRuns : ∀ (n : Nat) (cs : List Char), cs.length ≤ n →
    squeezeSpaces false cs = replaceRuns cs := by
  intro n
  induction n with
  | zero =>
    intro cs h
    have : cs = [] := List.length_eq_zero.mp (Nat.le_zero.mp h)
    subst this
    rw [replaceRuns, replaceRunsBy]
    rfl
  | succ n ih =>
    intro cs h
    cases cs with
    | nil =>
      rw [replaceRuns, replaceRunsBy]
      rfl
    | cons c cs =>
      have hlen : cs.length ≤ n := Nat.le_of_succ_le_succ h
      rw [replaceRuns, replaceRunsBy]
      by_cases hc : isJsSpace c = true
      · simp only [squeezeSpaces, hc, if_true, Bool.false_eq_true, if_false]
        rw [squeezeSpaces_in_run]
        rw [ih _ (le_trans (List.dropWhile_sublist _).length_le hlen)]
        rfl
      · have hc' : isJsSpace c = false := by simpa using hc
        simp only [squeezeSpaces, hc', Bool.false_eq_true, if_false]
        rw [ih _ hlen]
        rfl

theorem squeezeSpaces_no_space : ∀ (cs : List Char) (b : Bool),
    ∀ c ∈ squeezeSpaces b cs, isJsSpace c = false := by
  intro cs
  induction cs with
  | nil => intro b c hc; simp [squeezeSpaces] at hc
  | cons x xs ih =>
    intro b c hc
    by_cases hx : isJsSpace x = true
    · cases b with
      | true =>
        simp only [squeezeSpaces, hx, if_true] at hc
        exact ih true c hc
      | false =>
        simp only [squeezeSpaces, hx, if_true, Bool.false_eq_true, if_false,
          List.mem_cons] at hc
        rcases hc with h | h
        · rw [h]; decide
        · exact ih true c h
    · have hx' : isJsSpace x = false := by simpa using hx
      simp only [squeezeSpaces, hx', Bool.false_eq_true, if_false, List.mem_cons] at hc
      rcases hc with h | h
      · rw [h]; exact hx'
      · exact ih false c h

theorem digitChar_no_space (d : Nat) (h : d < 10) : isJsSpace (Nat.digitChar d) = false := by
  interval_cases d <;> decide

theorem toDigitsCore_no_space : ∀ (fuel n : Nat) (acc : List Char),
    (∀ c ∈ acc, isJsSpace c = false) →
    ∀ c ∈ Nat.toDigitsCore 10 fuel n acc, isJsSpace c = false := by
  intro fuel
  induction fuel with
  | zero => intro n acc hacc c hc; simpa [Nat.toDigitsCore] using hacc c (by simpa [Nat.toDigitsCore] using hc)
  | succ fuel ih =>
    intro n acc hacc c hc
    simp only [Nat.toDigitsCore] at hc
    have hd : ∀ x ∈ Nat.digitChar (n % 10) :: acc, isJsSpace x = false := by
      intro x hx
      rcases List.mem_cons.mp hx with h | h
      · rw [h]; exact digitChar_no_space _ (Nat.mod_lt _ (by decide))
      · exact hacc x h
    split at hc
    · exact hd c hc
    · exact ih _ _ hd c hc

theorem natRepr_no_space (n : Nat) : ∀ c ∈ (toString n).data, isJsSpace c = false := by
  intro c hc
  have : (toString n).data = Nat.toDigits 10 n := rfl
  rw [this] at hc
  exact toDigitsCore_no_space _ _ [] (fun x hx => by simp at hx) c hc

theorem intRepr_no_space (t : Int) : ∀ c ∈ (toString t).data, isJsSpace c = false := by
  intro c hc
  cases t with
  | ofNat n =>
    have : (toString (Int.ofNat n)).data = (toString n).data := rfl
    rw [this] at hc
    exact natRepr_no_space n c hc
  | negSucc n =>
    have : (toString (Int.negSucc n)).data = '-' :: (toString (n + 1)).data := rfl
    rw [this] at hc
    rcases List.mem_cons.mp hc with h | h
    · rw [h]; decide
    · exact natRepr_no_space _ c h

theorem requireAuth_refusal_status (env : Env) (a : Option String) (r : Resp)
    (hr : requireAuth env a = .error r) : r.status = 401 := by
  unfold requireAuth at hr
  split at hr
  · simp only [Except.error.injEq] at hr
    rw [← hr]
  · split at hr
    · simp only [Except.error.injEq] at hr
      rw [← hr]
    · split at hr
      · simp only [Except.error.injEq] at hr
        rw [← hr]
      · exact absurd hr (by simp)

theorem uploadArray_names : ∀ (files : List UploadFile) (seen : Nat) (names : List String),
    uploadArray seen files = .ok names → names = files.map storageFilename := by
  intro files
  induction files with
  | nil =>
    intro seen names h
    simp only [uploadArray, Except.ok.injEq] at h
    rw [← h]
    rfl
  | cons f rest ih =>
    intro seen names h
    unfold uploadArray at h
    split at h
    · exact absurd h (by simp)
    · split at h
      · exact absurd h (by simp)
      · split at h
        · exact absurd h (by simp)
        · split at h
          · exact absurd h (by simp)
          · split at h
            · exact absurd h (by simp)
            · rename_i names1 hrest
              simp only [Except.ok.injEq] at h
              rw [← h, ih _ _ hrest]
              rfl

theorem applyHandler_documents (env : Env) (s s1 : Store) (userId : JVal) (body : Body)
    (names : List String) (c : Campaign)
    (h : applyHandler env s userId body names = (s1, ⟨201, .campaign c⟩)) :
    c.documents = names.map (fun n => "/uploads/crowdfunding/" ++ n) := by
  unfold applyHandler at h
  split at h
  · simp at h
  · split at h
    · simp at h
    · rename_i s2 saved hc
      have hsaved : saved = c := by
        split at h <;> simp_all
      unfold createCampaign at hc
      split at hc
      · exact absurd hc (by simp)
      · rename_i c0 hnew
        split at hc
        · simp only [Option.some.injEq, Prod.mk.injEq] at hc
          rw [← hsaved, ← hc.2]
          exact (newCampaign_apply env _ userId body _ c0 hnew).2.2.2.2.1
        · exact absurd hc (by simp)

theorem cfApply_documents (env : Env) (s s1 : Store) (authorization : Option String)
    (files : List UploadFile) (body : Body) (c : Campaign)
    (h : cfApply env s authorization files body = (s1, ⟨201, .campaign c⟩)) :
    c.documents = files.map (fun f => "/uploads/crowdfunding/" ++ storageFilename f) := by
  unfold cfApply at h
  split at h
  · rename_i r hr
    have := requireAuth_refusal_status env authorization r hr
    simp only [Prod.mk.injEq] at h
    rw [h.2] at this
    simp at this
  · split at h
    · simp at h
    · rename_i names hup
      rw [applyHandler_documents env s s1 _ body names c h,
        uploadArray_names files 0 names hup, List.map_map]
      rfl

/-- C28. The stored name of an uploaded file is the decimal timestamp of the
moment it is stored, a hyphen, and the original name with every maximal run
of white space replaced by one underscore; it holds no white space.  The
`documents` list of the record an application creates holds, for each
uploaded file in upload order, `/uploads/crowdfunding/` followed by the
stored name. -/
theorem stored_name_sanitised (f : UploadFile) :
    storageFilename f
        = toString f.clock ++ "-" ++ String.mk (replaceRuns f.originalname.data)
    ∧ (∀ c ∈ (storageFilename f).data, isJsSpace c = false)
    ∧ (∀ (env : Env) (s s1 : Store) (authorization : Option String)
        (files : List UploadFile) (body : Body) (c : Campaign),
        cfApply env s authorization files body = (s1, ⟨201, .campaign c⟩) →
        c.documents = files.map (fun g => "/uploads/crowdfunding/" ++ storageFilename g)
          ∧ c.documents.length = files.length) := by
  refine ⟨?_, ?_, ?_⟩
  · unfold storageFilename
    rw [squeezeSpaces_eq_replaceRuns _ _ (le_refl _)]
  · intro c hc
    unfold storageFilename at hc
    simp only [String.data_append, List.mem_append] at hc
    rcases hc with (h | h) | h
    · exact intRepr_no_space f.clock c h
    · have : c = '-' := by simpa using h
      rw [this]; decide
    · exact squeezeSpaces_no_space _ false c h
  · intro env s s1 authorization files body c h
    have hd := cfApply_documents env s s1 authorization files body c h
    exact ⟨hd, by rw [hd, List.length_map]⟩

theorem stored_name_sanitised_witness :
    (Campaign.mk 13 (some "Clinic") (some "A village clinic") (some 7000) (some 0)
        (some 1000000) none none (some "crowdfunding") none (some 2) (some "pending")
        ["/uploads/crowdfunding/1000000-land_deed_v2.pdf",
         "/uploads/crowdfunding/1000001-id_card.png"] none (some false) 1000000
        1000000).documents
      = [⟨"documents", "land  deed\tv2.pdf", "application/pdf", 2048, 1000000⟩,
         ⟨"documents", "id card.png", "image/png", 4096, 1000001⟩].map
          (fun g => "/uploads/crowdfunding/" ++ storageFilename g)
    ∧ (Campaign.mk 13 (some "Clinic") (some "A village clinic") (some 7000) (some 0)
        (some 1000000) none none (some "crowdfunding") none (some 2) (some "pending")
        ["/uploads/crowdfunding/1000000-land_deed_v2.pdf",
         "/uploads/crowdfunding/1000001-id_card.png"] none (some false) 1000000
        1000000).documents.length
      = [(⟨"documents", "land  deed\tv2.pdf", "application/pdf", 2048, 1000000⟩ : UploadFile),
         ⟨"documents", "id card.png", "image/png", 4096, 1000001⟩].length :=
  (stored_name_sanitised ⟨"documents", "land  deed\tv2.pdf", "application/pdf", 2048,
      1000000⟩).2.2 sampleEnv sampleStore
    (cfApply sampleEnv sampleStore (some "Bearer user-token")
      [⟨"documents", "land  deed\tv2.pdf", "application/pdf", 2048, 1000000⟩,
       ⟨"documents", "id card.png", "image/png", 4096, 1000001⟩]
      [("title", .str "Clinic"), ("description", .str "A village clinic"),
       ("targetAmount", .str "7000")]).1
    (some "Bearer user-token")
    [⟨"documents", "land  deed\tv2.pdf", "application/pdf", 2048, 1000000⟩,
     ⟨"documents", "id card.png", "image/png", 4096, 1000001⟩]
    [("title", .str "Clinic"), ("description", .str "A village clinic"),
     ("targetAmount", .str "7000")]
    _ (Prod.ext rfl (by decide))

/-! ### Stored passwords and the generic campaign routes -/

/-- C29 (code at the failing input). `PUT /api/users/2` with the body
`{ password: "plain" }` is answered 200 and leaves the string "plain" itself
in the `password` field of user `2`: `findByIdAndUpdate` runs no save hook,
so nothing hashes it.  The user can then not log in with that password,
since `bcrypt.compare` against a string that is no hash is false. -/
theorem admin_update_stores_plain_password :
    (apiUserUpdate sampleStore "2" [("password", .str "plain")]).2.status = 200
      ∧ ((apiUserUpdate sampleStore "2" [("password", .str "plain")]).1.userById 2).map
          (fun u => u.password) = some (some (.raw "plain"))
      ∧ login (apiUserUpdate sampleStore "2" [("password", .str "plain")]).1
          [("email", .str "bo@hopenest.org"), ("password", .str "plain")]
        = ⟨400, .message "Invalid credentials"⟩ := by
  decide

/-- The four other paths that set a password store its hash: signup, admin
user creation, profile update with `newPassword`, and password reset, each at
a sample request. -/
theorem save_paths_hash_password :
    ((signup sampleEnv sampleStore
        [("name", .str "Flo"), ("email", .str "flo@hopenest.org"),
         ("password", .str "flopw")]).1.userById 13).map (fun u => u.password)
      = some (some (.hash "flopw"))
    ∧ ((apiUserCreate sampleEnv sampleStore
        [("name", .str "Flo"), ("email", .str "flo@hopenest.org"),
         ("password", .str "flopw")]).1.userById 13).map (fun u => u.password)
      = some (some (.hash "flopw"))
    ∧ ((profileUpdate sampleEnv sampleStore (some "Bearer user-token")
        [("name", .str "Bo"), ("email", .str "bo@hopenest.org"),
         ("currentPassword", .str "bopw"), ("newPassword", .str "fresh")]).1.userById
        2).map (fun u => u.password) = some (some (.hash "fresh"))
    ∧ ((resetPassword sampleEnv sampleStore
        [("email", .str "bo@hopenest.org"), ("token", .str "ABC123"),
         ("newPassword", .str "fresh")]).1.userById 2).map (fun u => u.password)
      = some (some (.hash "fresh")) := by
  decide

theorem newUser_password_str (env : Env) (id : Nat) (data : Body) (u : User) (p : String)
    (h : newUser env id data = some u) (hp : data.get "password" = JVal.str p) :
    u.password = some (.raw p) := by
  unfold newUser at h
  simp only at h
  split at h
  · simp only [Option.some.injEq] at h
    rw [← h]
    simp [hp, pathOr, castString, rawPassword, Option.join]
  · exact absurd h (by simp)

/-- Every user that `new User(data).save()` inserts with a string password
holds the hash of that string. -/
theorem createUser_hashes (env : Env) (s s1 : Store) (data : Body) (h : User) (p : String)
    (hc : createUser env s data = some (s1, h)) (hp : data.get "password" = JVal.str p) :
    h.password = some (.hash p) ∧ h ∈ s1.users := by
  have hmem : h ∈ s1.users := by
    rw [(createUser_spec env s s1 data h hc).1]
    simp
  refine ⟨?_, hmem⟩
  unfold createUser at hc
  split at hc
  · exact absurd hc (by simp)
  · rename_i u hu
    have hraw := newUser_password_str env _ data u p hu hp
    split at hc
    · simp only [hp] at hc
      split at hc
      · exact absurd hc (by simp)
      · rename_i h2 hh
        split at hc
        · exact absurd hc (by simp)
        · simp only [Option.some.injEq, Prod.mk.injEq] at hc
          obtain ⟨_, rfl⟩ := hc
          unfold hashPassword at hh
          rw [hraw] at hh
          simp only [Option.some.injEq] at hh
          rw [← hh]
          rfl
    · exact absurd hc (by simp)

theorem campaignById_of_mem (s : Store) (c : Campaign) (hs : s.CampaignsOk)
    (hc : c ∈ s.campaigns) : s.campaignById c._id = some c := by
  unfold Store.campaignById
  cases hf : s.campaigns.find? (fun d => d._id == c._id) with
  | none =>
    rw [List.find?_eq_none] at hf
    exact absurd (by simp) (hf c hc)
  | some x =>
    have hx := List.find?_some hf
    have hxc : x._id = c._id := by simpa using hx
    rw [eq_of_mem_of_id_eq s hs x c (List.mem_of_find?_eq_some hf) hc hxc]

/-- C30. The generic campaign routes read no `Authorization` header and
filter on neither type nor status: `GET /api/campaigns` answers 200 with
every campaign of the store, and `GET /api/campaigns/:id` answers 200 with
the campaign of that id whenever there is one.  So a crowdfunding
application that is pending or rejected is in the answer of both, documents
list included. -/
theorem generic_campaign_routes_unfiltered (s : Store) :
    apiCampaigns s = ⟨200, .campaigns s.campaigns⟩
    ∧ (∀ id i c, castIdParam id = some i → s.campaignById i = some c →
        apiCampaign s id = ⟨200, .campaign c⟩)
    ∧ (∀ c ∈ s.campaigns, s.CampaignsOk → c.type = some "crowdfunding" →
        (c.status = some "pending" ∨ c.status = some "rejected") →
        (∃ l, (apiCampaigns s).body = .campaigns l ∧ c ∈ l)
          ∧ ∀ id, castIdParam id = some c._id →
              ∃ d, apiCampaign s id = ⟨200, .campaign d⟩ ∧ d = c
                ∧ d.documents = c.documents ∧ d.status = c.status) := by
  refine ⟨rfl, fun id i c hid hc => ?_, fun c hc hs _ _ => ?_⟩
  · unfold apiCampaign
    simp only [hid, hc]
  · refine ⟨⟨s.campaigns, rfl, hc⟩, fun id hid => ⟨c, ?_, rfl, rfl, rfl⟩⟩
    unfold apiCampaign
    simp only [hid, campaignById_of_mem s c hs hc]

theorem generic_campaign_routes_unfiltered_witness :
    apiCampaign sampleStore "12" = ⟨200, .campaign sampleDraft⟩
      ∧ ∃ d, apiCampaign accountStore "11" = ⟨200, .campaign d⟩ ∧ d = sampleRejected
          ∧ d.documents = sampleRejected.documents ∧ d.status = sampleRejected.status :=
  ⟨(generic_campaign_routes_unfiltered sampleStore).2.1 "12" 12 sampleDraft (by decide)
      (by decide),
   ((generic_campaign_routes_unfiltered accountStore).2.2 sampleRejected (by decide)
      ⟨by decide, by decide⟩ (by decide) (Or.inr (by decide))).2 "11" (by decide)⟩

end HopeNest
